import Mathlib

/-!
# dmabuf-v4l2-demo: a model of `dmabuf.c` and `dmabuf-v4l2.c`

The two C files are embedded as Lean functions.  Every call that leaves the
process (open, ioctl, mmap, poll, fopen, ...) is answered by an environment
`Env`; each answer may depend on the whole history of calls issued so far, so
an `Env` stands for an arbitrary behaviour of the kernel, the capture device
and the heap.  Every function returns the list of calls it issued (in the
order of issue) together with its result.

Loops that the C code does not bound (the retry loop of `dmabuf_sync`) take a
`fuel` argument; a result `none` / `Outcome.diverged` means that the fuel was
used up before the C function returned.  A `poll` that waits without time
limit (negative timeout) on a descriptor that stays silent never returns; the
run then ends with `Outcome.diverged` as well.

`printf` output is not modelled.
-/

namespace DmabufV4l2

/-! ## Constants of the system headers -/

/-- errno value of an interrupted system call (asm-generic/errno-base.h). -/
def EINTR : Nat := 4
/-- errno value of "try again" (asm-generic/errno-base.h). -/
def EAGAIN : Nat := 11
/-- errno value of "invalid argument" (asm-generic/errno-base.h). -/
def EINVAL : Nat := 22

def O_RDWR : Nat := 2
def O_CLOEXEC : Nat := 524288

def DMA_BUF_SYNC_READ : Nat := 1 <<< 0
def DMA_BUF_SYNC_WRITE : Nat := 2 <<< 0
def DMA_BUF_SYNC_RW : Nat := DMA_BUF_SYNC_READ ||| DMA_BUF_SYNC_WRITE
def DMA_BUF_SYNC_START : Nat := 0 <<< 2
def DMA_BUF_SYNC_END : Nat := 1 <<< 2

def V4L2_CAP_VIDEO_CAPTURE : Nat := 0x00000001
def V4L2_CAP_VIDEO_CAPTURE_MPLANE : Nat := 0x00001000
def V4L2_BUF_TYPE_VIDEO_CAPTURE : Nat := 1
def V4L2_BUF_TYPE_VIDEO_CAPTURE_MPLANE : Nat := 9
def V4L2_MEMORY_DMABUF : Nat := 4

def PROT_READ : Nat := 1
def PROT_WRITE : Nat := 2
def MAP_SHARED : Nat := 1

/-! ## Data of the V4L2 interface -/

/-- The `struct v4l2_pix_format` of linux/videodev2.h. -/
structure v4l2_pix_format where
  width : Nat
  height : Nat
  pixelformat : Nat
  field : Nat
  bytesperline : Nat
  sizeimage : Nat
  colorspace : Nat
  priv : Nat
  flags : Nat
  ycbcr_enc : Nat
  quantization : Nat
  xfer_func : Nat
  deriving DecidableEq, Repr, Inhabited

/-- The `struct v4l2_format`: the buffer type, the member `fmt.pix` of the
union and the bytes of the union that lie behind `fmt.pix`. -/
structure v4l2_format where
  type : Nat
  pix : v4l2_pix_format
  raw_rest : List Nat
  deriving DecidableEq, Repr, Inhabited

/-- The fields of `struct v4l2_plane` the program touches. -/
structure v4l2_plane where
  bytesused : Nat
  data_offset : Nat
  m_fd : Int
  deriving DecidableEq, Repr, Inhabited

/-- The fields of `struct v4l2_buffer` the program touches.  `m_fd` is the
member `m.fd`; `planes0` is element 0 of the array `m.planes` points to (used
with the multi-planar API only). -/
structure v4l2_buffer where
  index : Nat
  type : Nat
  bytesused : Nat
  memory : Nat
  m_fd : Int
  length : Nat
  planes0 : v4l2_plane
  deriving DecidableEq, Repr, Inhabited

/-- The value of a `struct v4l2_plane` after `memset(.., 0, ..)`. -/
def v4l2_plane.zero : v4l2_plane := ⟨0, 0, 0⟩

/-- The value of a `struct v4l2_buffer` after `memset(&buf, 0, sizeof(buf))`. -/
def v4l2_buffer.zero : v4l2_buffer := ⟨0, 0, 0, 0, 0, 0, v4l2_plane.zero⟩

/-- The value of a `struct v4l2_format` after `memset(&fmt, 0, sizeof(fmt))`. -/
def v4l2_format.zero : v4l2_format := ⟨0, ⟨0, 0, 0, 0, 0, 0, 0, 0, 0, 0, 0, 0⟩, []⟩

/-! ## Calls and environment -/

/-- One call issued by the program, with its arguments and its answer. -/
inductive Event where
  /-- Call `open(path, flags)` returned `ret`. -/
  | sys_open (path : String) (flags : Nat) (ret : Int)
  /-- Call `close(fd)`. -/
  | sys_close (fd : Int)
  /-- Call `ioctl(fd, VIDIOC_QUERYCAP, &caps)` returned `ret` and `caps.capabilities`. -/
  | ioctl_querycap (fd : Int) (ret : Int) (capabilities : Nat)
  /-- Call `ioctl(fd, VIDIOC_G_FMT, &fmt)`: `arg` is `fmt` before, `out` after the call. -/
  | ioctl_g_fmt (fd : Int) (arg : v4l2_format) (ret : Int) (out : v4l2_format)
  /-- Call `ioctl(fd, VIDIOC_S_FMT, &fmt)`: `arg` is `fmt` before, `out` after the call. -/
  | ioctl_s_fmt (fd : Int) (arg : v4l2_format) (ret : Int) (out : v4l2_format)
  /-- Call `ioctl(fd, VIDIOC_REQBUFS, &rqbufs)`; `granted` is `rqbufs.count` after the call. -/
  | ioctl_reqbufs (fd : Int) (count type memory : Nat) (ret : Int) (granted : Nat)
  /-- Call `ioctl(heap_fd, DMA_HEAP_IOCTL_ALLOC, &alloc)`; `fd` is `alloc.fd` after the call. -/
  | ioctl_heap_alloc (heap_fd : Int) (len fd_flags : Nat) (ret : Int) (fd : Int)
  /-- Call `ioctl(fd, DMA_BUF_SET_NAME, name)`. -/
  | ioctl_set_name (fd : Int) (name : String)
  /-- Call `mmap(0, len, prot, flags, fd, 0)`; `none` is MAP_FAILED. -/
  | mmap (len prot flags : Nat) (fd : Int) (addr : Option Nat)
  /-- Call `ioctl(fd, VIDIOC_QBUF, &buf)`. -/
  | ioctl_qbuf (fd : Int) (buf : v4l2_buffer) (ret : Int)
  /-- Call `ioctl(fd, VIDIOC_STREAMON, &type)`. -/
  | ioctl_streamon (fd : Int) (type : Nat) (ret : Int)
  /-- Call `poll(pfds, 1, timeout)` on the video descriptor returned `ret`. -/
  | poll (fd : Int) (timeout : Int) (ret : Int)
  /-- Call `poll(pfds, 1, timeout)` on the video descriptor that never returns. -/
  | poll_blocked (fd : Int) (timeout : Int)
  /-- Call `ioctl(fd, VIDIOC_DQBUF, &buf)`: `arg` is `buf` before, `out` after the call. -/
  | ioctl_dqbuf (fd : Int) (arg : v4l2_buffer) (ret : Int) (out : v4l2_buffer)
  /-- Entry into `dmabuf_sync(buf_fd, start)`. -/
  | call_dmabuf_sync (buf_fd : Int) (start : Bool)
  /-- Call `ioctl(buf_fd, DMA_BUF_IOCTL_SYNC, &sync)` returned `ret`, leaving `errno`. -/
  | ioctl_sync (buf_fd : Int) (flags : Nat) (ret : Int) (errno : Nat)
  /-- Call `asprintf(&filename, ...)`; `none` when it failed. -/
  | asprintf (filename : Option String)
  /-- Call `fopen(filename, "w+")`; `ok` is false when it returned NULL. -/
  | fopen (filename : String) (ok : Bool)
  /-- Call `fwrite(p, size, 1, fp)`: the read of `size` bytes at address `p`;
  `size` is the `size_t` argument. -/
  | fwrite (p : Nat) (size : Nat) (filename : String)
  /-- Call `fclose(fp)`. -/
  | fclose (filename : String)
  deriving DecidableEq, Repr

/-- The history of a run: the calls issued so far, oldest first. -/
abbrev Trace := List Event

/-- The answers of everything outside the program.  Each answer is a function
of the history at the time of the call and of the arguments of the call. -/
structure Env where
  sys_open : Trace → String → Nat → Int
  ioctl_querycap : Trace → Int → Int × Nat
  ioctl_g_fmt : Trace → Int → v4l2_format → Int × v4l2_format
  ioctl_s_fmt : Trace → Int → v4l2_format → Int × v4l2_format
  ioctl_reqbufs : Trace → Int → Nat → Nat → Nat → Int × Nat
  ioctl_heap_alloc : Trace → Int → Nat → Nat → Int × Int
  mmap : Trace → Nat → Nat → Nat → Int → Option Nat
  ioctl_qbuf : Trace → Int → v4l2_buffer → Int
  ioctl_streamon : Trace → Int → Nat → Int
  /-- Answer of `poll(pfds, 1, timeout)` when it returns. -/
  poll : Trace → Int → Int → Int
  /-- Whether a `poll` that waits without time limit at this point waits for
  ever: the descriptor never becomes ready and no signal arrives. -/
  poll_blocks : Trace → Int → Bool
  ioctl_dqbuf : Trace → Int → v4l2_buffer → Int × v4l2_buffer
  /-- Answer `(ret, errno)` to attempt number `k` of the sync ioctl of the call
  of `dmabuf_sync` entered at the given history. -/
  ioctl_sync : Trace → Nat → Int → Nat → Int × Nat
  /-- Whether `asprintf` gets its memory. -/
  asprintf_ok : Trace → Bool
  fopen_ok : Trace → String → Bool

/-! ## dmabuf.c -/

def heap_names : List String := ["/dev/dma_heap/linux,cma", "/dev/dma_heap/reserved"]

/-- The loop `for(i = 0; i < 2; i++)` of `dmabuf_heap_open`, over the entries of
`heap_names` that are still to be tried. -/
def dmabuf_heap_open_loop (env : Env) : Trace → List String → Trace × Int
  | _, [] => ([], -1)
  | h, name :: rest =>
    let fd := env.sys_open h name O_RDWR
    let e := Event.sys_open name O_RDWR fd
    if fd ≥ 0 then
      ([e], fd)
    else
      let r := dmabuf_heap_open_loop env (h ++ [e]) rest
      (e :: r.1, r.2)

/-- Function `int dmabuf_heap_open()`. -/
def dmabuf_heap_open (env : Env) (h : Trace) : Trace × Int :=
  dmabuf_heap_open_loop env h heap_names

/-- Function `int dmabuf_heap_alloc(int heap_fd, const char *name, size_t size)`;
`name = none` is the NULL pointer. -/
def dmabuf_heap_alloc (env : Env) (h : Trace) (heap_fd : Int) (name : Option String)
    (size : Nat) : Trace × Int :=
  let fd_flags := O_CLOEXEC ||| O_RDWR
  let r := env.ioctl_heap_alloc h heap_fd size fd_flags
  let e := Event.ioctl_heap_alloc heap_fd size fd_flags r.1 r.2
  if r.1 < 0 then
    ([e], -1)
  else
    match name with
    | some n => ([e, Event.ioctl_set_name r.2 n], r.2)
    | none => ([e], r.2)

/-- The value of `sync.flags` in `dmabuf_sync`. -/
def sync_flags (start : Bool) : Nat :=
  (if start then DMA_BUF_SYNC_START else DMA_BUF_SYNC_END) ||| DMA_BUF_SYNC_RW

/-- The `do ... while` loop of `dmabuf_sync`.  `ioctl k buf_fd flags` is the
answer `(ret, errno)` to attempt number `k`; the loop is entered at attempt `k`
and may issue at most `fuel` attempts. -/
def dmabuf_sync_loop (ioctl : Nat → Int → Nat → Int × Nat) (buf_fd : Int) (flags : Nat) :
    Nat → Nat → Trace × Option Int
  | 0, _ => ([], none)
  | fuel + 1, k =>
    let r := ioctl k buf_fd flags
    let e := Event.ioctl_sync buf_fd flags r.1 r.2
    if r.1 = 0 then
      ([e], some 0)
    else if r.2 = EINTR ∨ r.2 = EAGAIN then
      let rest := dmabuf_sync_loop ioctl buf_fd flags fuel (k + 1)
      (e :: rest.1, rest.2)
    else
      ([e], some (-1))

/-- Function `static int dmabuf_sync(int buf_fd, bool start)`.  The first event marks
the entry into the function, the others are the attempts of the loop. -/
def dmabuf_sync (ioctl : Nat → Int → Nat → Int × Nat) (buf_fd : Int) (start : Bool)
    (fuel : Nat) : Trace × Option Int :=
  let r := dmabuf_sync_loop ioctl buf_fd (sync_flags start) fuel 0
  (Event.call_dmabuf_sync buf_fd start :: r.1, r.2)

/-- Function `int dmabuf_sync_start(int buf_fd)`. -/
def dmabuf_sync_start (ioctl : Nat → Int → Nat → Int × Nat) (buf_fd : Int) (fuel : Nat) :
    Trace × Option Int :=
  dmabuf_sync ioctl buf_fd true fuel

/-- Function `int dmabuf_sync_stop(int buf_fd)`. -/
def dmabuf_sync_stop (ioctl : Nat → Int → Nat → Int × Nat) (buf_fd : Int) (fuel : Nat) :
    Trace × Option Int :=
  dmabuf_sync ioctl buf_fd false fuel

/-! ## dmabuf-v4l2.c -/

/-- Reduction of a value to the range of `uint32_t`. -/
def u32 (x : Nat) : Nat := x % 2 ^ 32

/-- The `int` that a `uint32_t` / `unsigned int` value converts to (and that
`%d` prints for it). -/
def to_int (x : Nat) : Int :=
  if u32 x < 2 ^ 31 then (u32 x : Int) else (u32 x : Int) - 2 ^ 32

/-- A C string is a `String` whose characters each stand for one byte, the
byte being the code of the character. -/
def byte_of (c : Char) : Nat := c.toNat % 256

/-- The length of a C string: the number of bytes before the first NUL. -/
def strlen (s : String) : Nat := (s.data.takeWhile (fun c => byte_of c != 0)).length

/-- The byte `s[k]` of a C string. -/
def char_at (s : String) (k : Nat) : Nat := byte_of (s.data.getD k (Char.ofNat 0))

/-- The value of `(uint32_t) c` for a plain `char` holding the byte `b`.
Plain `char` is signed on some ABIs (x86) and unsigned on others (ARM Linux);
a negative `char` converts to `uint32_t` by sign extension. -/
def char_to_u32 (char_signed : Bool) (b : Nat) : Nat :=
  if char_signed ∧ b ≥ 128 then b + (2 ^ 32 - 256) else b

/-- Shift `x << s` on `uint32_t`. -/
def shl32 (x s : Nat) : Nat := u32 (x <<< s)

structure arguments_t where
  vdev_name : String
  timeout_ms : Nat
  loop_count : Nat
  output_dir : String
  width : Nat
  height : Nat
  fourcc : Nat
  deriving DecidableEq, Repr

/-- One answer of `getopt` other than -1: the option character `c` and `optarg`. -/
structure getopt_result where
  c : Char
  optarg : String
  deriving DecidableEq, Repr

/-- The expression of the `-f` case of `parse_arguments`. -/
def pack_fourcc (char_signed : Bool) (optarg : String) : Nat :=
  shl32 (char_to_u32 char_signed (char_at optarg 0)) 0 |||
  shl32 (char_to_u32 char_signed (char_at optarg 1)) 8 |||
  shl32 (char_to_u32 char_signed (char_at optarg 2)) 16 |||
  shl32 (char_to_u32 char_signed (char_at optarg 3)) 24

/-- Function `static int parse_arguments(int argc, char *argv[], struct arguments_t *args)`.
`opts` are the answers of `getopt` up to the first -1; `sscanf_u s` is the
value `sscanf(s, "%u", ..)` converts, `none` when it converts nothing.  The
result is `(ret, *args)`. -/
def parse_arguments (char_signed : Bool) (sscanf_u : String → Option Nat) :
    List getopt_result → arguments_t → Int × arguments_t
  | [], args => (0, args)
  | o :: rest, args =>
    if o.c = 'd' then
      parse_arguments char_signed sscanf_u rest { args with vdev_name := o.optarg }
    else if o.c = 'l' then
      match sscanf_u o.optarg with
      | none => (-1, args)
      | some v => parse_arguments char_signed sscanf_u rest { args with loop_count := u32 v }
    else if o.c = 'w' then
      match sscanf_u o.optarg with
      | none => (-1, args)
      | some v => parse_arguments char_signed sscanf_u rest { args with width := u32 v }
    else if o.c = 'h' then
      match sscanf_u o.optarg with
      | none => (-1, args)
      | some v => parse_arguments char_signed sscanf_u rest { args with height := u32 v }
    else if o.c = 'f' then
      if strlen o.optarg ≠ 4 then
        (-1, args)
      else
        parse_arguments char_signed sscanf_u rest
          { args with fourcc := pack_fourcc char_signed o.optarg }
    else if o.c = 't' then
      match sscanf_u o.optarg with
      | none => (-1, args)
      | some v => parse_arguments char_signed sscanf_u rest { args with timeout_ms := u32 v }
    else if o.c = 'o' then
      parse_arguments char_signed sscanf_u rest { args with output_dir := o.optarg }
    else if o.c = '?' then
      (-1, args)
    else
      parse_arguments char_signed sscanf_u rest args

/-- What `open_video_device` leaves behind: the calls it issued, its return
value and the values it wrote through `pix_fmt` and `mplane_api` (`none` when
it wrote nothing there). -/
structure open_video_device_result where
  events : Trace
  ret : Int
  pix_fmt : Option v4l2_pix_format
  mplane_api : Option Bool
  deriving DecidableEq, Repr

/-- The three conditional assignments to `fmt.fmt.pix` in `open_video_device`. -/
def overlay_format (fmt : v4l2_format) (in_width in_height in_fourcc : Nat) : v4l2_format :=
  let fmt1 := if in_width > 0 then { fmt with pix := { fmt.pix with width := in_width } } else fmt
  let fmt2 :=
    if in_height > 0 then { fmt1 with pix := { fmt1.pix with height := in_height } } else fmt1
  if in_fourcc ≠ 0 then { fmt2 with pix := { fmt2.pix with pixelformat := in_fourcc } } else fmt2

/-- The part of `open_video_device` from `memset(&fmt, 0, sizeof(fmt))` on;
`pre` are the calls issued before. -/
def open_video_device_format (env : Env) (h : Trace) (pre : Trace) (fd : Int)
    (in_width in_height in_fourcc : Nat) (mplane_api : Bool) : open_video_device_result :=
  let fmt0 : v4l2_format :=
    { v4l2_format.zero with
      type := if mplane_api then V4L2_BUF_TYPE_VIDEO_CAPTURE_MPLANE
              else V4L2_BUF_TYPE_VIDEO_CAPTURE }
  let g1 := env.ioctl_g_fmt (h ++ pre) fd fmt0
  let e_g1 := Event.ioctl_g_fmt fd fmt0 g1.1 g1.2
  if g1.1 ≠ 0 then
    ⟨pre ++ [e_g1, Event.sys_close fd], -1, none, some mplane_api⟩
  else
    let fmt := overlay_format g1.2 in_width in_height in_fourcc
    let s := env.ioctl_s_fmt (h ++ pre ++ [e_g1]) fd fmt
    let e_s := Event.ioctl_s_fmt fd fmt s.1 s.2
    if s.1 ≠ 0 then
      ⟨pre ++ [e_g1, e_s, Event.sys_close fd], -1, none, some mplane_api⟩
    else
      let g2 := env.ioctl_g_fmt (h ++ pre ++ [e_g1, e_s]) fd s.2
      let e_g2 := Event.ioctl_g_fmt fd s.2 g2.1 g2.2
      if g2.1 ≠ 0 then
        ⟨pre ++ [e_g1, e_s, e_g2, Event.sys_close fd], -1, none, some mplane_api⟩
      else
        ⟨pre ++ [e_g1, e_s, e_g2], fd, some g2.2.pix, some mplane_api⟩

/-- Function `int open_video_device(const char *vdevice, uint32_t in_width,
uint32_t in_height, uint32_t in_fourcc, struct v4l2_pix_format *pix_fmt,
bool *mplane_api)`. -/
def open_video_device (env : Env) (h : Trace) (vdevice : String)
    (in_width in_height in_fourcc : Nat) : open_video_device_result :=
  let fd := env.sys_open h vdevice O_RDWR
  let e_open := Event.sys_open vdevice O_RDWR fd
  if fd < 0 then
    ⟨[e_open], -1, none, none⟩
  else
    let q := env.ioctl_querycap (h ++ [e_open]) fd
    let e_q := Event.ioctl_querycap fd q.1 q.2
    if q.1 ≠ 0 then
      ⟨[e_open, e_q, Event.sys_close fd], -1, none, none⟩
    else if q.2 &&& V4L2_CAP_VIDEO_CAPTURE ≠ 0 then
      open_video_device_format env h [e_open, e_q] fd in_width in_height in_fourcc false
    else if q.2 &&& V4L2_CAP_VIDEO_CAPTURE_MPLANE ≠ 0 then
      open_video_device_format env h [e_open, e_q] fd in_width in_height in_fourcc true
    else
      ⟨[e_open, e_q, Event.sys_close fd], -1, none, none⟩

/-- How a run of `main` ends. -/
inductive Outcome where
  /-- Function `main` returned `rc`. -/
  | returned (rc : Int)
  /-- Function `main` has not returned: the fuel was used up, or a call
  never returns. -/
  | diverged
  /-- An array was indexed outside its bounds (the C standard gives the
  program no meaning from there on). -/
  | undefined
  deriving DecidableEq, Repr

/-- The constant `num_buffers` of `main`. -/
def num_buffers : Nat := 3

/-- The element `a[i]` of a C array for an `int` index, `none` outside the array. -/
def array_get {α : Type} (a : List α) (i : Int) : Option α :=
  if i < 0 then none else a.get? i.toNat

/-- The loop "allocate and map dmabufs" of `main`: `n` iterations are left,
`i` is the loop variable, `fds` and `maps` hold the elements `0 .. i-1` of
`dmabuf_fds` and `dmabuf_maps`.  The result carries the two arrays when the
loop ran to its end and `none` when it left by `goto exit_cleanup`. -/
def alloc_map_loop (env : Env) (heap_fd : Int) (sizeimage : Nat) :
    Nat → Trace → Nat → List Int → List Nat → Trace × Option (List Int × List Nat)
  | 0, _, _, fds, maps => ([], some (fds, maps))
  | n + 1, h, i, fds, maps =>
    let a := dmabuf_heap_alloc env h heap_fd none sizeimage
    if a.2 < 0 then
      (a.1, none)
    else
      let m := env.mmap (h ++ a.1) sizeimage (PROT_WRITE ||| PROT_READ) MAP_SHARED a.2
      let e_m := Event.mmap sizeimage (PROT_WRITE ||| PROT_READ) MAP_SHARED a.2 m
      match m with
      | none => (a.1 ++ [e_m], none)
      | some addr =>
        let r := alloc_map_loop env heap_fd sizeimage n (h ++ a.1 ++ [e_m]) (i + 1)
          (fds ++ [a.2]) (maps ++ [addr])
        (a.1 ++ e_m :: r.1, r.2)

/-- The `struct v4l2_buffer` that `main` hands to VIDIOC_QBUF for index
`index` and descriptor `fd` (both in the initial loop and in the capture loop). -/
def qbuf_arg (mplane_api : Bool) (index : Nat) (fd : Int) : v4l2_buffer :=
  if mplane_api then
    { v4l2_buffer.zero with
      index := index, memory := V4L2_MEMORY_DMABUF,
      type := V4L2_BUF_TYPE_VIDEO_CAPTURE_MPLANE, length := 1,
      planes0 := { v4l2_plane.zero with m_fd := fd } }
  else
    { v4l2_buffer.zero with
      index := index, memory := V4L2_MEMORY_DMABUF,
      type := V4L2_BUF_TYPE_VIDEO_CAPTURE, m_fd := fd }

/-- The `struct v4l2_buffer` that `main` hands to VIDIOC_DQBUF. -/
def dqbuf_arg (mplane_api : Bool) : v4l2_buffer :=
  if mplane_api then
    { v4l2_buffer.zero with
      memory := V4L2_MEMORY_DMABUF,
      type := V4L2_BUF_TYPE_VIDEO_CAPTURE_MPLANE, length := 1 }
  else
    { v4l2_buffer.zero with
      memory := V4L2_MEMORY_DMABUF, type := V4L2_BUF_TYPE_VIDEO_CAPTURE }

/-- The loop "enque dmabufs into v4l2 device" of `main`: `n` iterations are
left, `i` is the loop variable.  The result is true when the loop ran to its
end and false when it left by `goto exit_cleanup`; `none` stands for an access
outside `dmabuf_fds`. -/
def enqueue_loop (env : Env) (v4l2_fd : Int) (mplane_api : Bool) (fds : List Int) :
    Nat → Trace → Nat → Trace × Option Bool
  | 0, _, _ => ([], some true)
  | n + 1, h, i =>
    match array_get fds i with
    | none => ([], none)
    | some fd =>
      let buf := qbuf_arg mplane_api i fd
      let q := env.ioctl_qbuf h v4l2_fd buf
      let e := Event.ioctl_qbuf v4l2_fd buf q
      if q ≠ 0 then
        ([e], some false)
      else
        let r := enqueue_loop env v4l2_fd mplane_api fds n (h ++ [e]) (i + 1)
        (e :: r.1, r.2)

/-- The conversion of an `int` to `size_t` (64 bits wide): a value that is not
negative is kept, a negative one wraps around to `2^64 + x`. -/
def to_size_t (x : Int) : Nat := (x % 2 ^ 64).toNat

/-- Function `static int dump_image(const void *p, int size, const char *filename)`;
the call `fwrite(p, size, 1, fp)` takes the `int size` as a `size_t`. -/
def dump_image (env : Env) (h : Trace) (p : Nat) (size : Int) (filename : String) :
    Trace × Int :=
  let ok := env.fopen_ok h filename
  if ok = false then
    ([Event.fopen filename false], -1)
  else
    ([Event.fopen filename true, Event.fwrite p (to_size_t size) filename,
      Event.fclose filename], 0)

/-- The string `asprintf` builds from "%s/image_%d.raw", `output_dir` and the
`unsigned int loop_count`. -/
def image_filename (output_dir : String) (loop_count : Nat) : String :=
  output_dir ++ "/image_" ++ toString (to_int loop_count) ++ ".raw"

/-- The block between `dmabuf_sync_start` and `dmabuf_sync_stop` in the
capture loop of `main`: build the file name and dump the image. -/
def dump_block (env : Env) (h : Trace) (args : arguments_t) (mplane_api : Bool)
    (buf : v4l2_buffer) (map : Nat) (loop_count : Nat) : Trace :=
  if env.asprintf_ok h = true then
    let filename := image_filename args.output_dir loop_count
    let offset := if mplane_api then u32 buf.planes0.data_offset else 0
    let length := if mplane_api then u32 buf.planes0.bytesused else u32 buf.bytesused
    let d := dump_image env (h ++ [Event.asprintf (some filename)]) (map + offset)
      (to_int length) filename
    Event.asprintf (some filename) :: d.1
  else
    [Event.asprintf none]

/-- The part of one iteration of the capture loop of `main` behind the
assignment `buf_index = buf.index`, for the elements `fd = dmabuf_fds[buf_index]`
and `map = dmabuf_maps[buf_index]`.  The result is `none` when the iteration
reaches `loop_count++` and the way `main` ends otherwise. -/
def process_buffer (env : Env) (args : arguments_t) (v4l2_fd : Int) (mplane_api : Bool)
    (fuel : Nat) (h : Trace) (loop_count : Nat) (buf : v4l2_buffer) (buf_index : Int)
    (fd : Int) (map : Nat) : Trace × Option Outcome :=
  let s1 := dmabuf_sync_start (env.ioctl_sync h) fd fuel
  match s1.2 with
  | none => (s1.1, some Outcome.diverged)
  | some _ =>
    let d := dump_block env (h ++ s1.1) args mplane_api buf map loop_count
    let s2 := dmabuf_sync_stop (env.ioctl_sync (h ++ s1.1 ++ d)) fd fuel
    match s2.2 with
    | none => (s1.1 ++ d ++ s2.1, some Outcome.diverged)
    | some _ =>
      let qb := qbuf_arg mplane_api (buf_index % 2 ^ 32).toNat fd
      let q := env.ioctl_qbuf (h ++ s1.1 ++ d ++ s2.1) v4l2_fd qb
      let e_q := Event.ioctl_qbuf v4l2_fd qb q
      if q ≠ 0 then
        (s1.1 ++ d ++ s2.1 ++ [e_q], some (Outcome.returned 0))
      else
        (s1.1 ++ d ++ s2.1 ++ [e_q], none)

/-- The body of the capture loop of `main`.  The result is `none` when the
iteration reaches `loop_count++` and the way `main` ends otherwise. -/
def loop_body (env : Env) (args : arguments_t) (v4l2_fd : Int) (mplane_api : Bool)
    (fds : List Int) (maps : List Nat) (fuel : Nat) (h : Trace) (loop_count : Nat) :
    Trace × Option Outcome :=
  let arg := dqbuf_arg mplane_api
  let r := env.ioctl_dqbuf h v4l2_fd arg
  let e_dq := Event.ioctl_dqbuf v4l2_fd arg r.1 r.2
  if r.1 ≠ 0 then
    ([e_dq], some (Outcome.returned 0))
  else
    let buf_index := to_int r.2.index
    match array_get fds buf_index, array_get maps buf_index with
    | some fd, some map =>
      let p := process_buffer env args v4l2_fd mplane_api fuel (h ++ [e_dq]) loop_count r.2
        buf_index fd map
      (e_dq :: p.1, p.2)
    | _, _ => ([e_dq], some Outcome.undefined)

/-- Call `poll(pfds, 1, timeout)` of the C library: with a timeout that is not
negative the call returns at the latest when the time is over; a negative
timeout means to wait without time limit, and the call returns only if the
descriptor becomes ready or a signal arrives.  The result is `none` when the
call never returns. -/
def sys_poll (env : Env) (h : Trace) (fd : Int) (timeout : Int) : Option Int :=
  if timeout < 0 ∧ env.poll_blocks h fd = true then none else some (env.poll h fd timeout)

/-- The capture loop `while((poll(pfds, 1, args.timeout_ms) > 0) &&
(loop_count < args.loop_count))` of `main`, entered with the value `loop_count`.
The `uint32_t args.timeout_ms` is converted to the `int` parameter of `poll`.
Each evaluation of the loop condition takes one unit of fuel. -/
def capture_loop (env : Env) (args : arguments_t) (v4l2_fd : Int) (mplane_api : Bool)
    (fds : List Int) (maps : List Nat) : Nat → Trace → Nat → Trace × Outcome
  | 0, _, _ => ([], Outcome.diverged)
  | fuel + 1, h, loop_count =>
    let timeout := to_int args.timeout_ms
    match sys_poll env h v4l2_fd timeout with
    | none => ([Event.poll_blocked v4l2_fd timeout], Outcome.diverged)
    | some pr =>
      let e_poll := Event.poll v4l2_fd timeout pr
      if pr > 0 ∧ loop_count < args.loop_count then
        let b := loop_body env args v4l2_fd mplane_api fds maps fuel (h ++ [e_poll]) loop_count
        match b.2 with
        | some o => (e_poll :: b.1, o)
        | none =>
          let r := capture_loop env args v4l2_fd mplane_api fds maps fuel
            (h ++ e_poll :: b.1) (loop_count + 1)
          (e_poll :: b.1 ++ r.1, r.2)
      else
        ([e_poll], Outcome.returned 0)

/-- The part of `main` from "request buffers from v4l2 device" up to and
including VIDIOC_STREAMON.  The result carries `dmabuf_fds` and `dmabuf_maps`
when stream-on succeeded, and the way `main` ends otherwise. -/
def setup_streaming (env : Env) (h : Trace) (v4l2_fd : Int) (pix_fmt : v4l2_pix_format)
    (mplane_api : Bool) : Trace × (Outcome ⊕ (List Int × List Nat)) :=
  let type := if mplane_api then V4L2_BUF_TYPE_VIDEO_CAPTURE_MPLANE
              else V4L2_BUF_TYPE_VIDEO_CAPTURE
  let rq := env.ioctl_reqbufs h v4l2_fd num_buffers type V4L2_MEMORY_DMABUF
  let e_rq := Event.ioctl_reqbufs v4l2_fd num_buffers type V4L2_MEMORY_DMABUF rq.1 rq.2
  if rq.1 ≠ 0 then
    ([e_rq], Sum.inl (Outcome.returned 0))
  else if u32 rq.2 < num_buffers then
    ([e_rq], Sum.inl (Outcome.returned 0))
  else
    let ho := dmabuf_heap_open env (h ++ [e_rq])
    if ho.2 < 0 then
      (e_rq :: ho.1, Sum.inl (Outcome.returned 0))
    else
      let am := alloc_map_loop env ho.2 pix_fmt.sizeimage num_buffers (h ++ e_rq :: ho.1) 0 [] []
      match am.2 with
      | none => (e_rq :: ho.1 ++ am.1, Sum.inl (Outcome.returned 0))
      | some (fds, maps) =>
        let en := enqueue_loop env v4l2_fd mplane_api fds num_buffers
          (h ++ e_rq :: ho.1 ++ am.1) 0
        match en.2 with
        | none => (e_rq :: ho.1 ++ am.1 ++ en.1, Sum.inl Outcome.undefined)
        | some false => (e_rq :: ho.1 ++ am.1 ++ en.1, Sum.inl (Outcome.returned 0))
        | some true =>
          let so := env.ioctl_streamon (h ++ e_rq :: ho.1 ++ am.1 ++ en.1) v4l2_fd type
          let e_so := Event.ioctl_streamon v4l2_fd type so
          if so ≠ 0 then
            (e_rq :: ho.1 ++ am.1 ++ en.1 ++ [e_so], Sum.inl (Outcome.returned 0))
          else
            (e_rq :: ho.1 ++ am.1 ++ en.1 ++ [e_so], Sum.inr (fds, maps))

/-- The values `main` gives to `args` before it calls `parse_arguments`. -/
def default_arguments : arguments_t :=
  { vdev_name := "/dev/video0", timeout_ms := 5000, loop_count := 10, output_dir := "/tmp",
    width := 0, height := 0, fourcc := 0 }

/-- The part of `main` behind the call of `parse_arguments`, for the value
`args` that call left. -/
def main_run (env : Env) (args : arguments_t) (fuel : Nat) : Trace × Outcome :=
  let o := open_video_device env [] args.vdev_name args.width args.height args.fourcc
  if o.ret < 0 then
    (o.events, Outcome.returned (-1))
  else
    match o.pix_fmt, o.mplane_api with
    | some pix_fmt, some mplane_api =>
      let s := setup_streaming env o.events o.ret pix_fmt mplane_api
      match s.2 with
      | Sum.inl out => (o.events ++ s.1, out)
      | Sum.inr (fds, maps) =>
        let c := capture_loop env args o.ret mplane_api fds maps fuel (o.events ++ s.1) 0
        (o.events ++ s.1 ++ c.1, c.2)
    | _, _ => (o.events, Outcome.undefined)

/-- Function `int main(int argc, char *argv[])`; `opts` are the answers of `getopt`. -/
def main (env : Env) (char_signed : Bool) (sscanf_u : String → Option Nat)
    (opts : List getopt_result) (fuel : Nat) : Trace × Outcome :=
  let p := parse_arguments char_signed sscanf_u opts default_arguments
  if p.1 < 0 then
    ([], Outcome.returned (-1))
  else
    main_run env p.2 fuel

/-! ## Notions used to state the properties -/

/-- An answer `(ret, errno)` of the sync ioctl after which `dmabuf_sync` tries
again: the call failed and left EINTR or EAGAIN in `errno`. -/
def Retry (r : Int × Nat) : Prop := r.1 ≠ 0 ∧ (r.2 = EINTR ∨ r.2 = EAGAIN)

instance (r : Int × Nat) : Decidable (Retry r) := by unfold Retry; exact inferInstance

/-- Attempt number `k` of the sync ioctl as it appears in the history. -/
def sync_attempt (ioctl : Nat → Int → Nat → Int × Nat) (buf_fd : Int) (flags : Nat)
    (k : Nat) : Event :=
  Event.ioctl_sync buf_fd flags (ioctl k buf_fd flags).1 (ioctl k buf_fd flags).2

/-- The sync ioctl that fails with EINTR on every attempt. -/
def always_eintr : Nat → Int → Nat → Int × Nat := fun _ _ _ => (-1, EINTR)

/-- A well-behaved environment: every call succeeds, the device offers the
single-planar API and a 640x480 format, is always ready, and hands back the
buffers in turn. -/
def env_ok : Env :=
  { sys_open := fun _ path _ => if path = "/dev/video0" then 3 else 4
    ioctl_querycap := fun _ _ => (0, V4L2_CAP_VIDEO_CAPTURE)
    ioctl_g_fmt := fun _ _ fmt =>
      (0, { fmt with pix := { fmt.pix with width := 640, height := 480, sizeimage := 614400 } })
    ioctl_s_fmt := fun _ _ fmt => (0, fmt)
    ioctl_reqbufs := fun _ _ count _ _ => (0, count)
    ioctl_heap_alloc := fun h _ _ _ => (0, h.length)
    mmap := fun _ _ _ _ fd => some (4096 * fd.toNat)
    ioctl_qbuf := fun _ _ _ => 0
    ioctl_streamon := fun _ _ _ => 0
    poll := fun _ _ _ => 1
    poll_blocks := fun _ _ => false
    ioctl_dqbuf := fun h _ buf => (0, { buf with index := h.length % 3, bytesused := 614400 })
    ioctl_sync := fun _ _ _ _ => (0, 0)
    asprintf_ok := fun _ => true
    fopen_ok := fun _ _ => true }

/-- The format that the device of `env_ok` reports to get-format on the
single-planar capture type. -/
def env_ok_format : v4l2_format :=
  { type := V4L2_BUF_TYPE_VIDEO_CAPTURE,
    pix := { width := 640, height := 480, pixelformat := 0, field := 0, bytesperline := 0,
             sizeimage := 614400, colorspace := 0, priv := 0, flags := 0, ycbcr_enc := 0,
             quantization := 0, xfer_func := 0 },
    raw_rest := [] }

/-- The environment `env_ok` with a sync ioctl that fails with EINVAL whenever
it is asked to start CPU access. -/
def env_sync_start_fails : Env :=
  { env_ok with
    ioctl_sync := fun _ _ _ flags =>
      if flags = (DMA_BUF_SYNC_START ||| DMA_BUF_SYNC_RW) then (-1, EINVAL) else (0, 0) }

/-- Ownership tags of the buffer indices: `true` is WithApplication, `false`
is WithDevice. -/
abbrev Tags := Nat → Bool

/-- The tags once all buffers have been queued: every index is WithDevice. -/
def all_with_device : Tags := fun _ => false

/-- The effect of one call on the tags: a successful dequeue tags the index it
returned WithApplication, a successful queue-buffer tags its index WithDevice. -/
def own_step (t : Tags) : Event → Tags
  | Event.ioctl_dqbuf _ _ ret out => if ret = 0 then Function.update t out.index true else t
  | Event.ioctl_qbuf _ buf ret => if ret = 0 then Function.update t buf.index false else t
  | _ => t

/-- The tags after the calls `es`, starting from the tags `t`. -/
def tags_after (t : Tags) (es : Trace) : Tags := es.foldl own_step t

/-- The number of indices 0 .. `num_buffers - 1` that are WithApplication. -/
def count_with_application (t : Tags) : Nat :=
  ((List.range num_buffers).filter (fun i => t i)).length

/-- The number of indices 0 .. `num_buffers - 1` that are WithDevice. -/
def count_with_device (t : Tags) : Nat :=
  ((List.range num_buffers).filter (fun i => !t i)).length

/-- The index returned by the most recent dequeue after one more call (`none`
when that dequeue failed). -/
def last_step (l : Option Nat) : Event → Option Nat
  | Event.ioctl_dqbuf _ _ ret out => if ret = 0 then some out.index else none
  | _ => l

/-- The index returned by the most recent dequeue among the calls `es`. -/
def last_dequeued (l : Option Nat) (es : Trace) : Option Nat := es.foldl last_step l

/-- What must hold when the call `e` is issued at tags `t`, `last` being the
index of the most recent dequeue: a queue-buffer is issued for an index that is
WithApplication and was returned by the most recent dequeue; a dequeue is
issued while no index is WithApplication. -/
def own_guard (t : Tags) (last : Option Nat) : Event → Prop
  | Event.ioctl_qbuf _ buf _ => t buf.index = true ∧ last = some buf.index
  | Event.ioctl_dqbuf _ _ _ _ => count_with_application t = 0
  | _ => True

/-- The ownership discipline along a sequence of calls: at every point at most
one index is WithApplication and the call issued there satisfies `own_guard`. -/
def OwnershipOk (t : Tags) (last : Option Nat) : Trace → Prop
  | [] => count_with_application t ≤ 1
  | e :: es =>
    count_with_application t ≤ 1 ∧ own_guard t last e ∧
      OwnershipOk (own_step t e) (last_step last e) es

/-- A call that is neither a dequeue nor a queue-buffer. -/
def quiet : Event → Bool
  | Event.ioctl_dqbuf _ _ _ _ => false
  | Event.ioctl_qbuf _ _ _ => false
  | _ => true

/-- The kinds of calls. -/
inductive Kind where
  | k_open | k_close | k_querycap | k_g_fmt | k_s_fmt | k_reqbufs | k_heap_alloc
  | k_set_name | k_mmap | k_qbuf | k_streamon | k_poll | k_dqbuf | k_sync_call
  | k_sync_ioctl | k_asprintf | k_fopen | k_fwrite | k_fclose
  deriving DecidableEq, Repr

/-- The kind of a call. -/
def Event.kind : Event → Kind
  | Event.sys_open _ _ _ => Kind.k_open
  | Event.sys_close _ => Kind.k_close
  | Event.ioctl_querycap _ _ _ => Kind.k_querycap
  | Event.ioctl_g_fmt _ _ _ _ => Kind.k_g_fmt
  | Event.ioctl_s_fmt _ _ _ _ => Kind.k_s_fmt
  | Event.ioctl_reqbufs _ _ _ _ _ _ => Kind.k_reqbufs
  | Event.ioctl_heap_alloc _ _ _ _ _ => Kind.k_heap_alloc
  | Event.ioctl_set_name _ _ => Kind.k_set_name
  | Event.mmap _ _ _ _ _ => Kind.k_mmap
  | Event.ioctl_qbuf _ _ _ => Kind.k_qbuf
  | Event.ioctl_streamon _ _ _ => Kind.k_streamon
  | Event.poll _ _ _ => Kind.k_poll
  | Event.poll_blocked _ _ => Kind.k_poll
  | Event.ioctl_dqbuf _ _ _ _ => Kind.k_dqbuf
  | Event.call_dmabuf_sync _ _ => Kind.k_sync_call
  | Event.ioctl_sync _ _ _ _ => Kind.k_sync_ioctl
  | Event.asprintf _ => Kind.k_asprintf
  | Event.fopen _ _ => Kind.k_fopen
  | Event.fwrite _ _ _ => Kind.k_fwrite
  | Event.fclose _ => Kind.k_fclose

/-- The kinds of the calls that the body of the capture loop issues. -/
def body_kinds : List Kind :=
  [Kind.k_dqbuf, Kind.k_qbuf, Kind.k_sync_call, Kind.k_sync_ioctl, Kind.k_asprintf,
    Kind.k_fopen, Kind.k_fwrite, Kind.k_fclose]

/-- The two calls of one iteration of the loop "allocate and map dmabufs" that
succeeded: `p` holds the return value of the allocation ioctl, the descriptor
it delivered and the address `mmap` returned. -/
def alloc_map_events (heap_fd : Int) (sizeimage : Nat) (p : Int × Int × Nat) : Trace :=
  [Event.ioctl_heap_alloc heap_fd sizeimage (O_CLOEXEC ||| O_RDWR) p.1 p.2.1,
    Event.mmap sizeimage (PROT_WRITE ||| PROT_READ) MAP_SHARED p.2.1 (some p.2.2)]

/-- The kinds of the calls that `open_video_device` issues. -/
def open_kinds : List Kind :=
  [Kind.k_open, Kind.k_close, Kind.k_querycap, Kind.k_g_fmt, Kind.k_s_fmt]

/-- The kinds of the calls that `main` issues between request-buffers and
stream-on. -/
def setup_kinds : List Kind :=
  [Kind.k_open, Kind.k_heap_alloc, Kind.k_mmap, Kind.k_qbuf]

/-! ## Theorems -/

/-- The result of `dmabuf_sync_loop` entered at attempt `k`: when it returns,
it stopped at the first attempt that is no retry; when the fuel runs out, all
attempts were retries. -/
theorem dmabuf_sync_loop_spec (ioctl : Nat → Int → Nat → Int × Nat) (fd : Int) (fl : Nat) :
    ∀ fuel k,
      ((dmabuf_sync_loop ioctl fd fl fuel k).2 = none ∧
        (∀ j, j < fuel → Retry (ioctl (k + j) fd fl)) ∧
        (dmabuf_sync_loop ioctl fd fl fuel k).1
          = (List.range fuel).map (fun j => sync_attempt ioctl fd fl (k + j))) ∨
      (∃ n, n < fuel ∧ ¬ Retry (ioctl (k + n) fd fl) ∧
        (∀ j, j < n → Retry (ioctl (k + j) fd fl)) ∧
        (dmabuf_sync_loop ioctl fd fl fuel k).2
          = some (if (ioctl (k + n) fd fl).1 = 0 then 0 else -1) ∧
        (dmabuf_sync_loop ioctl fd fl fuel k).1
          = (List.range (n + 1)).map (fun j => sync_attempt ioctl fd fl (k + j))) := by
  intro fuel
  induction fuel with
  | zero => intro k; left; simp [dmabuf_sync_loop]
  | succ fuel ih =>
    intro k
    by_cases h0 : (ioctl k fd fl).1 = 0
    · right
      refine ⟨0, by omega, ?_, ?_, ?_, ?_⟩
      · simp [Retry, h0]
      · intro j hj; omega
      · simp [dmabuf_sync_loop, h0]
      · simp [dmabuf_sync_loop, h0, sync_attempt, List.range_succ]
    · by_cases h1 : (ioctl k fd fl).2 = EINTR ∨ (ioctl k fd fl).2 = EAGAIN
      · have hk : Retry (ioctl k fd fl) := ⟨h0, h1⟩
        rcases ih (k + 1) with ⟨hn, hall, hev⟩ | ⟨n, hn, hstop, hall, hres, hev⟩
        · left
          refine ⟨?_, ?_, ?_⟩
          · simp [dmabuf_sync_loop, h0, h1, hn]
          · intro j hj
            cases j with
            | zero => simpa using hk
            | succ j =>
              have := hall j (by omega)
              rwa [show k + 1 + j = k + (j + 1) by omega] at this
          · simp only [dmabuf_sync_loop, h0, h1, if_true, if_false, hev]
            rw [List.range_succ_eq_map, List.map_cons, List.map_map]
            simp only [sync_attempt, Function.comp, Nat.add_zero, Nat.succ_eq_add_one]
            congr 1
            apply List.map_congr_left
            intro j _
            rw [show k + 1 + j = k + (j + 1) by omega]
            rfl
        · right
          refine ⟨n + 1, by omega, ?_, ?_, ?_, ?_⟩
          · rwa [show k + (n + 1) = k + 1 + n by omega]
          · intro j hj
            cases j with
            | zero => simpa using hk
            | succ j =>
              have := hall j (by omega)
              rwa [show k + 1 + j = k + (j + 1) by omega] at this
          · simp only [dmabuf_sync_loop, h0, h1, if_true, if_false, hres]
            rw [show k + (n + 1) = k + 1 + n by omega]
          · simp only [dmabuf_sync_loop, h0, h1, if_true, if_false, hev]
            rw [List.range_succ_eq_map (n + 1), List.map_cons, List.map_map]
            simp only [sync_attempt, Function.comp, Nat.add_zero, Nat.succ_eq_add_one]
            congr 1
            apply List.map_congr_left
            intro j _
            rw [show k + 1 + j = k + (j + 1) by omega]
            rfl
      · right
        refine ⟨0, by omega, ?_, ?_, ?_, ?_⟩
        · simp [Retry, h1]
        · intro j hj; omega
        · simp [dmabuf_sync_loop, h0, h1]
        · simp [dmabuf_sync_loop, h0, h1, sync_attempt, List.range_succ]

/-- The lemma `dmabuf_sync_loop_spec` for the loop entered at attempt 0. -/
theorem dmabuf_sync_loop_spec_zero (ioctl : Nat → Int → Nat → Int × Nat) (fd : Int) (fl : Nat)
    (fuel : Nat) :
    ((dmabuf_sync_loop ioctl fd fl fuel 0).2 = none ∧
      (∀ j, j < fuel → Retry (ioctl j fd fl)) ∧
      (dmabuf_sync_loop ioctl fd fl fuel 0).1
        = (List.range fuel).map (sync_attempt ioctl fd fl)) ∨
    (∃ n, n < fuel ∧ ¬ Retry (ioctl n fd fl) ∧
      (∀ j, j < n → Retry (ioctl j fd fl)) ∧
      (dmabuf_sync_loop ioctl fd fl fuel 0).2
        = some (if (ioctl n fd fl).1 = 0 then 0 else -1) ∧
      (dmabuf_sync_loop ioctl fd fl fuel 0).1
        = (List.range (n + 1)).map (sync_attempt ioctl fd fl)) := by
  have h := dmabuf_sync_loop_spec ioctl fd fl fuel 0
  simp only [Nat.zero_add] at h
  exact h

/-- Two attempts that both end the run of retries are the same attempt. -/
theorem first_stop_unique (P : Nat → Prop) (n m : Nat) (hn : ¬ P n) (hm : ¬ P m)
    (hbn : ∀ j, j < n → P j) (hbm : ∀ j, j < m → P j) : n = m := by
  rcases Nat.lt_trichotomy n m with h | h | h
  · exact absurd (hbm n h) hn
  · exact h
  · exact absurd (hbn m h) hm

/-- C1: `dmabuf_heap_open` opens "/dev/dma_heap/linux,cma" first; when that open
succeeds (fd >= 0) it returns that descriptor and opens nothing else; otherwise
it opens "/dev/dma_heap/reserved" and returns its descriptor when that open
succeeds and -1 when it fails.  It returns -1 exactly when both opens fail. -/
theorem dmabuf_heap_open_first_success (env : Env) (h : Trace) :
    dmabuf_heap_open env h =
      (if env.sys_open h "/dev/dma_heap/linux,cma" O_RDWR ≥ 0 then
        ([Event.sys_open "/dev/dma_heap/linux,cma" O_RDWR
            (env.sys_open h "/dev/dma_heap/linux,cma" O_RDWR)],
          env.sys_open h "/dev/dma_heap/linux,cma" O_RDWR)
      else
        ([Event.sys_open "/dev/dma_heap/linux,cma" O_RDWR
            (env.sys_open h "/dev/dma_heap/linux,cma" O_RDWR),
          Event.sys_open "/dev/dma_heap/reserved" O_RDWR
            (env.sys_open (h ++ [Event.sys_open "/dev/dma_heap/linux,cma" O_RDWR
              (env.sys_open h "/dev/dma_heap/linux,cma" O_RDWR)]) "/dev/dma_heap/reserved" O_RDWR)],
          if env.sys_open (h ++ [Event.sys_open "/dev/dma_heap/linux,cma" O_RDWR
              (env.sys_open h "/dev/dma_heap/linux,cma" O_RDWR)]) "/dev/dma_heap/reserved" O_RDWR ≥ 0
          then env.sys_open (h ++ [Event.sys_open "/dev/dma_heap/linux,cma" O_RDWR
              (env.sys_open h "/dev/dma_heap/linux,cma" O_RDWR)]) "/dev/dma_heap/reserved" O_RDWR
          else -1)) ∧
    ((dmabuf_heap_open env h).2 = -1 ↔
      (env.sys_open h "/dev/dma_heap/linux,cma" O_RDWR < 0 ∧
        env.sys_open (h ++ [Event.sys_open "/dev/dma_heap/linux,cma" O_RDWR
          (env.sys_open h "/dev/dma_heap/linux,cma" O_RDWR)]) "/dev/dma_heap/reserved" O_RDWR < 0)) := by
  generalize hr0 : env.sys_open h "/dev/dma_heap/linux,cma" O_RDWR = r0
  generalize hr1 : env.sys_open (h ++ [Event.sys_open "/dev/dma_heap/linux,cma" O_RDWR r0])
    "/dev/dma_heap/reserved" O_RDWR = r1
  have key : dmabuf_heap_open env h =
      (if r0 ≥ 0 then ([Event.sys_open "/dev/dma_heap/linux,cma" O_RDWR r0], r0)
       else ([Event.sys_open "/dev/dma_heap/linux,cma" O_RDWR r0,
              Event.sys_open "/dev/dma_heap/reserved" O_RDWR r1],
             if r1 ≥ 0 then r1 else -1)) := by
    simp only [dmabuf_heap_open, heap_names, dmabuf_heap_open_loop, hr0, hr1]
    by_cases h0 : r0 ≥ 0
    · simp [h0]
    · by_cases h1 : r1 ≥ 0
      · simp [h0, h1]
      · simp [h0, h1]
  refine ⟨key, ?_⟩
  rw [key]
  by_cases h0 : r0 ≥ 0
  · have : r0 ≠ -1 := by omega
    simp [h0, this]
  · by_cases h1 : r1 ≥ 0
    · have : r1 ≠ -1 := by omega
      simp [h0, h1, this]
    · simp [h0, h1]; omega

/-- C2: `dmabuf_sync` returns 0 exactly when some attempt of the sync ioctl
succeeds and every attempt before it failed with EINTR or EAGAIN; it returns -1
exactly when some attempt fails with another errno and every attempt before it
failed with EINTR or EAGAIN; when it returns, the attempts it issued are the
attempts 0 .. n up to the first attempt n that is no such failure and no
attempt follows; every attempt carries the same descriptor and the same flags,
START|RW for `dmabuf_sync_start` and END|RW for `dmabuf_sync_stop`.  (`fuel`
bounds the number of attempts that are looked at.) -/
theorem dmabuf_sync_result (ioctl : Nat → Int → Nat → Int × Nat) (fd : Int) (start : Bool)
    (fuel : Nat) :
    ((dmabuf_sync ioctl fd start fuel).2 = some 0 ↔
      ∃ n, n < fuel ∧ (ioctl n fd (sync_flags start)).1 = 0 ∧
        ∀ k, k < n → Retry (ioctl k fd (sync_flags start))) ∧
    ((dmabuf_sync ioctl fd start fuel).2 = some (-1) ↔
      ∃ n, n < fuel ∧ (ioctl n fd (sync_flags start)).1 ≠ 0 ∧
        ¬ Retry (ioctl n fd (sync_flags start)) ∧
        ∀ k, k < n → Retry (ioctl k fd (sync_flags start))) ∧
    (∀ rc, (dmabuf_sync ioctl fd start fuel).2 = some rc →
      ∃ n, ¬ Retry (ioctl n fd (sync_flags start)) ∧
        (∀ k, k < n → Retry (ioctl k fd (sync_flags start))) ∧
        (dmabuf_sync ioctl fd start fuel).1 =
          Event.call_dmabuf_sync fd start ::
            (List.range (n + 1)).map (sync_attempt ioctl fd (sync_flags start))) ∧
    ((dmabuf_sync ioctl fd start fuel).2 = none →
      (dmabuf_sync ioctl fd start fuel).1 =
        Event.call_dmabuf_sync fd start ::
          (List.range fuel).map (sync_attempt ioctl fd (sync_flags start))) ∧
    dmabuf_sync_start ioctl fd fuel = dmabuf_sync ioctl fd true fuel ∧
    dmabuf_sync_stop ioctl fd fuel = dmabuf_sync ioctl fd false fuel ∧
    sync_flags true = DMA_BUF_SYNC_START ||| DMA_BUF_SYNC_RW ∧
    sync_flags false = DMA_BUF_SYNC_END ||| DMA_BUF_SYNC_RW := by
  refine ⟨?_, ?_, ?_, ?_, rfl, rfl, rfl, rfl⟩
  · constructor
    · intro hres
      rcases dmabuf_sync_loop_spec_zero ioctl fd (sync_flags start) fuel with
        ⟨hn, _, _⟩ | ⟨n, hn, hstop, hall, hr, _⟩
      · simp [dmabuf_sync, hn] at hres
      · refine ⟨n, hn, ?_, hall⟩
        by_contra hne
        simp [dmabuf_sync, hr, hne] at hres
    · rintro ⟨n, hn, hok, hall⟩
      rcases dmabuf_sync_loop_spec_zero ioctl fd (sync_flags start) fuel with
        ⟨_, hretry, _⟩ | ⟨m, _, hstop, hallm, hr, _⟩
      · exact absurd hok (hretry n hn).1
      · have hnm : n = m :=
          first_stop_unique (fun j => Retry (ioctl j fd (sync_flags start))) n m
            (fun hc => hc.1 hok) hstop hall hallm
        subst hnm
        simp [dmabuf_sync, hr, hok]
  · constructor
    · intro hres
      rcases dmabuf_sync_loop_spec_zero ioctl fd (sync_flags start) fuel with
        ⟨hn, _, _⟩ | ⟨n, hn, hstop, hall, hr, _⟩
      · simp [dmabuf_sync, hn] at hres
      · refine ⟨n, hn, ?_, hstop, hall⟩
        intro h0
        simp [dmabuf_sync, hr, h0] at hres
    · rintro ⟨n, hn, hne, hstopn, hall⟩
      rcases dmabuf_sync_loop_spec_zero ioctl fd (sync_flags start) fuel with
        ⟨_, hretry, _⟩ | ⟨m, _, hstop, hallm, hr, _⟩
      · exact absurd (hretry n hn) hstopn
      · have hnm : n = m :=
          first_stop_unique (fun j => Retry (ioctl j fd (sync_flags start))) n m
            hstopn hstop hall hallm
        subst hnm
        simp [dmabuf_sync, hr, hne]
  · intro rc hres
    rcases dmabuf_sync_loop_spec_zero ioctl fd (sync_flags start) fuel with
      ⟨hn, _, _⟩ | ⟨n, hn, hstop, hall, hr, hev⟩
    · simp [dmabuf_sync, hn] at hres
    · exact ⟨n, hstop, hall, by simp [dmabuf_sync, hev]⟩
  · intro hres
    rcases dmabuf_sync_loop_spec_zero ioctl fd (sync_flags start) fuel with
      ⟨hn, _, hev⟩ | ⟨n, hn, hstop, hall, hr, hev⟩
    · simp [dmabuf_sync, hev]
    · simp [dmabuf_sync, hr] at hres

/-- When attempt `n` is the first that is no retry, `dmabuf_sync` issues the
attempts 0 .. n and returns, for every fuel above `n`. -/
theorem dmabuf_sync_first_stop (ioctl : Nat → Int → Nat → Int × Nat) (fd : Int)
    (start : Bool) (n fuel : Nat)
    (hretry : ∀ k, k < n → Retry (ioctl k fd (sync_flags start)))
    (hstop : ¬ Retry (ioctl n fd (sync_flags start))) (hfuel : n < fuel) :
    dmabuf_sync ioctl fd start fuel =
      (Event.call_dmabuf_sync fd start ::
        (List.range (n + 1)).map (sync_attempt ioctl fd (sync_flags start)),
       some (if (ioctl n fd (sync_flags start)).1 = 0 then 0 else -1)) := by
  rcases dmabuf_sync_loop_spec_zero ioctl fd (sync_flags start) fuel with
    ⟨_, hall, _⟩ | ⟨m, _, hstopm, hallm, hr, hev⟩
  · exact absurd (hall n hfuel) hstop
  · have hnm : n = m :=
      first_stop_unique (fun j => Retry (ioctl j fd (sync_flags start))) n m
        hstop hstopm hretry hallm
    subst hnm
    simp [dmabuf_sync, hr, hev]

/-- C9 (as amended): the retry loop of `dmabuf_sync` goes on exactly as long as
the attempts fail with EINTR or EAGAIN.  When attempt `n` is the first that
succeeds or fails with another errno, `dmabuf_sync` issues exactly the `n + 1`
attempts 0 .. n and returns (0 if attempt `n` succeeded, -1 otherwise),
whatever fuel above `n` it is given. -/
theorem dmabuf_sync_stops_at_first_non_retry (ioctl : Nat → Int → Nat → Int × Nat) (fd : Int)
    (start : Bool) (n fuel : Nat)
    (hretry : ∀ k, k < n → Retry (ioctl k fd (sync_flags start)))
    (hstop : ¬ Retry (ioctl n fd (sync_flags start))) (hfuel : n < fuel) :
    dmabuf_sync ioctl fd start fuel =
      (Event.call_dmabuf_sync fd start ::
        (List.range (n + 1)).map (sync_attempt ioctl fd (sync_flags start)),
       some (if (ioctl n fd (sync_flags start)).1 = 0 then 0 else -1)) :=
  dmabuf_sync_first_stop ioctl fd start n fuel hretry hstop hfuel

/-- C9 (witness of `dmabuf_sync_stops_at_first_non_retry`): two failures with EINTR
and EAGAIN, then a failure with EINVAL; three attempts are issued and the
result is -1. -/
theorem dmabuf_sync_stops_at_first_non_retry_witness :
    (∀ k, k < 2 → Retry ((fun (k : Nat) (_ : Int) (_ : Nat) =>
        if k = 0 then ((-1 : Int), EINTR) else if k = 1 then (-1, EAGAIN) else (-1, EINVAL))
        k 7 (sync_flags true))) ∧
    ¬ Retry ((fun (k : Nat) (_ : Int) (_ : Nat) =>
        if k = 0 then ((-1 : Int), EINTR) else if k = 1 then (-1, EAGAIN) else (-1, EINVAL))
        2 7 (sync_flags true)) ∧
    dmabuf_sync (fun k _ _ => if k = 0 then (-1, EINTR) else if k = 1 then (-1, EAGAIN)
        else (-1, EINVAL)) 7 true 5 =
      ([Event.call_dmabuf_sync 7 true, Event.ioctl_sync 7 3 (-1) 4,
        Event.ioctl_sync 7 3 (-1) 11, Event.ioctl_sync 7 3 (-1) 22], some (-1)) := by
  have h1 : ∀ k, k < 2 → Retry ((fun (k : Nat) (_ : Int) (_ : Nat) =>
      if k = 0 then ((-1 : Int), EINTR) else if k = 1 then (-1, EAGAIN) else (-1, EINVAL))
      k 7 (sync_flags true)) := by
    intro k hk; interval_cases k <;> simp [Retry]
  have h2 : ¬ Retry ((fun (k : Nat) (_ : Int) (_ : Nat) =>
      if k = 0 then ((-1 : Int), EINTR) else if k = 1 then (-1, EAGAIN) else (-1, EINVAL))
      2 7 (sync_flags true)) := by
    simp [Retry, EINVAL, EINTR, EAGAIN]
  refine ⟨h1, h2, ?_⟩
  rw [dmabuf_sync_stops_at_first_non_retry _ 7 true 2 5 h1 h2 (by decide)]
  decide

/-- With the sync ioctl failing with EINTR on every attempt `dmabuf_sync` has
not returned after any number of attempts. -/
theorem dmabuf_sync_always_eintr (fd : Int) (start : Bool) (fuel : Nat) :
    (dmabuf_sync always_eintr fd start fuel).2 = none := by
  rcases dmabuf_sync_loop_spec_zero always_eintr fd (sync_flags start) fuel with
    ⟨hn, _, _⟩ | ⟨n, _, hstop, _, _, _⟩
  · simp [dmabuf_sync, hn]
  · exact absurd (by simp [Retry, always_eintr]) hstop

/-- C9 (counterexample): no number K bounds the attempts of `dmabuf_sync`.  On
the sync ioctl that fails with EINTR on every attempt it never returns: there
is no K for which every sequence of outcomes makes it return within K attempts. -/
theorem dmabuf_sync_retry_unbounded :
    ¬ ∃ K : Nat, ∀ (ioctl : Nat → Int → Nat → Int × Nat) (fd : Int) (start : Bool),
      ∃ fuel rc, (dmabuf_sync ioctl fd start fuel).2 = some rc ∧
        (dmabuf_sync ioctl fd start fuel).1.length ≤ K + 1 := by
  rintro ⟨K, hK⟩
  obtain ⟨fuel, rc, hrc, _⟩ := hK always_eintr 5 true
  rw [dmabuf_sync_always_eintr] at hrc
  exact absurd hrc (by simp)

/-- The bitwise or of four bytes shifted to the byte positions 0 .. 3 is their sum. -/
theorem or_bytes_eq_add (a b c d : Nat) (ha : a < 256) (hb : b < 256) (hc : c < 256) :
    a ||| b * 2 ^ 8 ||| c * 2 ^ 16 ||| d * 2 ^ 24 = a + b * 2 ^ 8 + c * 2 ^ 16 + d * 2 ^ 24 := by
  have h1 : a ||| b * 2 ^ 8 = a + b * 2 ^ 8 := by
    rw [Nat.lor_comm, Nat.mul_comm b, ← Nat.mul_add_lt_is_or (by omega)]
    omega
  have h2 : a + b * 2 ^ 8 ||| c * 2 ^ 16 = a + b * 2 ^ 8 + c * 2 ^ 16 := by
    rw [Nat.lor_comm, Nat.mul_comm c, ← Nat.mul_add_lt_is_or (by omega)]
    omega
  have h3 : a + b * 2 ^ 8 + c * 2 ^ 16 ||| d * 2 ^ 24
      = a + b * 2 ^ 8 + c * 2 ^ 16 + d * 2 ^ 24 := by
    rw [Nat.lor_comm, Nat.mul_comm d, ← Nat.mul_add_lt_is_or (by omega)]
    omega
  rw [h1, h2, h3]

/-- Where no byte is sign-extended into the bytes above it (plain `char` is
unsigned, or the first three bytes are below 128), the `-f` expression packs
the four bytes little-endian. -/
theorem pack_fourcc_little_endian (char_signed : Bool) (s : String)
    (h : char_signed = false ∨ ∀ k, k < 3 → char_at s k < 128) :
    pack_fourcc char_signed s
      = char_at s 0 + char_at s 1 * 2 ^ 8 + char_at s 2 * 2 ^ 16 + char_at s 3 * 2 ^ 24 := by
  have hlt : ∀ k, char_at s k < 256 := fun k => Nat.mod_lt _ (by decide)
  have hlow : ∀ k, k < 3 → char_to_u32 char_signed (char_at s k) = char_at s k := by
    intro k hk
    rcases h with h | h
    · simp [char_to_u32, h]
    · have := h k hk
      simp only [char_to_u32]
      rw [if_neg]
      omega
  have h3 : shl32 (char_to_u32 char_signed (char_at s 3)) 24 = char_at s 3 * 2 ^ 24 := by
    have := hlt 3
    simp only [shl32, u32, char_to_u32, Nat.shiftLeft_eq]
    split <;> omega
  have h0 := hlt 0
  have h1 := hlt 1
  have h2 := hlt 2
  simp only [pack_fourcc, hlow 0 (by decide), hlow 1 (by decide), hlow 2 (by decide), h3]
  have e0 : shl32 (char_at s 0) 0 = char_at s 0 := by
    simp only [shl32, u32, Nat.shiftLeft_eq]; omega
  have e1 : shl32 (char_at s 1) 8 = char_at s 1 * 2 ^ 8 := by
    simp only [shl32, u32, Nat.shiftLeft_eq]; omega
  have e2 : shl32 (char_at s 2) 16 = char_at s 2 * 2 ^ 16 := by
    simp only [shl32, u32, Nat.shiftLeft_eq]; omega
  rw [e0, e1, e2]
  exact or_bytes_eq_add _ _ _ _ h0 h1 h2

/-- C4 (failing input): with plain `char` signed, the option `-f` with the four
bytes C3 A9 31 32 leaves FFFFFFC3 in `args->fourcc`, not the little-endian
packing 3231A9C3 of the four bytes. -/
theorem parse_arguments_fourcc_sign_extension (sscanf_u : String → Option Nat) :
    parse_arguments true sscanf_u [⟨'f', "\xc3\xa912"⟩] default_arguments
      = (0, { default_arguments with fourcc := 0xFFFFFFC3 }) ∧
    char_at "\xc3\xa912" 0 + char_at "\xc3\xa912" 1 * 2 ^ 8 + char_at "\xc3\xa912" 2 * 2 ^ 16
      + char_at "\xc3\xa912" 3 * 2 ^ 24 = 0x3231A9C3 := by
  have hlen : strlen "\xc3\xa912" = 4 := by decide
  have hpack : pack_fourcc true "\xc3\xa912" = 0xFFFFFFC3 := by decide
  constructor
  · simp [parse_arguments, hlen, hpack]
  · decide

/-- The three conditional assignments written as one record: each of width,
height and pixelformat is replaced only when the requested value is non-zero,
everything else is kept. -/
theorem overlay_format_eq (fmt : v4l2_format) (w ht fcc : Nat) :
    overlay_format fmt w ht fcc =
      { type := fmt.type,
        pix := { fmt.pix with
          width := if w > 0 then w else fmt.pix.width,
          height := if ht > 0 then ht else fmt.pix.height,
          pixelformat := if fcc ≠ 0 then fcc else fmt.pix.pixelformat },
        raw_rest := fmt.raw_rest } := by
  unfold overlay_format
  by_cases hw : w > 0 <;> by_cases hh : ht > 0 <;> by_cases hf : fcc ≠ 0 <;> simp [hw, hh, hf]

/-- The four ways through `open_video_device_format`: the first get-format
fails; set-format fails; the second get-format fails; all three succeed.
Set-format always carries the overlay of what the first get-format returned. -/
theorem open_video_device_format_shape (env : Env) (h pre : Trace) (fd : Int) (w ht fcc : Nat)
    (mp : Bool) :
    ∃ a0 g,
      (∃ r1, r1 ≠ 0 ∧
        (open_video_device_format env h pre fd w ht fcc mp).events =
          pre ++ [Event.ioctl_g_fmt fd a0 r1 g, Event.sys_close fd] ∧
        (open_video_device_format env h pre fd w ht fcc mp).ret = -1) ∨
      (∃ rs s, rs ≠ 0 ∧
        (open_video_device_format env h pre fd w ht fcc mp).events =
          pre ++ [Event.ioctl_g_fmt fd a0 0 g,
            Event.ioctl_s_fmt fd (overlay_format g w ht fcc) rs s, Event.sys_close fd] ∧
        (open_video_device_format env h pre fd w ht fcc mp).ret = -1) ∨
      (∃ s r2 g2, r2 ≠ 0 ∧
        (open_video_device_format env h pre fd w ht fcc mp).events =
          pre ++ [Event.ioctl_g_fmt fd a0 0 g,
            Event.ioctl_s_fmt fd (overlay_format g w ht fcc) 0 s,
            Event.ioctl_g_fmt fd s r2 g2, Event.sys_close fd] ∧
        (open_video_device_format env h pre fd w ht fcc mp).ret = -1) ∨
      (∃ s g2,
        (open_video_device_format env h pre fd w ht fcc mp).events =
          pre ++ [Event.ioctl_g_fmt fd a0 0 g,
            Event.ioctl_s_fmt fd (overlay_format g w ht fcc) 0 s,
            Event.ioctl_g_fmt fd s 0 g2] ∧
        (open_video_device_format env h pre fd w ht fcc mp).ret = fd ∧
        (open_video_device_format env h pre fd w ht fcc mp).pix_fmt = some g2.pix) := by
  unfold open_video_device_format
  simp only []
  generalize ({ v4l2_format.zero with
      type := if mp = true then V4L2_BUF_TYPE_VIDEO_CAPTURE_MPLANE
              else V4L2_BUF_TYPE_VIDEO_CAPTURE } : v4l2_format) = fmt0
  generalize env.ioctl_g_fmt (h ++ pre) fd fmt0 = g1
  obtain ⟨r1, g⟩ := g1
  refine ⟨fmt0, g, ?_⟩
  by_cases h1 : r1 = 0
  · subst h1
    simp only [ne_eq, not_true_eq_false, if_false]
    generalize env.ioctl_s_fmt (h ++ pre ++ [Event.ioctl_g_fmt fd fmt0 0 g]) fd
      (overlay_format g w ht fcc) = s1
    obtain ⟨rs, s⟩ := s1
    by_cases h2 : rs = 0
    · subst h2
      simp only [ne_eq, not_true_eq_false, if_false]
      generalize env.ioctl_g_fmt (h ++ pre ++ [Event.ioctl_g_fmt fd fmt0 0 g,
        Event.ioctl_s_fmt fd (overlay_format g w ht fcc) 0 s]) fd s = g2p
      obtain ⟨r2, g2⟩ := g2p
      by_cases h3 : r2 = 0
      · subst h3
        simp only [ne_eq, not_true_eq_false, if_false]
        exact Or.inr (Or.inr (Or.inr ⟨s, g2, by simp, by simp, by simp⟩))
      · simp only [ne_eq, h3, not_false_eq_true, if_true]
        exact Or.inr (Or.inr (Or.inl ⟨s, r2, g2, h3, by simp, by simp⟩))
    · simp only [ne_eq, h2, not_false_eq_true, if_true]
      exact Or.inr (Or.inl ⟨rs, s, h2, by simp, by simp⟩)
  · simp only [ne_eq, h1, not_false_eq_true, if_true]
    exact Or.inl ⟨r1, h1, by simp, by simp⟩

/-- The ways through `open_video_device` up to the format negotiation: open
fails; query-cap fails or reports no capture capability; or the negotiation is
entered behind a successful open and a successful query-cap. -/
theorem open_video_device_shape (env : Env) (h : Trace) (vdevice : String) (w ht fcc : Nat) :
    (∃ fd, (open_video_device env h vdevice w ht fcc).events = [Event.sys_open vdevice O_RDWR fd] ∧
      (open_video_device env h vdevice w ht fcc).ret = -1) ∨
    (∃ fd rq caps, (open_video_device env h vdevice w ht fcc).events =
        [Event.sys_open vdevice O_RDWR fd, Event.ioctl_querycap fd rq caps, Event.sys_close fd] ∧
      (open_video_device env h vdevice w ht fcc).ret = -1) ∨
    (∃ fd caps mp, 0 ≤ fd ∧
      open_video_device env h vdevice w ht fcc =
        open_video_device_format env h
          [Event.sys_open vdevice O_RDWR fd, Event.ioctl_querycap fd 0 caps] fd w ht fcc mp) := by
  unfold open_video_device
  simp only []
  generalize env.sys_open h vdevice O_RDWR = fd
  by_cases h1 : fd < 0
  · simp only [h1, if_true]
    exact Or.inl ⟨fd, by simp, by simp⟩
  · simp only [h1, if_false]
    generalize env.ioctl_querycap (h ++ [Event.sys_open vdevice O_RDWR fd]) fd = q
    obtain ⟨rq, caps⟩ := q
    by_cases h2 : rq = 0
    · subst h2
      simp only [ne_eq, not_true_eq_false, if_false]
      by_cases h3 : caps &&& V4L2_CAP_VIDEO_CAPTURE = 0
      · by_cases h4 : caps &&& V4L2_CAP_VIDEO_CAPTURE_MPLANE = 0
        · simp only [h3, h4, not_true_eq_false, if_false]
          exact Or.inr (Or.inl ⟨fd, 0, caps, by simp, by simp⟩)
        · simp only [h3, h4, not_true_eq_false, not_false_eq_true, if_false, if_true]
          exact Or.inr (Or.inr ⟨fd, caps, true, by omega, rfl⟩)
      · simp only [h3, not_false_eq_true, if_true]
        exact Or.inr (Or.inr ⟨fd, caps, false, by omega, rfl⟩)
    · simp only [ne_eq, h2, not_false_eq_true, if_true]
      exact Or.inr (Or.inl ⟨fd, rq, caps, by simp, by simp⟩)

/-- Progress of `open_video_device_format`: when the first get-format succeeds,
set-format is issued with the overlay of what get-format returned; when
set-format and the second get-format succeed as well, the function returns the
descriptor and writes what the second get-format returned. -/
theorem open_video_device_format_progress (env : Env) (h pre : Trace) (fd : Int)
    (w ht fcc : Nat) (mp : Bool) (g : v4l2_format)
    (hg : env.ioctl_g_fmt (h ++ pre) fd
        { v4l2_format.zero with
          type := if mp then V4L2_BUF_TYPE_VIDEO_CAPTURE_MPLANE
                  else V4L2_BUF_TYPE_VIDEO_CAPTURE } = (0, g)) :
    ∃ a0 s post,
      a0 = { v4l2_format.zero with
          type := if mp then V4L2_BUF_TYPE_VIDEO_CAPTURE_MPLANE
                  else V4L2_BUF_TYPE_VIDEO_CAPTURE } ∧
      s = env.ioctl_s_fmt (h ++ pre ++ [Event.ioctl_g_fmt fd a0 0 g]) fd
        (overlay_format g w ht fcc) ∧
      (open_video_device_format env h pre fd w ht fcc mp).events =
        pre ++ [Event.ioctl_g_fmt fd a0 0 g,
          Event.ioctl_s_fmt fd (overlay_format g w ht fcc) s.1 s.2] ++ post ∧
      (s.1 = 0 → ∀ g2,
        env.ioctl_g_fmt (h ++ pre ++ [Event.ioctl_g_fmt fd a0 0 g,
          Event.ioctl_s_fmt fd (overlay_format g w ht fcc) s.1 s.2]) fd s.2 = (0, g2) →
        post = [Event.ioctl_g_fmt fd s.2 0 g2] ∧
        (open_video_device_format env h pre fd w ht fcc mp).ret = fd ∧
        (open_video_device_format env h pre fd w ht fcc mp).pix_fmt = some g2.pix ∧
        (open_video_device_format env h pre fd w ht fcc mp).mplane_api = some mp) := by
  refine ⟨{ v4l2_format.zero with
      type := if mp then V4L2_BUF_TYPE_VIDEO_CAPTURE_MPLANE else V4L2_BUF_TYPE_VIDEO_CAPTURE },
    env.ioctl_s_fmt (h ++ pre ++ [Event.ioctl_g_fmt fd
      { v4l2_format.zero with
        type := if mp then V4L2_BUF_TYPE_VIDEO_CAPTURE_MPLANE
                else V4L2_BUF_TYPE_VIDEO_CAPTURE } 0 g]) fd (overlay_format g w ht fcc), ?_⟩
  unfold open_video_device_format
  simp only [hg, ne_eq, not_true_eq_false, if_false]
  generalize env.ioctl_s_fmt (h ++ pre ++ [Event.ioctl_g_fmt fd
    { v4l2_format.zero with
      type := if mp then V4L2_BUF_TYPE_VIDEO_CAPTURE_MPLANE
              else V4L2_BUF_TYPE_VIDEO_CAPTURE } 0 g]) fd (overlay_format g w ht fcc) = s
  obtain ⟨rs, so⟩ := s
  by_cases h1 : rs = 0
  · subst h1
    simp only [not_true_eq_false, if_false]
    generalize env.ioctl_g_fmt (h ++ pre ++ [Event.ioctl_g_fmt fd
      { v4l2_format.zero with
        type := if mp then V4L2_BUF_TYPE_VIDEO_CAPTURE_MPLANE
                else V4L2_BUF_TYPE_VIDEO_CAPTURE } 0 g,
      Event.ioctl_s_fmt fd (overlay_format g w ht fcc) 0 so]) fd so = r2
    obtain ⟨rg2, g2o⟩ := r2
    by_cases h2 : rg2 = 0
    · subst h2
      refine ⟨[Event.ioctl_g_fmt fd so 0 g2o], trivial, trivial, by simp, ?_⟩
      intro _ g2 hg2eq
      simp only [Prod.mk.injEq, true_and] at hg2eq
      subst hg2eq
      simp
    · refine ⟨[Event.ioctl_g_fmt fd so rg2 g2o, Event.sys_close fd], trivial, trivial,
        by simp [h2], ?_⟩
      intro _ g2 hg2eq
      simp only [Prod.mk.injEq] at hg2eq
      exact absurd hg2eq.1 h2
  · refine ⟨[Event.sys_close fd], trivial, trivial, by simp [h1], ?_⟩
    intro hc
    exact absurd hc h1

/-- Every set-format of `open_video_device` directly follows the first
get-format and carries the overlay of what that call returned; on success the
calls are open, query-cap, get-format, set-format, get-format and `pix_fmt`
holds what the second get-format returned. -/
theorem open_video_device_set_format (env : Env) (h : Trace) (vdevice : String)
    (in_width in_height in_fourcc : Nat) :
    (∀ fd a r out,
      Event.ioctl_s_fmt fd a r out ∈
          (open_video_device env h vdevice in_width in_height in_fourcc).events →
        ∃ caps a0 g post,
          (open_video_device env h vdevice in_width in_height in_fourcc).events =
            Event.sys_open vdevice O_RDWR fd :: Event.ioctl_querycap fd 0 caps ::
              Event.ioctl_g_fmt fd a0 0 g :: Event.ioctl_s_fmt fd a r out :: post ∧
          a = { type := g.type,
                pix := { g.pix with
                  width := if in_width > 0 then in_width else g.pix.width,
                  height := if in_height > 0 then in_height else g.pix.height,
                  pixelformat := if in_fourcc ≠ 0 then in_fourcc else g.pix.pixelformat },
                raw_rest := g.raw_rest } ∧
          (in_width = 0 → in_height = 0 → in_fourcc = 0 → a = g)) ∧
    (0 ≤ (open_video_device env h vdevice in_width in_height in_fourcc).ret →
      ∃ fd caps a0 g a s g2,
        (open_video_device env h vdevice in_width in_height in_fourcc).events =
          [Event.sys_open vdevice O_RDWR fd, Event.ioctl_querycap fd 0 caps,
            Event.ioctl_g_fmt fd a0 0 g, Event.ioctl_s_fmt fd a 0 s,
            Event.ioctl_g_fmt fd s 0 g2] ∧
        a = { type := g.type,
              pix := { g.pix with
                width := if in_width > 0 then in_width else g.pix.width,
                height := if in_height > 0 then in_height else g.pix.height,
                pixelformat := if in_fourcc ≠ 0 then in_fourcc else g.pix.pixelformat },
              raw_rest := g.raw_rest } ∧
        (open_video_device env h vdevice in_width in_height in_fourcc).pix_fmt = some g2.pix ∧
        (open_video_device env h vdevice in_width in_height in_fourcc).ret = fd) := by
  have hnoop : ∀ g : v4l2_format, in_width = 0 → in_height = 0 → in_fourcc = 0 →
      overlay_format g in_width in_height in_fourcc = g := by
    intro g hw hh hf
    subst hw hh hf
    simp [overlay_format]
  rcases open_video_device_shape env h vdevice in_width in_height in_fourcc with
    ⟨fd, hev, hret⟩ | ⟨fd, rq, caps, hev, hret⟩ | ⟨fd, caps, mp, hfd, heq⟩
  · rw [hev, hret]; simp
  · rw [hev, hret]; simp
  · rw [heq]
    obtain ⟨a0, g, hshape⟩ := open_video_device_format_shape env h
      [Event.sys_open vdevice O_RDWR fd, Event.ioctl_querycap fd 0 caps] fd
      in_width in_height in_fourcc mp
    rcases hshape with ⟨r1, hr1, hev, hret⟩ | ⟨rs, s, hrs, hev, hret⟩ |
      ⟨s, r2, g2, hr2, hev, hret⟩ | ⟨s, g2, hev, hret, hpix⟩
    · rw [hev, hret]; simp
    · rw [hev, hret]
      refine ⟨?_, by simp⟩
      intro fd1 a r out hmem
      simp only [List.cons_append, List.nil_append, List.mem_cons, reduceCtorEq,
        Event.ioctl_s_fmt.injEq, List.not_mem_nil, or_false, false_or] at hmem
      obtain ⟨rfl, rfl, rfl, rfl⟩ := hmem
      exact ⟨caps, a0, g, _, rfl, overlay_format_eq g _ _ _, hnoop g⟩
    · rw [hev, hret]
      refine ⟨?_, by simp⟩
      intro fd1 a r out hmem
      simp only [List.cons_append, List.nil_append, List.mem_cons, reduceCtorEq,
        Event.ioctl_s_fmt.injEq, List.not_mem_nil, or_false, false_or] at hmem
      obtain ⟨rfl, rfl, rfl, rfl⟩ := hmem
      exact ⟨caps, a0, g, _, rfl, overlay_format_eq g _ _ _, hnoop g⟩
    · rw [hev, hret, hpix]
      refine ⟨?_, ?_⟩
      · intro fd1 a r out hmem
        simp only [List.cons_append, List.nil_append, List.mem_cons, reduceCtorEq,
          Event.ioctl_s_fmt.injEq, List.not_mem_nil, or_false, false_or] at hmem
        obtain ⟨rfl, rfl, rfl, rfl⟩ := hmem
        exact ⟨caps, a0, g, _, rfl, overlay_format_eq g _ _ _, hnoop g⟩
      · intro _
        exact ⟨fd, caps, a0, g, _, s, g2, rfl, overlay_format_eq g _ _ _, rfl, rfl⟩

/-- C3: in `open_video_device`, whenever set-format is issued it directly
follows the first get-format (which succeeded) and the format submitted is the
format that get-format returned with width replaced only if `in_width > 0`,
height replaced only if `in_height > 0` and pixelformat replaced only if
`in_fourcc != 0`, every other field unchanged; for `in_width = 0`,
`in_height = 0`, `in_fourcc = 0` the submitted format is the queried one.  On
success (a non-negative return value) the calls issued are open, query-cap,
get-format, set-format, get-format, and the descriptor written to `pix_fmt` is
the one returned by the second get-format, issued on what set-format left.
Set-format is issued whenever the open, query-cap (with a capture capability)
and the first get-format succeed; when set-format and the second get-format
succeed as well, the function returns the descriptor of the device and writes
to `pix_fmt` what the second get-format returned. -/
theorem open_video_device_negotiates (env : Env) (h : Trace) (vdevice : String)
    (in_width in_height in_fourcc : Nat) :
    (∀ fd a r out,
      Event.ioctl_s_fmt fd a r out ∈
          (open_video_device env h vdevice in_width in_height in_fourcc).events →
        ∃ caps a0 g post,
          (open_video_device env h vdevice in_width in_height in_fourcc).events =
            Event.sys_open vdevice O_RDWR fd :: Event.ioctl_querycap fd 0 caps ::
              Event.ioctl_g_fmt fd a0 0 g :: Event.ioctl_s_fmt fd a r out :: post ∧
          a = { type := g.type,
                pix := { g.pix with
                  width := if in_width > 0 then in_width else g.pix.width,
                  height := if in_height > 0 then in_height else g.pix.height,
                  pixelformat := if in_fourcc ≠ 0 then in_fourcc else g.pix.pixelformat },
                raw_rest := g.raw_rest } ∧
          (in_width = 0 → in_height = 0 → in_fourcc = 0 → a = g)) ∧
    (0 ≤ (open_video_device env h vdevice in_width in_height in_fourcc).ret →
      ∃ fd caps a0 g a s g2,
        (open_video_device env h vdevice in_width in_height in_fourcc).events =
          [Event.sys_open vdevice O_RDWR fd, Event.ioctl_querycap fd 0 caps,
            Event.ioctl_g_fmt fd a0 0 g, Event.ioctl_s_fmt fd a 0 s,
            Event.ioctl_g_fmt fd s 0 g2] ∧
        a = { type := g.type,
              pix := { g.pix with
                width := if in_width > 0 then in_width else g.pix.width,
                height := if in_height > 0 then in_height else g.pix.height,
                pixelformat := if in_fourcc ≠ 0 then in_fourcc else g.pix.pixelformat },
              raw_rest := g.raw_rest } ∧
        (open_video_device env h vdevice in_width in_height in_fourcc).pix_fmt = some g2.pix ∧
        (open_video_device env h vdevice in_width in_height in_fourcc).ret = fd) ∧
    (∀ fd caps (mp : Bool) g,
      env.sys_open h vdevice O_RDWR = fd → 0 ≤ fd →
      env.ioctl_querycap (h ++ [Event.sys_open vdevice O_RDWR fd]) fd = (0, caps) →
      ((caps &&& V4L2_CAP_VIDEO_CAPTURE ≠ 0 ∧ mp = false) ∨
        (caps &&& V4L2_CAP_VIDEO_CAPTURE = 0 ∧ caps &&& V4L2_CAP_VIDEO_CAPTURE_MPLANE ≠ 0 ∧
          mp = true)) →
      env.ioctl_g_fmt (h ++ [Event.sys_open vdevice O_RDWR fd, Event.ioctl_querycap fd 0 caps]) fd
        { v4l2_format.zero with
          type := if mp then V4L2_BUF_TYPE_VIDEO_CAPTURE_MPLANE
                  else V4L2_BUF_TYPE_VIDEO_CAPTURE } = (0, g) →
      ∃ a0 a s post,
        a0 = { v4l2_format.zero with
          type := if mp then V4L2_BUF_TYPE_VIDEO_CAPTURE_MPLANE
                  else V4L2_BUF_TYPE_VIDEO_CAPTURE } ∧
        a = { type := g.type,
              pix := { g.pix with
                width := if in_width > 0 then in_width else g.pix.width,
                height := if in_height > 0 then in_height else g.pix.height,
                pixelformat := if in_fourcc ≠ 0 then in_fourcc else g.pix.pixelformat },
              raw_rest := g.raw_rest } ∧
        s = env.ioctl_s_fmt
          (h ++ [Event.sys_open vdevice O_RDWR fd, Event.ioctl_querycap fd 0 caps] ++
            [Event.ioctl_g_fmt fd a0 0 g]) fd a ∧
        (open_video_device env h vdevice in_width in_height in_fourcc).events =
          [Event.sys_open vdevice O_RDWR fd, Event.ioctl_querycap fd 0 caps] ++
            [Event.ioctl_g_fmt fd a0 0 g, Event.ioctl_s_fmt fd a s.1 s.2] ++ post ∧
        (s.1 = 0 → ∀ g2,
          env.ioctl_g_fmt
            (h ++ [Event.sys_open vdevice O_RDWR fd, Event.ioctl_querycap fd 0 caps] ++
              [Event.ioctl_g_fmt fd a0 0 g, Event.ioctl_s_fmt fd a s.1 s.2]) fd s.2 = (0, g2) →
          post = [Event.ioctl_g_fmt fd s.2 0 g2] ∧
          (open_video_device env h vdevice in_width in_height in_fourcc).ret = fd ∧
          (open_video_device env h vdevice in_width in_height in_fourcc).pix_fmt
            = some g2.pix ∧
          (open_video_device env h vdevice in_width in_height in_fourcc).mplane_api
            = some mp)) := by
  refine ⟨(open_video_device_set_format env h vdevice in_width in_height in_fourcc).1,
    (open_video_device_set_format env h vdevice in_width in_height in_fourcc).2, ?_⟩
  intro fd caps mp g hopen hfd hq hcap hg
  have hnf : ¬ (fd < 0) := by omega
  have heq : open_video_device env h vdevice in_width in_height in_fourcc =
      open_video_device_format env h
        [Event.sys_open vdevice O_RDWR fd, Event.ioctl_querycap fd 0 caps] fd
        in_width in_height in_fourcc mp := by
    unfold open_video_device
    rcases hcap with ⟨h3, rfl⟩ | ⟨h3, h4, rfl⟩
    · simp only [hopen, hnf, if_false, hq, ne_eq, not_true_eq_false, h3, not_false_eq_true,
        if_true]
    · simp only [hopen, hnf, if_false, hq, ne_eq, not_true_eq_false, h3, h4,
        not_false_eq_true, if_true]
  rw [heq]
  obtain ⟨a0, s, post, ha0, hs, hev, hrest⟩ := open_video_device_format_progress env h
    [Event.sys_open vdevice O_RDWR fd, Event.ioctl_querycap fd 0 caps] fd
    in_width in_height in_fourcc mp g hg
  rw [overlay_format_eq] at hs hev hrest
  exact ⟨a0, _, s, post, ha0, rfl, hs, hev, hrest⟩

/-- C3 (witness of `open_video_device_negotiates`): against `env_ok` with a requested
width of 320 and no requested height and pixelformat, set-format is issued
with the queried format 640x480 in which only the width is replaced by 320,
and the call succeeds with descriptor 3 and writes to `pix_fmt` what the
second get-format returned. -/
theorem open_video_device_negotiates_witness :
    open_video_device env_ok [] "/dev/video0" 320 0 0 =
      { events :=
          [Event.sys_open "/dev/video0" O_RDWR 3,
            Event.ioctl_querycap 3 0 V4L2_CAP_VIDEO_CAPTURE,
            Event.ioctl_g_fmt 3 { v4l2_format.zero with type := V4L2_BUF_TYPE_VIDEO_CAPTURE } 0
              env_ok_format,
            Event.ioctl_s_fmt 3
              { env_ok_format with pix := { env_ok_format.pix with width := 320 } } 0
              { env_ok_format with pix := { env_ok_format.pix with width := 320 } },
            Event.ioctl_g_fmt 3
              { env_ok_format with pix := { env_ok_format.pix with width := 320 } } 0
              env_ok_format],
        ret := 3,
        pix_fmt := some env_ok_format.pix,
        mplane_api := some false } ∧
    (env_ok.sys_open [] "/dev/video0" O_RDWR = 3 ∧ (0 : Int) ≤ 3 ∧
      env_ok.ioctl_querycap ([] ++ [Event.sys_open "/dev/video0" O_RDWR 3]) 3
        = (0, V4L2_CAP_VIDEO_CAPTURE) ∧
      ((V4L2_CAP_VIDEO_CAPTURE &&& V4L2_CAP_VIDEO_CAPTURE ≠ 0 ∧ false = false) ∨
        (V4L2_CAP_VIDEO_CAPTURE &&& V4L2_CAP_VIDEO_CAPTURE = 0 ∧
          V4L2_CAP_VIDEO_CAPTURE &&& V4L2_CAP_VIDEO_CAPTURE_MPLANE ≠ 0 ∧ false = true)) ∧
      env_ok.ioctl_g_fmt
        ([] ++ [Event.sys_open "/dev/video0" O_RDWR 3,
          Event.ioctl_querycap 3 0 V4L2_CAP_VIDEO_CAPTURE]) 3
        { v4l2_format.zero with
          type := if false then V4L2_BUF_TYPE_VIDEO_CAPTURE_MPLANE
                  else V4L2_BUF_TYPE_VIDEO_CAPTURE } = (0, env_ok_format)) ∧
    (
      ∃ a0 a s post,
        a0 = { v4l2_format.zero with
          type := if false then V4L2_BUF_TYPE_VIDEO_CAPTURE_MPLANE
                  else V4L2_BUF_TYPE_VIDEO_CAPTURE } ∧
        a = { type := env_ok_format.type,
              pix := { env_ok_format.pix with
                width := if 320 > 0 then 320 else env_ok_format.pix.width,
                height := if 0 > 0 then 0 else env_ok_format.pix.height,
                pixelformat := if 0 ≠ 0 then 0 else env_ok_format.pix.pixelformat },
              raw_rest := env_ok_format.raw_rest } ∧
        s = env_ok.ioctl_s_fmt
          (([] : Trace) ++
            [Event.sys_open "/dev/video0" O_RDWR 3,
              Event.ioctl_querycap 3 0 V4L2_CAP_VIDEO_CAPTURE] ++
            [Event.ioctl_g_fmt 3 a0 0 env_ok_format]) 3 a ∧
        (open_video_device env_ok ([] : Trace) "/dev/video0" 320 0 0).events =
          [Event.sys_open "/dev/video0" O_RDWR 3,
              Event.ioctl_querycap 3 0 V4L2_CAP_VIDEO_CAPTURE] ++
            [Event.ioctl_g_fmt 3 a0 0 env_ok_format, Event.ioctl_s_fmt 3 a s.1 s.2] ++ post ∧
        (s.1 = 0 → ∀ g2,
          env_ok.ioctl_g_fmt
            (([] : Trace) ++
              [Event.sys_open "/dev/video0" O_RDWR 3,
                Event.ioctl_querycap 3 0 V4L2_CAP_VIDEO_CAPTURE] ++
              [Event.ioctl_g_fmt 3 a0 0 env_ok_format, Event.ioctl_s_fmt 3 a s.1 s.2]) 3 s.2
              = (0, g2) →
          post = [Event.ioctl_g_fmt 3 s.2 0 g2] ∧
          (open_video_device env_ok ([] : Trace) "/dev/video0" 320 0 0).ret = 3 ∧
          (open_video_device env_ok ([] : Trace) "/dev/video0" 320 0 0).pix_fmt
            = some g2.pix ∧
          (open_video_device env_ok ([] : Trace) "/dev/video0" 320 0 0).mplane_api
            = some false)) :=
  ⟨by decide, ⟨by decide, by decide, by decide, by decide, by decide⟩,
    (open_video_device_negotiates env_ok [] "/dev/video0" 320 0 0).2.2 3
      V4L2_CAP_VIDEO_CAPTURE false env_ok_format (by decide) (by decide) (by decide)
      (by decide) (by decide)⟩

/-- The calls of `dmabuf_sync`: the entry, then attempts of the sync ioctl
that all carry the descriptor `fd` and the flags of `start`. -/
theorem dmabuf_sync_events (ioctl : Nat → Int → Nat → Int × Nat) (fd : Int) (start : Bool)
    (fuel : Nat) :
    ∃ s, (dmabuf_sync ioctl fd start fuel).1 = Event.call_dmabuf_sync fd start :: s ∧
      ∀ e, e ∈ s → ∃ r en, e = Event.ioctl_sync fd (sync_flags start) r en := by
  refine ⟨(dmabuf_sync_loop ioctl fd (sync_flags start) fuel 0).1, rfl, ?_⟩
  intro e he
  rcases dmabuf_sync_loop_spec_zero ioctl fd (sync_flags start) fuel with
    ⟨_, _, hev⟩ | ⟨n, _, _, _, _, hev⟩
  · rw [hev, List.mem_map] at he
    obtain ⟨k, _, rfl⟩ := he
    exact ⟨_, _, rfl⟩
  · rw [hev, List.mem_map] at he
    obtain ⟨k, _, rfl⟩ := he
    exact ⟨_, _, rfl⟩

/-- The three ways through the dump block: `asprintf` fails; `fopen` fails;
the image is written, by one `fwrite` that starts at `map` plus an offset. -/
theorem dump_block_shape (env : Env) (h : Trace) (args : arguments_t) (mp : Bool)
    (buf : v4l2_buffer) (map lc : Nat) :
    dump_block env h args mp buf map lc = [Event.asprintf none] ∨
    dump_block env h args mp buf map lc =
      [Event.asprintf (some (image_filename args.output_dir lc)),
        Event.fopen (image_filename args.output_dir lc) false] ∨
    ∃ off len, dump_block env h args mp buf map lc =
      [Event.asprintf (some (image_filename args.output_dir lc)),
        Event.fopen (image_filename args.output_dir lc) true,
        Event.fwrite (map + off) len (image_filename args.output_dir lc),
        Event.fclose (image_filename args.output_dir lc)] := by
  unfold dump_block dump_image
  by_cases h1 : env.asprintf_ok h = true
  · simp only [h1, if_true]
    by_cases h2 : env.fopen_ok (h ++ [Event.asprintf (some (image_filename args.output_dir lc))])
        (image_filename args.output_dir lc) = false
    · simp only [h2, if_true]
      exact Or.inr (Or.inl trivial)
    · simp only [h2, if_false]
      exact Or.inr (Or.inr ⟨_, _, rfl⟩)
  · simp only [h1]
    exact Or.inl (by simp)

/-- The index that the requeue carries is the index that was dequeued. -/
theorem requeue_index (i : Int) (n : Nat) (hn : i = (n : Int)) (hlt : n < 2 ^ 32) :
    (i % 2 ^ 32).toNat = n := by
  subst hn
  have : ((n : Int) % 2 ^ 32) = (n : Int) := by
    apply Int.emod_eq_of_lt <;> omega
  rw [this]
  simp

/-- An `int` index that lies inside an array is a natural number below the
array length. -/
theorem array_get_some {α : Type} (a : List α) (i : Int) (x : α) (h : array_get a i = some x) :
    ∃ n : Nat, i = (n : Int) ∧ n < a.length ∧ a.get? n = some x := by
  unfold array_get at h
  split_ifs at h with hneg
  refine ⟨i.toNat, ?_, ?_, h⟩
  · omega
  · exact (List.get?_eq_some.mp h).1

/-- The calls of `process_buffer` in their order: sync-start on `fd`; when it
returned, the dump block, then sync-stop on `fd`; when that returned, the
requeue of `buf_index` with `fd`. -/
theorem process_buffer_order (env : Env) (args : arguments_t) (v4l2_fd : Int) (mp : Bool)
    (fuel : Nat) (h : Trace) (lc : Nat) (buf : v4l2_buffer) (buf_index : Int) (fd : Int)
    (map : Nat) :
    ∃ s1 tail1,
      (process_buffer env args v4l2_fd mp fuel h lc buf buf_index fd map).1 =
        Event.call_dmabuf_sync fd true :: (s1 ++ tail1) ∧
      (∀ e, e ∈ s1 → ∃ r en,
        e = Event.ioctl_sync fd (DMA_BUF_SYNC_START ||| DMA_BUF_SYNC_RW) r en) ∧
      ((tail1 = [] ∧
          (process_buffer env args v4l2_fd mp fuel h lc buf buf_index fd map).2 =
            some Outcome.diverged) ∨
        ∃ d s2 tail2,
          tail1 = d ++ Event.call_dmabuf_sync fd false :: (s2 ++ tail2) ∧
          (d = [Event.asprintf none] ∨
            d = [Event.asprintf (some (image_filename args.output_dir lc)),
              Event.fopen (image_filename args.output_dir lc) false] ∨
            ∃ off len, d = [Event.asprintf (some (image_filename args.output_dir lc)),
              Event.fopen (image_filename args.output_dir lc) true,
              Event.fwrite (map + off) len (image_filename args.output_dir lc),
              Event.fclose (image_filename args.output_dir lc)]) ∧
          (∀ e, e ∈ s2 → ∃ r en,
            e = Event.ioctl_sync fd (DMA_BUF_SYNC_END ||| DMA_BUF_SYNC_RW) r en) ∧
          ((tail2 = [] ∧
              (process_buffer env args v4l2_fd mp fuel h lc buf buf_index fd map).2 =
                some Outcome.diverged) ∨
            ∃ q, tail2 = [Event.ioctl_qbuf v4l2_fd
                (qbuf_arg mp (buf_index % 2 ^ 32).toNat fd) q] ∧
              (process_buffer env args v4l2_fd mp fuel h lc buf buf_index fd map).2 =
                if q ≠ 0 then some (Outcome.returned 0) else none)) := by
  unfold process_buffer dmabuf_sync_start dmabuf_sync_stop
  simp only []
  obtain ⟨s1, hs1, hall1⟩ := dmabuf_sync_events (env.ioctl_sync h) fd true fuel
  refine ⟨s1, ?_⟩
  rw [hs1]
  generalize hres1 : (dmabuf_sync (env.ioctl_sync h) fd true fuel).2 = res1
  cases res1 with
  | none => exact ⟨[], by simp, hall1, Or.inl ⟨rfl, rfl⟩⟩
  | some rc1 =>
    simp only []
    generalize hd : dump_block env (h ++ Event.call_dmabuf_sync fd true :: s1) args mp buf map lc = d
    have hdshape := dump_block_shape env (h ++ Event.call_dmabuf_sync fd true :: s1) args mp buf
      map lc
    rw [hd] at hdshape
    obtain ⟨s2, hs2, hall2⟩ := dmabuf_sync_events
      (env.ioctl_sync (h ++ Event.call_dmabuf_sync fd true :: s1 ++ d)) fd false fuel
    rw [hs2]
    generalize hres2 : (dmabuf_sync
      (env.ioctl_sync (h ++ Event.call_dmabuf_sync fd true :: s1 ++ d)) fd false fuel).2 = res2
    cases res2 with
    | none =>
      refine ⟨d ++ Event.call_dmabuf_sync fd false :: s2, by simp, hall1, Or.inr ?_⟩
      exact ⟨d, s2, [], by simp, hdshape, hall2, Or.inl ⟨rfl, rfl⟩⟩
    | some rc2 =>
      simp only []
      generalize env.ioctl_qbuf
        (h ++ Event.call_dmabuf_sync fd true :: s1 ++ d ++ Event.call_dmabuf_sync fd false :: s2)
        v4l2_fd (qbuf_arg mp (buf_index % 2 ^ 32).toNat fd) = q
      refine ⟨d ++ Event.call_dmabuf_sync fd false :: (s2 ++
        [Event.ioctl_qbuf v4l2_fd (qbuf_arg mp (buf_index % 2 ^ 32).toNat fd) q]), ?_, hall1,
        Or.inr ?_⟩
      · by_cases hq : q = 0 <;> simp [hq]
      · refine ⟨d, s2, _, rfl, hdshape, hall2, Or.inr ⟨q, rfl, ?_⟩⟩
        by_cases hq : q = 0 <;> simp [hq]

/-- No index is WithApplication exactly when the indices 0, 1, 2 are all
WithDevice. -/
theorem count_with_application_eq_zero (t : Tags) :
    count_with_application t = 0 ↔ (t 0 = false ∧ t 1 = false ∧ t 2 = false) := by
  rcases h0 : t 0 <;> rcases h1 : t 1 <;> rcases h2 : t 2 <;>
    simp [count_with_application, num_buffers, List.range_succ, List.range_zero,
      List.filter, h0, h1, h2]

/-- Each index carries exactly one tag. -/
theorem count_with_device_add (t : Tags) :
    count_with_device t + count_with_application t = num_buffers := by
  rcases h0 : t 0 <;> rcases h1 : t 1 <;> rcases h2 : t 2 <;>
    simp [count_with_application, count_with_device, num_buffers, List.range_succ,
      List.range_zero, List.filter, h0, h1, h2]

/-- After a dequeue of index `i` out of a state with every index WithDevice,
exactly one index is WithApplication. -/
theorem count_after_dequeue (t : Tags) (i : Nat) (hi : i < num_buffers)
    (ht : count_with_application t = 0) :
    count_with_application (Function.update t i true) = 1 := by
  rw [count_with_application_eq_zero] at ht
  obtain ⟨h0, h1, h2⟩ := ht
  unfold num_buffers at hi
  interval_cases i <;>
    simp [count_with_application, num_buffers, List.range_succ, List.range_zero,
      List.filter, Function.update, h0, h1, h2]

/-- After the requeue of the one index that is WithApplication, every index is
WithDevice again. -/
theorem count_after_requeue (t : Tags) (i : Nat)
    (ht : count_with_application t = 0) :
    count_with_application (Function.update (Function.update t i true) i false) = 0 := by
  rw [Function.update_idem]
  rw [count_with_application_eq_zero] at ht ⊢
  obtain ⟨h0, h1, h2⟩ := ht
  refine ⟨?_, ?_, ?_⟩ <;> (simp only [Function.update_apply]; split_ifs <;> simp [*])

/-- The discipline holds at the head of a sequence on which it holds. -/
theorem OwnershipOk_head (t : Tags) (last : Option Nat) (es : Trace)
    (h : OwnershipOk t last es) : count_with_application t ≤ 1 := by
  cases es with
  | nil => exact h
  | cons e es => exact h.1

/-- A quiet call leaves the tags as they are. -/
theorem quiet_own_step (t : Tags) (e : Event) (h : quiet e = true) : own_step t e = t := by
  cases e <;> first | rfl | (simp [quiet] at h)

/-- A quiet call leaves the most recent dequeue as it is. -/
theorem quiet_last_step (l : Option Nat) (e : Event) (h : quiet e = true) :
    last_step l e = l := by
  cases e <;> first | rfl | (simp [quiet] at h)

/-- A quiet call is under no guard. -/
theorem quiet_own_guard (t : Tags) (l : Option Nat) (e : Event) (h : quiet e = true) :
    own_guard t l e := by
  cases e <;> trivial

/-- Calls that are neither dequeue nor queue-buffer may be put in front. -/
theorem OwnershipOk_quiet_append (qs : Trace) (hq : ∀ e, e ∈ qs → quiet e = true) :
    ∀ (t : Tags) (last : Option Nat) (es : Trace),
      OwnershipOk t last es → OwnershipOk t last (qs ++ es) := by
  induction qs with
  | nil => intro t last es h; simpa using h
  | cons q qs ih =>
    intro t last es h
    have hqq : quiet q = true := hq q (List.mem_cons_self _ _)
    have hrest := ih (fun e he => hq e (List.mem_cons_of_mem _ he)) t last es h
    have hstep : own_step t q = t := quiet_own_step t q hqq
    have hlast : last_step last q = last := quiet_last_step last q hqq
    have hguard : own_guard t last q := quiet_own_guard t last q hqq
    show count_with_application t ≤ 1 ∧ own_guard t last q ∧
      OwnershipOk (own_step t q) (last_step last q) (qs ++ es)
    rw [hstep, hlast]
    exact ⟨OwnershipOk_head t last es h, hguard, hrest⟩

/-- The discipline along a sequence gives, at every point of the sequence, the
bound on the WithApplication indices and the guard of the call issued there. -/
theorem OwnershipOk_split :
    ∀ (pre : Trace) (t : Tags) (last : Option Nat) (post : Trace),
      OwnershipOk t last (pre ++ post) →
        count_with_application (tags_after t pre) ≤ 1 ∧
        ∀ e rest, post = e :: rest →
          own_guard (tags_after t pre) (last_dequeued last pre) e := by
  intro pre
  induction pre with
  | nil =>
    intro t last post h
    refine ⟨OwnershipOk_head t last _ h, ?_⟩
    intro e rest hpost
    subst hpost
    exact h.2.1
  | cons p pre ih =>
    intro t last post h
    exact ih (own_step t p) (last_step last p) post h.2.2

/-- The calls of `process_buffer` are quiet calls, followed by the requeue
unless a sync call did not return. -/
theorem process_buffer_quiet (env : Env) (args : arguments_t) (v4l2_fd : Int) (mp : Bool)
    (fuel : Nat) (h : Trace) (lc : Nat) (buf : v4l2_buffer) (buf_index : Int) (fd : Int)
    (map : Nat) :
    ∃ qs, (∀ e, e ∈ qs → quiet e = true) ∧
      (((process_buffer env args v4l2_fd mp fuel h lc buf buf_index fd map).1 = qs ∧
          (process_buffer env args v4l2_fd mp fuel h lc buf buf_index fd map).2 =
            some Outcome.diverged) ∨
        ∃ q, (process_buffer env args v4l2_fd mp fuel h lc buf buf_index fd map).1 =
            qs ++ [Event.ioctl_qbuf v4l2_fd (qbuf_arg mp (buf_index % 2 ^ 32).toNat fd) q] ∧
          (process_buffer env args v4l2_fd mp fuel h lc buf buf_index fd map).2 =
            if q ≠ 0 then some (Outcome.returned 0) else none) := by
  obtain ⟨s1, tail1, hev, hs1, hrest⟩ :=
    process_buffer_order env args v4l2_fd mp fuel h lc buf buf_index fd map
  have hq1 : ∀ e, e ∈ Event.call_dmabuf_sync fd true :: s1 → quiet e = true := by
    intro e he
    rcases List.mem_cons.mp he with rfl | he
    · rfl
    · obtain ⟨r, en, rfl⟩ := hs1 e he
      rfl
  rcases hrest with ⟨ht, hout⟩ | ⟨d, s2, tail2, ht, hd, hs2, hrest2⟩
  · refine ⟨Event.call_dmabuf_sync fd true :: s1, hq1, Or.inl ⟨?_, hout⟩⟩
    rw [hev, ht]; simp
  · have hqd : ∀ e, e ∈ d → quiet e = true := by
      intro e he
      rcases hd with rfl | rfl | ⟨off, len, rfl⟩
      · simp at he; subst he; rfl
      · simp at he; rcases he with rfl | rfl <;> rfl
      · simp at he; rcases he with rfl | rfl | rfl | rfl <;> rfl
    have hq2 : ∀ e, e ∈ Event.call_dmabuf_sync fd false :: s2 → quiet e = true := by
      intro e he
      rcases List.mem_cons.mp he with rfl | he
      · rfl
      · obtain ⟨r, en, rfl⟩ := hs2 e he
        rfl
    have hqall : ∀ e, e ∈ (Event.call_dmabuf_sync fd true :: s1) ++ d ++
        (Event.call_dmabuf_sync fd false :: s2) → quiet e = true := by
      intro e he
      rcases List.mem_append.mp he with he | he
      · rcases List.mem_append.mp he with he | he
        · exact hq1 e he
        · exact hqd e he
      · exact hq2 e he
    refine ⟨(Event.call_dmabuf_sync fd true :: s1) ++ d ++
      (Event.call_dmabuf_sync fd false :: s2), hqall, ?_⟩
    rcases hrest2 with ⟨ht2, hout⟩ | ⟨q, ht2, hout⟩
    · refine Or.inl ⟨?_, hout⟩
      rw [hev, ht, ht2]; simp
    · refine Or.inr ⟨q, ?_, hout⟩
      rw [hev, ht, ht2]; simp

/-- The ways through the body of the capture loop: the dequeue fails; the
index that was dequeued lies outside `dmabuf_fds` or `dmabuf_maps`; or the
buffer is processed. -/
theorem loop_body_cases (env : Env) (args : arguments_t) (v4l2_fd : Int) (mp : Bool)
    (fds : List Int) (maps : List Nat) (fuel : Nat) (h : Trace) (lc : Nat) :
    ((env.ioctl_dqbuf h v4l2_fd (dqbuf_arg mp)).1 ≠ 0 ∧
      loop_body env args v4l2_fd mp fds maps fuel h lc =
        ([Event.ioctl_dqbuf v4l2_fd (dqbuf_arg mp) (env.ioctl_dqbuf h v4l2_fd (dqbuf_arg mp)).1
            (env.ioctl_dqbuf h v4l2_fd (dqbuf_arg mp)).2], some (Outcome.returned 0))) ∨
    ((env.ioctl_dqbuf h v4l2_fd (dqbuf_arg mp)).1 = 0 ∧
      (array_get fds (to_int (env.ioctl_dqbuf h v4l2_fd (dqbuf_arg mp)).2.index) = none ∨
        array_get maps (to_int (env.ioctl_dqbuf h v4l2_fd (dqbuf_arg mp)).2.index) = none) ∧
      loop_body env args v4l2_fd mp fds maps fuel h lc =
        ([Event.ioctl_dqbuf v4l2_fd (dqbuf_arg mp) 0
            (env.ioctl_dqbuf h v4l2_fd (dqbuf_arg mp)).2], some Outcome.undefined)) ∨
    ((env.ioctl_dqbuf h v4l2_fd (dqbuf_arg mp)).1 = 0 ∧
      ∃ fd map,
        array_get fds (to_int (env.ioctl_dqbuf h v4l2_fd (dqbuf_arg mp)).2.index) = some fd ∧
        array_get maps (to_int (env.ioctl_dqbuf h v4l2_fd (dqbuf_arg mp)).2.index) = some map ∧
        loop_body env args v4l2_fd mp fds maps fuel h lc =
          (Event.ioctl_dqbuf v4l2_fd (dqbuf_arg mp) 0
              (env.ioctl_dqbuf h v4l2_fd (dqbuf_arg mp)).2 ::
            (process_buffer env args v4l2_fd mp fuel
              (h ++ [Event.ioctl_dqbuf v4l2_fd (dqbuf_arg mp) 0
                (env.ioctl_dqbuf h v4l2_fd (dqbuf_arg mp)).2]) lc
              (env.ioctl_dqbuf h v4l2_fd (dqbuf_arg mp)).2
              (to_int (env.ioctl_dqbuf h v4l2_fd (dqbuf_arg mp)).2.index) fd map).1,
           (process_buffer env args v4l2_fd mp fuel
              (h ++ [Event.ioctl_dqbuf v4l2_fd (dqbuf_arg mp) 0
                (env.ioctl_dqbuf h v4l2_fd (dqbuf_arg mp)).2]) lc
              (env.ioctl_dqbuf h v4l2_fd (dqbuf_arg mp)).2
              (to_int (env.ioctl_dqbuf h v4l2_fd (dqbuf_arg mp)).2.index) fd map).2)) := by
  unfold loop_body
  simp only []
  generalize env.ioctl_dqbuf h v4l2_fd (dqbuf_arg mp) = r
  obtain ⟨ret, out⟩ := r
  by_cases hret : ret = 0
  · subst hret
    cases hfd : array_get fds (to_int out.index) with
    | none => simp [hfd]
    | some fd =>
      cases hmap : array_get maps (to_int out.index) with
      | none => simp [hfd, hmap]
      | some map => simp [hfd, hmap]
  · simp [hret]

/-- A `uint32_t` below 2^31 converts to the `int` of the same value. -/
theorem to_int_of_lt (x : Nat) (h : x < 2 ^ 31) : to_int x = (x : Int) := by
  unfold to_int u32
  have h1 : x % 2 ^ 32 = x := Nat.mod_eq_of_lt (by omega)
  rw [h1, if_pos h]

/-- The buffer that `qbuf_arg` builds, field by field. -/
theorem qbuf_arg_eq (mp : Bool) (i : Nat) (fd : Int) :
    qbuf_arg mp i fd =
      if mp then
        { index := i, type := V4L2_BUF_TYPE_VIDEO_CAPTURE_MPLANE, bytesused := 0,
          memory := V4L2_MEMORY_DMABUF, m_fd := 0, length := 1,
          planes0 := { bytesused := 0, data_offset := 0, m_fd := fd } }
      else
        { index := i, type := V4L2_BUF_TYPE_VIDEO_CAPTURE, bytesused := 0,
          memory := V4L2_MEMORY_DMABUF, m_fd := fd, length := 0,
          planes0 := { bytesused := 0, data_offset := 0, m_fd := 0 } } := by
  cases mp <;> rfl

/-- One evaluation of the loop condition of the capture loop: the poll never
returns; or the loop ends at the poll; or the body ends the run; or the body
reaches `loop_count++` and the loop goes on. -/
theorem capture_loop_cases (env : Env) (args : arguments_t) (v4l2_fd : Int) (mp : Bool)
    (fds : List Int) (maps : List Nat) (fuel : Nat) (h : Trace) (lc : Nat) :
    (sys_poll env h v4l2_fd (to_int args.timeout_ms) = none ∧
      capture_loop env args v4l2_fd mp fds maps (fuel + 1) h lc =
        ([Event.poll_blocked v4l2_fd (to_int args.timeout_ms)], Outcome.diverged)) ∨
    (sys_poll env h v4l2_fd (to_int args.timeout_ms) =
        some (env.poll h v4l2_fd (to_int args.timeout_ms)) ∧
      ((¬ (env.poll h v4l2_fd (to_int args.timeout_ms) > 0 ∧ lc < args.loop_count) ∧
        capture_loop env args v4l2_fd mp fds maps (fuel + 1) h lc =
          ([Event.poll v4l2_fd (to_int args.timeout_ms)
            (env.poll h v4l2_fd (to_int args.timeout_ms))],
            Outcome.returned 0)) ∨
      ((env.poll h v4l2_fd (to_int args.timeout_ms) > 0 ∧ lc < args.loop_count) ∧
        ∃ o, (loop_body env args v4l2_fd mp fds maps fuel
            (h ++ [Event.poll v4l2_fd (to_int args.timeout_ms)
              (env.poll h v4l2_fd (to_int args.timeout_ms))])
            lc).2 = some o ∧
          capture_loop env args v4l2_fd mp fds maps (fuel + 1) h lc =
            (Event.poll v4l2_fd (to_int args.timeout_ms)
              (env.poll h v4l2_fd (to_int args.timeout_ms)) ::
              (loop_body env args v4l2_fd mp fds maps fuel
                (h ++ [Event.poll v4l2_fd (to_int args.timeout_ms)
                  (env.poll h v4l2_fd (to_int args.timeout_ms))])
                lc).1, o)) ∨
      ((env.poll h v4l2_fd (to_int args.timeout_ms) > 0 ∧ lc < args.loop_count) ∧
        (loop_body env args v4l2_fd mp fds maps fuel
            (h ++ [Event.poll v4l2_fd (to_int args.timeout_ms)
              (env.poll h v4l2_fd (to_int args.timeout_ms))])
            lc).2 = none ∧
        capture_loop env args v4l2_fd mp fds maps (fuel + 1) h lc =
          (Event.poll v4l2_fd (to_int args.timeout_ms)
            (env.poll h v4l2_fd (to_int args.timeout_ms)) ::
            (loop_body env args v4l2_fd mp fds maps fuel
              (h ++ [Event.poll v4l2_fd (to_int args.timeout_ms)
                (env.poll h v4l2_fd (to_int args.timeout_ms))])
              lc).1 ++
            (capture_loop env args v4l2_fd mp fds maps fuel
              (h ++ Event.poll v4l2_fd (to_int args.timeout_ms)
                (env.poll h v4l2_fd (to_int args.timeout_ms)) ::
                (loop_body env args v4l2_fd mp fds maps fuel
                  (h ++ [Event.poll v4l2_fd (to_int args.timeout_ms)
                    (env.poll h v4l2_fd (to_int args.timeout_ms))]) lc).1) (lc + 1)).1,
           (capture_loop env args v4l2_fd mp fds maps fuel
              (h ++ Event.poll v4l2_fd (to_int args.timeout_ms)
                (env.poll h v4l2_fd (to_int args.timeout_ms)) ::
                (loop_body env args v4l2_fd mp fds maps fuel
                  (h ++ [Event.poll v4l2_fd (to_int args.timeout_ms)
                    (env.poll h v4l2_fd (to_int args.timeout_ms))]) lc).1) (lc + 1)).2)))) := by
  rw [capture_loop]
  simp only []
  by_cases hblk : to_int args.timeout_ms < 0 ∧ env.poll_blocks h v4l2_fd = true
  · left
    simp [sys_poll, hblk]
  right
  have hsp : sys_poll env h v4l2_fd (to_int args.timeout_ms) =
      some (env.poll h v4l2_fd (to_int args.timeout_ms)) := by
    unfold sys_poll
    rw [if_neg hblk]
  refine ⟨hsp, ?_⟩
  rw [hsp]
  simp only []
  generalize env.poll h v4l2_fd (to_int args.timeout_ms) = pr
  by_cases hc : pr > 0 ∧ lc < args.loop_count
  · simp only [hc, and_self, if_true, true_and, not_true_eq_false, false_and, false_or]
    generalize hb : loop_body env args v4l2_fd mp fds maps fuel
      (h ++ [Event.poll v4l2_fd (to_int args.timeout_ms) pr]) lc = b
    obtain ⟨ev, o⟩ := b
    cases o with
    | none => exact Or.inr ⟨rfl, rfl⟩
    | some o => exact Or.inl ⟨o, rfl, rfl⟩
  · simp only [hc, if_false, not_false_eq_true, true_and, false_and, or_false]

/-- The index of the buffer built by `qbuf_arg`. -/
theorem qbuf_arg_index (mp : Bool) (i : Nat) (fd : Int) : (qbuf_arg mp i fd).index = i := by
  cases mp <;> rfl

/-- The ownership discipline along the body of the capture loop, entered with
every index WithDevice: it holds along the calls of the body, and when the body
reaches `loop_count++` every index is WithDevice again. -/
theorem loop_body_ownership (env : Env)
    (hdev : ∀ h fd arg, (env.ioctl_dqbuf h fd arg).2.index < num_buffers)
    (args : arguments_t) (v4l2_fd : Int) (mp : Bool) (fds : List Int) (maps : List Nat)
    (fuel : Nat) (h : Trace) (lc : Nat) (t : Tags) (last : Option Nat)
    (ht : count_with_application t = 0) :
    ((loop_body env args v4l2_fd mp fds maps fuel h lc).2 ≠ none →
      OwnershipOk t last (loop_body env args v4l2_fd mp fds maps fuel h lc).1) ∧
    ((loop_body env args v4l2_fd mp fds maps fuel h lc).2 = none →
      ∃ t2 l2, count_with_application t2 = 0 ∧
        ∀ rest, OwnershipOk t2 l2 rest →
          OwnershipOk t last ((loop_body env args v4l2_fd mp fds maps fuel h lc).1 ++ rest)) := by
  have hidx := hdev h v4l2_fd (dqbuf_arg mp)
  have ht1 : count_with_application
      (Function.update t (env.ioctl_dqbuf h v4l2_fd (dqbuf_arg mp)).2.index true) = 1 :=
    count_after_dequeue t _ hidx ht
  have hle : count_with_application t ≤ 1 := by omega
  rcases loop_body_cases env args v4l2_fd mp fds maps fuel h lc with
    ⟨hne, hbody⟩ | ⟨hz, _, hbody⟩ | ⟨hz, fd, map, hfd, hmap, hbody⟩
  · rw [hbody]
    refine ⟨fun _ => ?_, fun hn => by simp at hn⟩
    refine ⟨hle, ht, ?_⟩
    show count_with_application (own_step t _) ≤ 1
    simp only [own_step, hne, if_false]
    exact hle
  · rw [hbody]
    refine ⟨fun _ => ?_, fun hn => by simp at hn⟩
    refine ⟨hle, ht, ?_⟩
    show count_with_application (own_step t _) ≤ 1
    simp only [own_step, if_true]
    omega
  · obtain ⟨i, hi, _, _⟩ := array_get_some fds _ fd hfd
    have hii : i = (env.ioctl_dqbuf h v4l2_fd (dqbuf_arg mp)).2.index := by
      have h3 : (env.ioctl_dqbuf h v4l2_fd (dqbuf_arg mp)).2.index < 2 ^ 31 := by
        unfold num_buffers at hidx; omega
      rw [to_int_of_lt _ h3] at hi
      exact_mod_cast hi.symm
    have hlt : i < 2 ^ 32 := by rw [hii]; unfold num_buffers at hidx; omega
    have hreq := requeue_index _ i hi hlt
    obtain ⟨qs, hqs, hcase⟩ := process_buffer_quiet env args v4l2_fd mp fuel
      (h ++ [Event.ioctl_dqbuf v4l2_fd (dqbuf_arg mp) 0
        (env.ioctl_dqbuf h v4l2_fd (dqbuf_arg mp)).2]) lc
      (env.ioctl_dqbuf h v4l2_fd (dqbuf_arg mp)).2
      (to_int (env.ioctl_dqbuf h v4l2_fd (dqbuf_arg mp)).2.index) fd map
    rw [hreq] at hcase
    rw [hbody]
    rcases hcase with ⟨hev, hout⟩ | ⟨q, hev, hout⟩
    · rw [hev, hout]
      refine ⟨fun _ => ?_, fun hn => by simp at hn⟩
      refine ⟨hle, ht, ?_⟩
      simp only [own_step, last_step, if_true]
      have := OwnershipOk_quiet_append qs hqs
        (Function.update t (env.ioctl_dqbuf h v4l2_fd (dqbuf_arg mp)).2.index true)
        (some (env.ioctl_dqbuf h v4l2_fd (dqbuf_arg mp)).2.index) []
        (by show count_with_application _ ≤ 1; omega)
      simpa using this
    · rw [hev, hout]
      by_cases hq : q = 0
      · subst hq
        refine ⟨fun hn => by simp at hn, fun _ => ?_⟩
        refine ⟨Function.update (Function.update t i true) i false, some i, ?_, ?_⟩
        · exact count_after_requeue t i ht
        · intro rest hrest
          refine ⟨hle, ht, ?_⟩
          show OwnershipOk _ _ ((qs ++ [Event.ioctl_qbuf v4l2_fd (qbuf_arg mp i fd) 0]) ++ rest)
          rw [List.append_assoc]
          simp only [own_step, last_step, if_true]
          apply OwnershipOk_quiet_append qs hqs
          rw [← hii]
          refine ⟨by rw [hii]; omega, ?_, ?_⟩
          · show (Function.update t i true) (qbuf_arg mp i fd).index = true ∧
              some i = some (qbuf_arg mp i fd).index
            rw [qbuf_arg_index]
            exact ⟨Function.update_same _ _ _, rfl⟩
          · simp only [own_step, last_step, qbuf_arg_index, if_true]
            exact hrest
      · refine ⟨fun _ => ?_, fun hn => by simp [hq] at hn⟩
        refine ⟨hle, ht, ?_⟩
        simp only [own_step, last_step, if_true]
        apply OwnershipOk_quiet_append qs hqs
        rw [← hii]
        refine ⟨by rw [hii]; omega, ?_, ?_⟩
        · show (Function.update t i true) (qbuf_arg mp i fd).index = true ∧
            some i = some (qbuf_arg mp i fd).index
          rw [qbuf_arg_index]
          exact ⟨Function.update_same _ _ _, rfl⟩
        · show count_with_application (own_step _ _) ≤ 1
          simp only [own_step, hq, if_false]
          rw [hii]; omega

/-- The ownership discipline holds along the calls of the capture loop,
entered with every index WithDevice. -/
theorem capture_loop_ownership_ok (env : Env)
    (hdev : ∀ h fd arg, (env.ioctl_dqbuf h fd arg).2.index < num_buffers)
    (args : arguments_t) (v4l2_fd : Int) (mp : Bool) (fds : List Int) (maps : List Nat) :
    ∀ (fuel : Nat) (h : Trace) (lc : Nat) (t : Tags) (last : Option Nat),
      count_with_application t = 0 →
        OwnershipOk t last (capture_loop env args v4l2_fd mp fds maps fuel h lc).1 := by
  intro fuel
  induction fuel with
  | zero =>
    intro h lc t last ht
    show count_with_application t ≤ 1
    omega
  | succ fuel ih =>
    intro h lc t last ht
    have hle : count_with_application t ≤ 1 := by omega
    rcases capture_loop_cases env args v4l2_fd mp fds maps fuel h lc with
      ⟨hblk, hblkres⟩ | ⟨hsp, ⟨_, hres⟩ | ⟨_, o, hb, hres⟩ | ⟨_, hb, hres⟩⟩
    · rw [hblkres]
      exact ⟨hle, trivial, hle⟩
    · rw [hres]
      exact ⟨hle, trivial, hle⟩
    · rw [hres]
      refine ⟨hle, trivial, ?_⟩
      exact (loop_body_ownership env hdev args v4l2_fd mp fds maps fuel _ lc t last ht).1
        (by rw [hb]; simp)
    · rw [hres]
      refine ⟨hle, trivial, ?_⟩
      obtain ⟨t2, l2, ht2, hall⟩ :=
        (loop_body_ownership env hdev args v4l2_fd mp fds maps fuel _ lc t last ht).2 hb
      exact hall _ (ih _ (lc + 1) t2 l2 ht2)

/-- An index below the length of an array lies inside the array. -/
theorem array_get_of_lt {α : Type} (a : List α) (x : Nat) (h3 : x < 2 ^ 31)
    (hlen : x < a.length) : ∃ v, array_get a (to_int x) = some v := by
  rw [to_int_of_lt x h3]
  unfold array_get
  have : ¬ ((x : Int) < 0) := by omega
  rw [if_neg this]
  refine ⟨a.get ⟨x, hlen⟩, ?_⟩
  simp [List.get?_eq_get hlen]

/-- Against a device that returns indices 0 .. 2 the body of the capture loop
never indexes outside `dmabuf_fds` and `dmabuf_maps`. -/
theorem loop_body_defined (env : Env)
    (hdev : ∀ h fd arg, (env.ioctl_dqbuf h fd arg).2.index < num_buffers)
    (args : arguments_t) (v4l2_fd : Int) (mp : Bool) (fds : List Int) (maps : List Nat)
    (hfds : fds.length = num_buffers) (hmaps : maps.length = num_buffers)
    (fuel : Nat) (h : Trace) (lc : Nat) :
    (loop_body env args v4l2_fd mp fds maps fuel h lc).2 ≠ some Outcome.undefined := by
  have hidx := hdev h v4l2_fd (dqbuf_arg mp)
  have h3 : (env.ioctl_dqbuf h v4l2_fd (dqbuf_arg mp)).2.index < 2 ^ 31 := by
    unfold num_buffers at hidx; omega
  rcases loop_body_cases env args v4l2_fd mp fds maps fuel h lc with
    ⟨hne, hbody⟩ | ⟨hz, hnone, hbody⟩ | ⟨hz, fd, map, hfd, hmap, hbody⟩
  · rw [hbody]; simp
  · exfalso
    rcases hnone with hn | hn
    · obtain ⟨v, hv⟩ := array_get_of_lt fds _ h3 (by rw [hfds]; exact hidx)
      rw [hn] at hv; simp at hv
    · obtain ⟨v, hv⟩ := array_get_of_lt maps _ h3 (by rw [hmaps]; exact hidx)
      rw [hn] at hv; simp at hv
  · rw [hbody]
    obtain ⟨qs, _, hcase⟩ := process_buffer_quiet env args v4l2_fd mp fuel
      (h ++ [Event.ioctl_dqbuf v4l2_fd (dqbuf_arg mp) 0
        (env.ioctl_dqbuf h v4l2_fd (dqbuf_arg mp)).2]) lc
      (env.ioctl_dqbuf h v4l2_fd (dqbuf_arg mp)).2
      (to_int (env.ioctl_dqbuf h v4l2_fd (dqbuf_arg mp)).2.index) fd map
    rcases hcase with ⟨_, hout⟩ | ⟨q, _, hout⟩
    · rw [hout]; simp
    · rw [hout]
      by_cases hq : q = 0 <;> simp [hq]

/-- Against a device that returns indices 0 .. 2 the capture loop never
indexes outside `dmabuf_fds` and `dmabuf_maps`. -/
theorem capture_loop_defined (env : Env)
    (hdev : ∀ h fd arg, (env.ioctl_dqbuf h fd arg).2.index < num_buffers)
    (args : arguments_t) (v4l2_fd : Int) (mp : Bool) (fds : List Int) (maps : List Nat)
    (hfds : fds.length = num_buffers) (hmaps : maps.length = num_buffers) :
    ∀ (fuel : Nat) (h : Trace) (lc : Nat),
      (capture_loop env args v4l2_fd mp fds maps fuel h lc).2 ≠ Outcome.undefined := by
  intro fuel
  induction fuel with
  | zero => intro h lc; simp [capture_loop]
  | succ fuel ih =>
    intro h lc
    rcases capture_loop_cases env args v4l2_fd mp fds maps fuel h lc with
      ⟨hblk, hblkres⟩ | ⟨hsp, ⟨_, hres⟩ | ⟨_, o, hb, hres⟩ | ⟨_, hb, hres⟩⟩
    · rw [hblkres]; simp
    · rw [hres]; simp
    · rw [hres]
      have := loop_body_defined env hdev args v4l2_fd mp fds maps hfds hmaps fuel
        (h ++ [Event.poll v4l2_fd (to_int args.timeout_ms)
          (env.poll h v4l2_fd (to_int args.timeout_ms))]) lc
      rw [hb] at this
      intro hc
      apply this
      simp only at hc
      rw [hc]
    · rw [hres]
      exact ih _ _

/-- C6: against a device that returns dequeued indices in 0 .. 2, with an index
tagged WithApplication from its successful dequeue to its successful requeue
and WithDevice otherwise (all WithDevice when the loop is entered), at every
point of the capture loop: the WithDevice and the WithApplication indices are 3
together; at most one index is WithApplication; a queue-buffer is issued only
for an index that is WithApplication and that the most recent dequeue returned;
a dequeue is issued only while no index is WithApplication.  The loop never
indexes outside the two arrays of 3 elements. -/
theorem capture_loop_ownership (env : Env)
    (hdev : ∀ h fd arg, (env.ioctl_dqbuf h fd arg).2.index < num_buffers)
    (args : arguments_t) (v4l2_fd : Int) (mp : Bool) (fds : List Int) (maps : List Nat)
    (hfds : fds.length = num_buffers) (hmaps : maps.length = num_buffers)
    (fuel : Nat) (h : Trace) (lc : Nat) :
    (capture_loop env args v4l2_fd mp fds maps fuel h lc).2 ≠ Outcome.undefined ∧
    ∀ pre post, (capture_loop env args v4l2_fd mp fds maps fuel h lc).1 = pre ++ post →
      count_with_device (tags_after all_with_device pre) +
        count_with_application (tags_after all_with_device pre) = num_buffers ∧
      count_with_application (tags_after all_with_device pre) ≤ 1 ∧
      (∀ fd buf ret rest, post = Event.ioctl_qbuf fd buf ret :: rest →
        tags_after all_with_device pre buf.index = true ∧
        last_dequeued none pre = some buf.index) ∧
      (∀ fd arg ret out rest, post = Event.ioctl_dqbuf fd arg ret out :: rest →
        count_with_application (tags_after all_with_device pre) = 0) := by
  refine ⟨capture_loop_defined env hdev args v4l2_fd mp fds maps hfds hmaps fuel h lc, ?_⟩
  intro pre post hsplit
  have hok := capture_loop_ownership_ok env hdev args v4l2_fd mp fds maps fuel h lc
    all_with_device none (by decide)
  rw [hsplit] at hok
  obtain ⟨hcount, hguard⟩ := OwnershipOk_split pre all_with_device none post hok
  refine ⟨count_with_device_add _, hcount, ?_, ?_⟩
  · intro fd buf ret rest hpost
    exact hguard _ rest hpost
  · intro fd arg ret out rest hpost
    exact hguard _ rest hpost

/-- C6 (witness of `capture_loop_ownership`): the capture loop against `env_ok`,
which hands back the indices `h.length % 3`, on arrays of 3 elements. -/
theorem capture_loop_ownership_witness :
    ((∀ h fd arg, (env_ok.ioctl_dqbuf h fd arg).2.index < num_buffers) ∧
      [(7 : Int), 9, 11].length = num_buffers ∧ [28672, 36864, 45056].length = num_buffers) ∧
    (capture_loop env_ok default_arguments 3 false [7, 9, 11] [28672, 36864, 45056] 4 [] 0).2
      ≠ Outcome.undefined ∧
    ∀ pre post,
      (capture_loop env_ok default_arguments 3 false [7, 9, 11] [28672, 36864, 45056] 4 [] 0).1
        = pre ++ post →
      count_with_device (tags_after all_with_device pre) +
        count_with_application (tags_after all_with_device pre) = num_buffers ∧
      count_with_application (tags_after all_with_device pre) ≤ 1 ∧
      (∀ fd buf ret rest, post = Event.ioctl_qbuf fd buf ret :: rest →
        tags_after all_with_device pre buf.index = true ∧
        last_dequeued none pre = some buf.index) ∧
      (∀ fd arg ret out rest, post = Event.ioctl_dqbuf fd arg ret out :: rest →
        count_with_application (tags_after all_with_device pre) = 0) :=
  ⟨⟨fun h _ _ => Nat.mod_lt _ (by decide), rfl, rfl⟩,
    capture_loop_ownership env_ok (fun h _ _ => Nat.mod_lt _ (by decide))
      default_arguments 3 false [7, 9, 11] [28672, 36864, 45056] rfl rfl 4 [] 0⟩

/-- What holds of every call that `process_buffer` issues: its kind is one of
`body_kinds`, it is no dequeue, and when it is an `fwrite` it goes to the file
named after `loop_count`. -/
theorem process_buffer_events (env : Env) (args : arguments_t) (v4l2_fd : Int) (mp : Bool)
    (fuel : Nat) (h : Trace) (lc : Nat) (buf : v4l2_buffer) (buf_index : Int) (fd : Int)
    (map : Nat) :
    ∀ e, e ∈ (process_buffer env args v4l2_fd mp fuel h lc buf buf_index fd map).1 →
      e.kind ∈ body_kinds ∧ e.kind ≠ Kind.k_dqbuf ∧ e.kind ≠ Kind.k_poll ∧
      (∀ p sz f, e = Event.fwrite p sz f → f = image_filename args.output_dir lc) := by
  obtain ⟨s1, tail1, hev, hs1, hrest⟩ :=
    process_buffer_order env args v4l2_fd mp fuel h lc buf buf_index fd map
  have hcall : ∀ b, (Event.call_dmabuf_sync fd b).kind ∈ body_kinds ∧
      (Event.call_dmabuf_sync fd b).kind ≠ Kind.k_dqbuf ∧
      (Event.call_dmabuf_sync fd b).kind ≠ Kind.k_poll ∧
      (∀ p sz f, Event.call_dmabuf_sync fd b = Event.fwrite p sz f →
        f = image_filename args.output_dir lc) := by
    intro b
    refine ⟨by simp [Event.kind, body_kinds], by simp [Event.kind], by simp [Event.kind], ?_⟩
    intro p sz f hf; cases hf
  have hsync : ∀ fl r en, (Event.ioctl_sync fd fl r en).kind ∈ body_kinds ∧
      (Event.ioctl_sync fd fl r en).kind ≠ Kind.k_dqbuf ∧
      (Event.ioctl_sync fd fl r en).kind ≠ Kind.k_poll ∧
      (∀ p sz f, Event.ioctl_sync fd fl r en = Event.fwrite p sz f →
        f = image_filename args.output_dir lc) := by
    intro fl r en
    refine ⟨by simp [Event.kind, body_kinds], by simp [Event.kind], by simp [Event.kind], ?_⟩
    intro p sz f hf; cases hf
  intro e he
  rw [hev] at he
  rcases List.mem_cons.mp he with rfl | he
  · exact hcall true
  rcases List.mem_append.mp he with he | he
  · obtain ⟨r, en, rfl⟩ := hs1 e he
    exact hsync _ r en
  rcases hrest with ⟨ht, _⟩ | ⟨d, s2, tail2, ht, hd, hs2, hrest2⟩
  · rw [ht] at he; simp at he
  rw [ht] at he
  rcases List.mem_append.mp he with he | he
  · rcases hd with rfl | rfl | ⟨off, len, rfl⟩
    · simp only [List.mem_singleton] at he
      subst he
      refine ⟨by simp [Event.kind, body_kinds], by simp [Event.kind], by simp [Event.kind], ?_⟩
      intro p sz f hf; cases hf
    · simp only [List.mem_cons, List.mem_singleton, List.not_mem_nil, or_false] at he
      rcases he with rfl | rfl <;>
      · refine ⟨by simp [Event.kind, body_kinds], by simp [Event.kind], by simp [Event.kind], ?_⟩
        intro p sz f hf; cases hf
    · simp only [List.mem_cons, List.mem_singleton, List.not_mem_nil, or_false] at he
      rcases he with rfl | rfl | rfl | rfl
      · refine ⟨by simp [Event.kind, body_kinds], by simp [Event.kind], by simp [Event.kind], ?_⟩
        intro p sz f hf; cases hf
      · refine ⟨by simp [Event.kind, body_kinds], by simp [Event.kind], by simp [Event.kind], ?_⟩
        intro p sz f hf; cases hf
      · refine ⟨by simp [Event.kind, body_kinds], by simp [Event.kind], by simp [Event.kind], ?_⟩
        intro p sz f hf; cases hf; rfl
      · refine ⟨by simp [Event.kind, body_kinds], by simp [Event.kind], by simp [Event.kind], ?_⟩
        intro p sz f hf; cases hf
  rcases List.mem_cons.mp he with rfl | he
  · exact hcall false
  rcases List.mem_append.mp he with he | he
  · obtain ⟨r, en, rfl⟩ := hs2 e he
    exact hsync _ r en
  rcases hrest2 with ⟨ht2, _⟩ | ⟨q, ht2, _⟩
  · rw [ht2] at he; simp at he
  · rw [ht2] at he
    simp only [List.mem_singleton] at he
    subst he
    refine ⟨by simp [Event.kind, body_kinds], by simp [Event.kind], by simp [Event.kind], ?_⟩
    intro p sz f hf; cases hf

/-- The calls of the body of the capture loop: one dequeue, which succeeded
when the body reaches `loop_count++`, then calls of which none is a dequeue or
a poll and whose `fwrite` goes to the file named after `loop_count`. -/
theorem loop_body_events (env : Env) (args : arguments_t) (v4l2_fd : Int) (mp : Bool)
    (fds : List Int) (maps : List Nat) (fuel : Nat) (h : Trace) (lc : Nat) :
    ∃ ret out rest,
      (loop_body env args v4l2_fd mp fds maps fuel h lc).1 =
        Event.ioctl_dqbuf v4l2_fd (dqbuf_arg mp) ret out :: rest ∧
      ((loop_body env args v4l2_fd mp fds maps fuel h lc).2 = none → ret = 0) ∧
      (ret ≠ 0 → rest = []) ∧
      ∀ e, e ∈ rest →
        e.kind ∈ body_kinds ∧ e.kind ≠ Kind.k_dqbuf ∧ e.kind ≠ Kind.k_poll ∧
        (∀ p sz f, e = Event.fwrite p sz f → f = image_filename args.output_dir lc) := by
  rcases loop_body_cases env args v4l2_fd mp fds maps fuel h lc with
    ⟨hne, hbody⟩ | ⟨hz, _, hbody⟩ | ⟨hz, fd, map, hfd, hmap, hbody⟩
  · refine ⟨_, _, [], by rw [hbody], ?_, fun _ => rfl, by simp⟩
    rw [hbody]; simp
  · refine ⟨0, _, [], by rw [hbody], fun _ => rfl, fun _ => rfl, by simp⟩
  · refine ⟨0, _, _, by rw [hbody], fun _ => rfl, fun hc => absurd rfl hc, ?_⟩
    exact process_buffer_events env args v4l2_fd mp fuel _ lc _ _ fd map

/-- A timeout of 2^31 ms or more reaches `poll` as a negative `int`, and the
capture loop then waits without time limit: on a descriptor that stays silent
the `poll` never returns. -/
theorem capture_loop_poll_without_limit (env : Env) (args : arguments_t) (v4l2_fd : Int)
    (mp : Bool) (fds : List Int) (maps : List Nat) (fuel : Nat) (h : Trace) (lc : Nat)
    (ht : 2 ^ 31 ≤ u32 args.timeout_ms) (hb : env.poll_blocks h v4l2_fd = true) :
    capture_loop env args v4l2_fd mp fds maps (fuel + 1) h lc =
      ([Event.poll_blocked v4l2_fd ((u32 args.timeout_ms : Int) - 2 ^ 32)],
        Outcome.diverged) := by
  have hlt : u32 args.timeout_ms < 2 ^ 32 := Nat.mod_lt _ (by norm_num)
  have hti : to_int args.timeout_ms = (u32 args.timeout_ms : Int) - 2 ^ 32 := by
    unfold to_int
    rw [if_neg (by omega)]
  have hneg : to_int args.timeout_ms < 0 := by rw [hti]; omega
  have hsp : sys_poll env h v4l2_fd (to_int args.timeout_ms) = none := by
    unfold sys_poll
    rw [if_pos ⟨hneg, hb⟩]
  rw [capture_loop]
  simp only [hsp]
  rw [hti]

/-- The calls of `dmabuf_heap_open` are opens. -/
theorem dmabuf_heap_open_kinds (env : Env) (h : Trace) :
    ∀ e, e ∈ (dmabuf_heap_open env h).1 → e.kind = Kind.k_open := by
  have key : ∀ (names : List String) (h1 : Trace) (e : Event),
      e ∈ (dmabuf_heap_open_loop env h1 names).1 → e.kind = Kind.k_open := by
    intro names
    induction names with
    | nil => intro h1 e he; simp [dmabuf_heap_open_loop] at he
    | cons name rest ih =>
      intro h1 e he
      unfold dmabuf_heap_open_loop at he
      simp only [] at he
      split_ifs at he
      · simp only [List.mem_singleton] at he
        subst he; rfl
      · rcases List.mem_cons.mp he with rfl | he
        · rfl
        · exact ih _ e he
  exact key heap_names h

/-- The loop "allocate and map dmabufs": its calls are allocations and
mappings; when it runs to its end, each of its `n` iterations issued one
allocation that succeeded and one mapping that succeeded, and the arrays were
extended by the descriptors and the addresses in this order. -/
theorem alloc_map_loop_spec (env : Env) (heap_fd : Int) (sizeimage : Nat) :
    ∀ (n : Nat) (h : Trace) (i : Nat) (fds : List Int) (maps : List Nat),
      (∀ e, e ∈ (alloc_map_loop env heap_fd sizeimage n h i fds maps).1 →
        e.kind = Kind.k_heap_alloc ∨ e.kind = Kind.k_mmap) ∧
      (∀ fds1 maps1, (alloc_map_loop env heap_fd sizeimage n h i fds maps).2
          = some (fds1, maps1) →
        ∃ ps : List (Int × Int × Nat), ps.length = n ∧
          (alloc_map_loop env heap_fd sizeimage n h i fds maps).1
            = (ps.map (alloc_map_events heap_fd sizeimage)).flatten ∧
          fds1 = fds ++ ps.map (fun p => p.2.1) ∧
          maps1 = maps ++ ps.map (fun p => p.2.2) ∧
          ∀ p, p ∈ ps → 0 ≤ p.1 ∧ 0 ≤ p.2.1) := by
  intro n
  induction n with
  | zero =>
    intro h i fds maps
    refine ⟨by simp [alloc_map_loop], ?_⟩
    intro fds1 maps1 hres
    simp only [alloc_map_loop, Option.some.injEq, Prod.mk.injEq] at hres
    exact ⟨[], rfl, rfl, by simp [hres.1], by simp [hres.2], by simp⟩
  | succ n ih =>
    intro h i fds maps
    unfold alloc_map_loop dmabuf_heap_alloc
    simp only []
    generalize env.ioctl_heap_alloc h heap_fd sizeimage (O_CLOEXEC ||| O_RDWR) = a
    obtain ⟨ra, fd⟩ := a
    by_cases hra : ra < 0
    · simp only [hra, if_true]
      refine ⟨?_, ?_⟩
      · intro e he; simp at he; subst he; left; rfl
      · intro fds1 maps1 hres; simp at hres
    · simp only [hra, if_false]
      by_cases hfd : fd < 0
      · simp only [hfd, if_true]
        refine ⟨?_, ?_⟩
        · intro e he; simp at he; subst he; left; rfl
        · intro fds1 maps1 hres; simp at hres
      · simp only [hfd, if_false]
        generalize env.mmap
          (h ++ [Event.ioctl_heap_alloc heap_fd sizeimage (O_CLOEXEC ||| O_RDWR) ra fd])
          sizeimage (PROT_WRITE ||| PROT_READ) MAP_SHARED fd = m
        cases m with
        | none =>
          refine ⟨?_, ?_⟩
          · intro e he
            simp at he
            rcases he with rfl | rfl
            · left; rfl
            · right; rfl
          · intro fds1 maps1 hres; simp at hres
        | some addr =>
          simp only []
          obtain ⟨hk, hs⟩ := ih
            (h ++ [Event.ioctl_heap_alloc heap_fd sizeimage (O_CLOEXEC ||| O_RDWR) ra fd] ++
              [Event.mmap sizeimage (PROT_WRITE ||| PROT_READ) MAP_SHARED fd (some addr)])
            (i + 1) (fds ++ [fd]) (maps ++ [addr])
          refine ⟨?_, ?_⟩
          · intro e he
            simp only [List.singleton_append, List.mem_cons] at he
            rcases he with rfl | rfl | he
            · left; rfl
            · right; rfl
            · exact hk e he
          · intro fds1 maps1 hres
            obtain ⟨ps, hlen, hev, hf, hm, hpos⟩ := hs fds1 maps1 hres
            refine ⟨(ra, fd, addr) :: ps, by simp [hlen], ?_, by simp [hf], by simp [hm], ?_⟩
            · rw [hev]
              simp [alloc_map_events]
            · intro p hp
              rcases List.mem_cons.mp hp with rfl | hp
              · show 0 ≤ ra ∧ 0 ≤ fd
                omega
              · exact hpos p hp

/-- The loop "enque dmabufs into v4l2 device": its calls are queue-buffer
calls; when it runs to its end, they are the `n` calls for the indices
`i`, `i + 1`, ... in this order, each with the element of `dmabuf_fds` at its
index, and all succeeded. -/
theorem enqueue_loop_spec (env : Env) (v4l2_fd : Int) (mp : Bool) (fds : List Int) :
    ∀ (n : Nat) (h : Trace) (i : Nat),
      (∀ e, e ∈ (enqueue_loop env v4l2_fd mp fds n h i).1 → e.kind = Kind.k_qbuf) ∧
      ((enqueue_loop env v4l2_fd mp fds n h i).2 = some true →
        (enqueue_loop env v4l2_fd mp fds n h i).1 =
          (List.range n).map
            (fun j => Event.ioctl_qbuf v4l2_fd (qbuf_arg mp (i + j) (fds.getD (i + j) 0)) 0)) := by
  intro n
  induction n with
  | zero => intro h i; simp [enqueue_loop]
  | succ n ih =>
    intro h i
    unfold enqueue_loop
    cases hget : array_get fds (i : Int) with
    | none => simp
    | some fd =>
      simp only []
      have hfd : fds.getD i 0 = fd := by
        unfold array_get at hget
        split_ifs at hget with hneg
        simp only [Int.toNat_ofNat] at hget
        rw [List.get?_eq_getElem?] at hget
        simp [List.getD, hget]
      generalize env.ioctl_qbuf h v4l2_fd (qbuf_arg mp i fd) = q
      by_cases hq : q = 0
      · subst hq
        simp only [ne_eq, not_true_eq_false, if_false]
        obtain ⟨hk, hs⟩ := ih (h ++ [Event.ioctl_qbuf v4l2_fd (qbuf_arg mp i fd) 0]) (i + 1)
        refine ⟨?_, ?_⟩
        · intro e he
          rcases List.mem_cons.mp he with rfl | he
          · rfl
          · exact hk e he
        · intro hres
          rw [hs hres, List.range_succ_eq_map, List.map_cons, List.map_map]
          simp only [Nat.add_zero, hfd, List.cons.injEq, true_and]
          apply List.map_congr_left
          intro j _
          show _ = Event.ioctl_qbuf v4l2_fd (qbuf_arg mp (i + (j + 1)) (fds.getD (i + (j + 1)) 0)) 0
          rw [show i + 1 + j = i + (j + 1) by omega]
      · simp only [ne_eq, hq, not_false_eq_true, if_true]
        refine ⟨?_, by simp⟩
        intro e he
        simp only [List.mem_singleton] at he
        subst he; rfl

/-- The ways through `setup_streaming`.  The first call is request-buffers;
when it fails or grants fewer than 3 buffers nothing follows.  Either the run
ends before stream-on, having issued only opens, allocations, mappings and
queue-buffer calls; or request-buffers succeeded with at least 3 buffers, the
heap was opened, 3 buffers were allocated and mapped, queued as indices 0, 1, 2
with their own descriptors, all with success, and stream-on was issued. -/
theorem setup_streaming_shape (env : Env) (h : Trace) (v4l2_fd : Int) (pix : v4l2_pix_format)
    (mp : Bool) :
    ∃ rr granted tail,
      (setup_streaming env h v4l2_fd pix mp).1 =
        Event.ioctl_reqbufs v4l2_fd num_buffers
          (if mp then V4L2_BUF_TYPE_VIDEO_CAPTURE_MPLANE else V4L2_BUF_TYPE_VIDEO_CAPTURE)
          V4L2_MEMORY_DMABUF rr granted :: tail ∧
      ((rr ≠ 0 ∨ u32 granted < num_buffers) → tail = []) ∧
      (((∃ o, (setup_streaming env h v4l2_fd pix mp).2 = Sum.inl o) ∧
          ∀ e, e ∈ tail → e.kind ∈ setup_kinds) ∨
        ∃ ho heap_fd p0 p1 p2 r,
          rr = 0 ∧ num_buffers ≤ u32 granted ∧
          (∀ e, e ∈ ho → e.kind = Kind.k_open) ∧
          tail = ho ++ (alloc_map_events heap_fd pix.sizeimage p0 ++
            alloc_map_events heap_fd pix.sizeimage p1 ++
            alloc_map_events heap_fd pix.sizeimage p2 ++
            [Event.ioctl_qbuf v4l2_fd (qbuf_arg mp 0 p0.2.1) 0,
              Event.ioctl_qbuf v4l2_fd (qbuf_arg mp 1 p1.2.1) 0,
              Event.ioctl_qbuf v4l2_fd (qbuf_arg mp 2 p2.2.1) 0,
              Event.ioctl_streamon v4l2_fd
                (if mp then V4L2_BUF_TYPE_VIDEO_CAPTURE_MPLANE else V4L2_BUF_TYPE_VIDEO_CAPTURE)
                r]) ∧
          (0 ≤ p0.1 ∧ 0 ≤ p0.2.1) ∧ (0 ≤ p1.1 ∧ 0 ≤ p1.2.1) ∧ (0 ≤ p2.1 ∧ 0 ≤ p2.2.1) ∧
          (setup_streaming env h v4l2_fd pix mp).2 =
            if r ≠ 0 then Sum.inl (Outcome.returned 0)
            else Sum.inr ([p0.2.1, p1.2.1, p2.2.1], [p0.2.2, p1.2.2, p2.2.2])) := by
  unfold setup_streaming
  simp only []
  generalize (if mp = true then V4L2_BUF_TYPE_VIDEO_CAPTURE_MPLANE
    else V4L2_BUF_TYPE_VIDEO_CAPTURE) = type
  generalize env.ioctl_reqbufs h v4l2_fd num_buffers type V4L2_MEMORY_DMABUF = rq
  obtain ⟨rr, granted⟩ := rq
  simp only []
  by_cases hrr : rr = 0
  swap
  · simp only [ne_eq, hrr, not_false_eq_true, if_true]
    exact ⟨rr, granted, [], rfl, fun _ => rfl, Or.inl ⟨⟨_, rfl⟩, by simp⟩⟩
  subst hrr
  simp only [ne_eq, not_true_eq_false, if_false]
  by_cases hg : u32 granted < num_buffers
  · simp only [hg, if_true]
    exact ⟨0, granted, [], rfl, fun _ => rfl, Or.inl ⟨⟨_, rfl⟩, by simp⟩⟩
  simp only [hg, if_false]
  have hok := dmabuf_heap_open_kinds env
    (h ++ [Event.ioctl_reqbufs v4l2_fd num_buffers type V4L2_MEMORY_DMABUF 0 granted])
  generalize dmabuf_heap_open env
    (h ++ [Event.ioctl_reqbufs v4l2_fd num_buffers type V4L2_MEMORY_DMABUF 0 granted]) = ho at hok
  obtain ⟨hoe, hofd⟩ := ho
  simp only [] at hok ⊢
  have hok2 : ∀ e, e ∈ hoe → e.kind ∈ setup_kinds := by
    intro e he; rw [hok e he]; simp [setup_kinds]
  by_cases hho : hofd < 0
  · simp only [hho, if_true]
    exact ⟨0, granted, hoe, rfl, fun hc => absurd hc (by simp [hg]), Or.inl ⟨⟨_, rfl⟩, hok2⟩⟩
  simp only [hho, if_false]
  obtain ⟨hamk, hams⟩ := alloc_map_loop_spec env hofd pix.sizeimage num_buffers
    (h ++ Event.ioctl_reqbufs v4l2_fd num_buffers type V4L2_MEMORY_DMABUF 0 granted :: hoe)
    0 [] []
  generalize alloc_map_loop env hofd pix.sizeimage num_buffers
    (h ++ Event.ioctl_reqbufs v4l2_fd num_buffers type V4L2_MEMORY_DMABUF 0 granted :: hoe)
    0 [] [] = am at hamk hams
  obtain ⟨ame, amr⟩ := am
  simp only [] at hamk hams ⊢
  have hamk2 : ∀ e, e ∈ ame → e.kind ∈ setup_kinds := by
    intro e he
    rcases hamk e he with hk | hk <;> rw [hk] <;> simp [setup_kinds]
  cases amr with
  | none =>
    simp only []
    refine ⟨0, granted, hoe ++ ame, by simp, fun hc => absurd hc (by simp [hg]),
      Or.inl ⟨⟨_, rfl⟩, ?_⟩⟩
    intro e he
    rcases List.mem_append.mp he with he | he
    · exact hok2 e he
    · exact hamk2 e he
  | some fm =>
    obtain ⟨fds, maps⟩ := fm
    simp only []
    obtain ⟨ps, hlen, hev, hf, hm, hpos⟩ := hams fds maps rfl
    obtain ⟨p0, p1, p2, rfl⟩ : ∃ p0 p1 p2, ps = [p0, p1, p2] := by
      match ps, hlen with
      | [a, b, c], _ => exact ⟨a, b, c, rfl⟩
    simp only [List.map_cons, List.map_nil, List.nil_append, List.flatten_cons,
      List.flatten_nil, List.append_nil] at hev hf hm
    subst hev hf hm
    obtain ⟨henk, hens⟩ := enqueue_loop_spec env v4l2_fd mp [p0.2.1, p1.2.1, p2.2.1] num_buffers
      (h ++ Event.ioctl_reqbufs v4l2_fd num_buffers type V4L2_MEMORY_DMABUF 0 granted :: hoe ++
        (alloc_map_events hofd pix.sizeimage p0 ++ (alloc_map_events hofd pix.sizeimage p1 ++
          alloc_map_events hofd pix.sizeimage p2))) 0
    generalize enqueue_loop env v4l2_fd mp [p0.2.1, p1.2.1, p2.2.1] num_buffers
      (h ++ Event.ioctl_reqbufs v4l2_fd num_buffers type V4L2_MEMORY_DMABUF 0 granted :: hoe ++
        (alloc_map_events hofd pix.sizeimage p0 ++ (alloc_map_events hofd pix.sizeimage p1 ++
          alloc_map_events hofd pix.sizeimage p2))) 0 = en at henk hens
    obtain ⟨ene, enr⟩ := en
    simp only [] at henk hens ⊢
    have henk2 : ∀ e, e ∈ ene → e.kind ∈ setup_kinds := by
      intro e he; rw [henk e he]; simp [setup_kinds]
    have hfail : ∀ e, e ∈ hoe ++ (alloc_map_events hofd pix.sizeimage p0 ++
        (alloc_map_events hofd pix.sizeimage p1 ++ alloc_map_events hofd pix.sizeimage p2)) ++ ene →
        e.kind ∈ setup_kinds := by
      intro e he
      rcases List.mem_append.mp he with he | he
      · rcases List.mem_append.mp he with he | he
        · exact hok2 e he
        · exact hamk2 e he
      · exact henk2 e he
    cases enr with
    | none =>
      simp only []
      exact ⟨0, granted, _, by simp, fun hc => absurd hc (by simp [hg]), Or.inl ⟨⟨_, rfl⟩, hfail⟩⟩
    | some b =>
      cases b with
      | false =>
        simp only []
        exact ⟨0, granted, _, by simp, fun hc => absurd hc (by simp [hg]),
          Or.inl ⟨⟨_, rfl⟩, hfail⟩⟩
      | true =>
        simp only []
        have hene := hens rfl
        simp only [num_buffers, List.range_succ, List.range_zero, List.nil_append,
          List.map_cons, List.map_nil, List.cons_append, Nat.zero_add, Nat.add_zero,
          List.getD_cons_zero, List.getD_cons_succ] at hene
        subst hene
        generalize env.ioctl_streamon _ v4l2_fd type = so
        have hev : ∀ o : Outcome ⊕ (List Int × List Nat),
            (if so ≠ 0 then
              (Event.ioctl_reqbufs v4l2_fd num_buffers type V4L2_MEMORY_DMABUF 0 granted :: hoe ++
                (alloc_map_events hofd pix.sizeimage p0 ++
                  (alloc_map_events hofd pix.sizeimage p1 ++
                    alloc_map_events hofd pix.sizeimage p2)) ++
                [Event.ioctl_qbuf v4l2_fd (qbuf_arg mp 0 p0.2.1) 0,
                  Event.ioctl_qbuf v4l2_fd (qbuf_arg mp 1 p1.2.1) 0,
                  Event.ioctl_qbuf v4l2_fd (qbuf_arg mp 2 p2.2.1) 0] ++
                [Event.ioctl_streamon v4l2_fd type so], Sum.inl (Outcome.returned 0))
            else
              (Event.ioctl_reqbufs v4l2_fd num_buffers type V4L2_MEMORY_DMABUF 0 granted :: hoe ++
                (alloc_map_events hofd pix.sizeimage p0 ++
                  (alloc_map_events hofd pix.sizeimage p1 ++
                    alloc_map_events hofd pix.sizeimage p2)) ++
                [Event.ioctl_qbuf v4l2_fd (qbuf_arg mp 0 p0.2.1) 0,
                  Event.ioctl_qbuf v4l2_fd (qbuf_arg mp 1 p1.2.1) 0,
                  Event.ioctl_qbuf v4l2_fd (qbuf_arg mp 2 p2.2.1) 0] ++
                [Event.ioctl_streamon v4l2_fd type so], o)).1 =
            Event.ioctl_reqbufs v4l2_fd num_buffers type V4L2_MEMORY_DMABUF 0 granted ::
              (hoe ++ (alloc_map_events hofd pix.sizeimage p0 ++
                alloc_map_events hofd pix.sizeimage p1 ++
                alloc_map_events hofd pix.sizeimage p2 ++
                [Event.ioctl_qbuf v4l2_fd (qbuf_arg mp 0 p0.2.1) 0,
                  Event.ioctl_qbuf v4l2_fd (qbuf_arg mp 1 p1.2.1) 0,
                  Event.ioctl_qbuf v4l2_fd (qbuf_arg mp 2 p2.2.1) 0,
                  Event.ioctl_streamon v4l2_fd type so])) := by
          intro o
          by_cases hso : so = 0 <;> simp [hso]
        refine ⟨0, granted, _, hev _, fun hc => absurd hc (by simp [hg]), Or.inr ?_⟩
        refine ⟨hoe, hofd, p0, p1, p2, so, rfl, by omega, hok, rfl,
          hpos p0 (by simp), hpos p1 (by simp), hpos p2 (by simp), ?_⟩
        by_cases hso : so = 0 <;> simp [hso]

/-- The calls of `open_video_device` are of the kinds `open_kinds`. -/
theorem open_video_device_kinds (env : Env) (h : Trace) (vdevice : String) (w ht fcc : Nat) :
    ∀ e, e ∈ (open_video_device env h vdevice w ht fcc).events → e.kind ∈ open_kinds := by
  intro e he
  rcases open_video_device_shape env h vdevice w ht fcc with
    ⟨fd, hev, _⟩ | ⟨fd, rq, caps, hev, _⟩ | ⟨fd, caps, mp, _, heq⟩
  · rw [hev] at he
    simp only [List.mem_singleton] at he
    subst he; simp [Event.kind, open_kinds]
  · rw [hev] at he
    simp only [List.mem_cons, List.mem_singleton, List.not_mem_nil, or_false] at he
    rcases he with rfl | rfl | rfl <;> simp [Event.kind, open_kinds]
  · rw [heq] at he
    obtain ⟨a0, g, hshape⟩ := open_video_device_format_shape env h
      [Event.sys_open vdevice O_RDWR fd, Event.ioctl_querycap fd 0 caps] fd w ht fcc mp
    rcases hshape with ⟨r1, _, hev, _⟩ | ⟨rs, s, _, hev, _⟩ |
      ⟨s, r2, g2, _, hev, _⟩ | ⟨s, g2, hev, _, _⟩
    · rw [hev] at he
      simp only [List.cons_append, List.nil_append, List.mem_cons, List.not_mem_nil,
        or_false] at he
      rcases he with rfl | rfl | rfl | rfl <;> simp [Event.kind, open_kinds]
    · rw [hev] at he
      simp only [List.cons_append, List.nil_append, List.mem_cons, List.not_mem_nil,
        or_false] at he
      rcases he with rfl | rfl | rfl | rfl | rfl <;> simp [Event.kind, open_kinds]
    · rw [hev] at he
      simp only [List.cons_append, List.nil_append, List.mem_cons, List.not_mem_nil,
        or_false] at he
      rcases he with rfl | rfl | rfl | rfl | rfl | rfl <;> simp [Event.kind, open_kinds]
    · rw [hev] at he
      simp only [List.cons_append, List.nil_append, List.mem_cons, List.not_mem_nil,
        or_false] at he
      rcases he with rfl | rfl | rfl | rfl | rfl <;> simp [Event.kind, open_kinds]

/-- The calls of the capture loop are polls and calls of the kinds
`body_kinds`. -/
theorem capture_loop_kinds (env : Env) (args : arguments_t) (v4l2_fd : Int) (mp : Bool)
    (fds : List Int) (maps : List Nat) :
    ∀ (fuel : Nat) (h : Trace) (lc : Nat) (e : Event),
      e ∈ (capture_loop env args v4l2_fd mp fds maps fuel h lc).1 →
        e.kind = Kind.k_poll ∨ e.kind ∈ body_kinds := by
  intro fuel
  induction fuel with
  | zero => intro h lc e he; simp [capture_loop] at he
  | succ fuel ih =>
    intro h lc e he
    have hbody : ∀ e, e ∈ (loop_body env args v4l2_fd mp fds maps fuel
        (h ++ [Event.poll v4l2_fd (to_int args.timeout_ms)
          (env.poll h v4l2_fd (to_int args.timeout_ms))]) lc).1 →
        e.kind ∈ body_kinds := by
      intro e he
      obtain ⟨ret, out, rest, hev, _, _, hall⟩ := loop_body_events env args v4l2_fd mp fds maps
        fuel (h ++ [Event.poll v4l2_fd (to_int args.timeout_ms)
          (env.poll h v4l2_fd (to_int args.timeout_ms))]) lc
      rw [hev] at he
      rcases List.mem_cons.mp he with rfl | he
      · simp [Event.kind, body_kinds]
      · exact (hall e he).1
    rcases capture_loop_cases env args v4l2_fd mp fds maps fuel h lc with
      ⟨hblk, hblkres⟩ | ⟨hsp, ⟨_, hres⟩ | ⟨_, o, _, hres⟩ | ⟨_, _, hres⟩⟩
    · rw [hblkres] at he
      simp only [List.mem_singleton] at he
      subst he; left; rfl
    · rw [hres] at he
      simp only [List.mem_singleton] at he
      subst he; left; rfl
    · rw [hres] at he
      rcases List.mem_cons.mp he with rfl | he
      · left; rfl
      · right; exact hbody e he
    · rw [hres] at he
      rcases List.mem_cons.mp he with rfl | he
      · left; rfl
      · rcases List.mem_append.mp he with he | he
        · right; exact hbody e he
        · exact ih _ _ e he

/-- A sequence that holds exactly one element with the property `p` splits at
that element in one way only. -/
theorem split_unique {α : Type} (p : α → Prop) :
    ∀ (xs ys pre post : List α) (a b : α),
      (∀ x, x ∈ xs → ¬ p x) → (∀ y, y ∈ ys → ¬ p y) → p b →
      xs ++ a :: ys = pre ++ b :: post → pre = xs ∧ b = a ∧ post = ys := by
  intro xs
  induction xs with
  | nil =>
    intro ys pre post a b _ hys hb heq
    cases pre with
    | nil =>
      simp only [List.nil_append, List.cons.injEq] at heq
      exact ⟨rfl, heq.1.symm, heq.2.symm⟩
    | cons c pre =>
      simp only [List.nil_append, List.cons_append, List.cons.injEq] at heq
      exact absurd hb (hys b (by rw [heq.2]; simp))
  | cons x xs ih =>
    intro ys pre post a b hxs hys hb heq
    cases pre with
    | nil =>
      simp only [List.nil_append, List.cons_append, List.cons.injEq] at heq
      exact absurd (heq.1 ▸ hb) (hxs x (List.mem_cons_self _ _))
    | cons c pre =>
      simp only [List.cons_append, List.cons.injEq] at heq
      obtain ⟨h1, h2, h3⟩ := ih ys pre post a b
        (fun y hy => hxs y (List.mem_cons_of_mem _ hy)) hys hb heq.2
      exact ⟨by rw [heq.1, h1], h2, h3⟩

/-- An element with the property `p` of a concatenation whose first part holds
no such element lies in the second part. -/
theorem split_in_right {α : Type} (p : α → Prop) :
    ∀ (xs r pre post : List α) (b : α),
      (∀ x, x ∈ xs → ¬ p x) → p b →
      xs ++ r = pre ++ b :: post → ∃ pre1, pre = xs ++ pre1 ∧ r = pre1 ++ b :: post := by
  intro xs
  induction xs with
  | nil => intro r pre post b _ _ heq; exact ⟨pre, rfl, by simpa using heq⟩
  | cons x xs ih =>
    intro r pre post b hxs hb heq
    cases pre with
    | nil =>
      simp only [List.nil_append, List.cons_append, List.cons.injEq] at heq
      exact absurd (heq.1 ▸ hb) (hxs x (List.mem_cons_self _ _))
    | cons c pre =>
      simp only [List.cons_append, List.cons.injEq] at heq
      obtain ⟨pre1, h1, h2⟩ := ih r pre post b
        (fun y hy => hxs y (List.mem_cons_of_mem _ hy)) hb heq.2
      exact ⟨pre1, by rw [heq.1, h1]; rfl, h2⟩

/-- The calls of `main_run`: those of `open_video_device`; when it succeeded,
those of `setup_streaming`; when stream-on succeeded, those of the capture
loop, run on the arrays that `setup_streaming` filled. -/
theorem main_run_shape (env : Env) (args : arguments_t) (fuel : Nat) :
    ∃ O rest, (main_run env args fuel).1 = O ++ rest ∧ (∀ e, e ∈ O → e.kind ∈ open_kinds) ∧
      (rest = [] ∨
        ∃ v4l2_fd pix mp,
          (∃ o, (setup_streaming env O v4l2_fd pix mp).2 = Sum.inl o ∧
            rest = (setup_streaming env O v4l2_fd pix mp).1) ∨
          (∃ fds maps, (setup_streaming env O v4l2_fd pix mp).2 = Sum.inr (fds, maps) ∧
            rest = (setup_streaming env O v4l2_fd pix mp).1 ++
              (capture_loop env args v4l2_fd mp fds maps fuel
                (O ++ (setup_streaming env O v4l2_fd pix mp).1) 0).1)) := by
  unfold main_run
  simp only []
  have hk := open_video_device_kinds env [] args.vdev_name args.width args.height args.fourcc
  generalize open_video_device env [] args.vdev_name args.width args.height args.fourcc = o
    at hk
  obtain ⟨oe, oret, opix, omp⟩ := o
  simp only [] at hk ⊢
  by_cases hret : oret < 0
  · simp only [hret, if_true]
    exact ⟨oe, [], by simp, hk, Or.inl rfl⟩
  · simp only [hret, if_false]
    cases opix with
    | none => exact ⟨oe, [], by simp, hk, Or.inl rfl⟩
    | some pix =>
      cases omp with
      | none => exact ⟨oe, [], by simp, hk, Or.inl rfl⟩
      | some mp =>
        simp only []
        cases hs : (setup_streaming env oe oret pix mp).2 with
        | inl out =>
          exact ⟨oe, _, rfl, hk, Or.inr ⟨oret, pix, mp, Or.inl ⟨out, hs, rfl⟩⟩⟩
        | inr fm =>
          obtain ⟨fds, maps⟩ := fm
          refine ⟨oe, _, ?_, hk, Or.inr ⟨oret, pix, mp, Or.inr ⟨fds, maps, hs, rfl⟩⟩⟩
          simp

/-- The three forms of the calls of `main_run`: only the calls of
`open_video_device`; or these, request-buffers and calls that end before
stream-on; or the full set-up up to stream-on followed by the calls of the
capture loop, which are there only when stream-on succeeded. -/
theorem main_run_cases (env : Env) (args : arguments_t) (fuel : Nat) :
    ∃ O, (∀ e, e ∈ O → e.kind ∈ open_kinds) ∧
      ((main_run env args fuel).1 = O ∨
        (∃ v4l2_fd type rr granted tail,
          (main_run env args fuel).1 =
            O ++ Event.ioctl_reqbufs v4l2_fd num_buffers type V4L2_MEMORY_DMABUF rr granted ::
              tail ∧
          ((rr ≠ 0 ∨ u32 granted < num_buffers) → tail = []) ∧
          ∀ e, e ∈ tail → e.kind ∈ setup_kinds) ∨
        (∃ v4l2_fd type granted ho heap_fd len p0 p1 p2 mp r C,
          (main_run env args fuel).1 =
            (O ++ Event.ioctl_reqbufs v4l2_fd num_buffers type V4L2_MEMORY_DMABUF 0 granted ::
              (ho ++ (alloc_map_events heap_fd len p0 ++ alloc_map_events heap_fd len p1 ++
                alloc_map_events heap_fd len p2 ++
                [Event.ioctl_qbuf v4l2_fd (qbuf_arg mp 0 p0.2.1) 0,
                  Event.ioctl_qbuf v4l2_fd (qbuf_arg mp 1 p1.2.1) 0,
                  Event.ioctl_qbuf v4l2_fd (qbuf_arg mp 2 p2.2.1) 0]))) ++
              Event.ioctl_streamon v4l2_fd type r :: C ∧
          num_buffers ≤ u32 granted ∧
          (∀ e, e ∈ ho → e.kind = Kind.k_open) ∧
          (0 ≤ p0.1 ∧ 0 ≤ p0.2.1) ∧ (0 ≤ p1.1 ∧ 0 ≤ p1.2.1) ∧ (0 ≤ p2.1 ∧ 0 ≤ p2.2.1) ∧
          (∀ e, e ∈ C → e.kind = Kind.k_poll ∨ e.kind ∈ body_kinds) ∧
          (r ≠ 0 → C = []))) := by
  obtain ⟨O, rest, hT, hO, hrest⟩ := main_run_shape env args fuel
  refine ⟨O, hO, ?_⟩
  rcases hrest with rfl | ⟨v4l2_fd, pix, mp, hcase⟩
  · left; rw [hT]; simp
  obtain ⟨rr, granted, tail, hS1, hsmall, hshape⟩ := setup_streaming_shape env O v4l2_fd pix mp
  rcases hshape with ⟨⟨o, ho⟩, hkinds⟩ | ⟨ho, heap_fd, p0, p1, p2, r, hrr, hg, hhok, htail, hp0,
    hp1, hp2, hS2⟩
  · rcases hcase with ⟨o1, _, hrest⟩ | ⟨fds, maps, hinr, _⟩
    · right; left
      exact ⟨v4l2_fd, (if mp = true then V4L2_BUF_TYPE_VIDEO_CAPTURE_MPLANE else V4L2_BUF_TYPE_VIDEO_CAPTURE),
        rr, granted, tail, by rw [hT, hrest, hS1], hsmall, hkinds⟩
    · rw [ho] at hinr; cases hinr
  · right; right
    subst hrr
    rcases hcase with ⟨o1, hinl, hrest⟩ | ⟨fds, maps, hinr, hrest⟩
    · have hr : r ≠ 0 := by
        intro hr0
        rw [hS2, hr0] at hinl
        simp at hinl
      refine ⟨v4l2_fd, (if mp = true then V4L2_BUF_TYPE_VIDEO_CAPTURE_MPLANE else V4L2_BUF_TYPE_VIDEO_CAPTURE),
        granted, ho, heap_fd, pix.sizeimage, p0, p1, p2, mp, r, [], ?_, hg,
        hhok, hp0, hp1, hp2, by simp, fun _ => rfl⟩
      rw [hT, hrest, hS1, htail]
      simp
    · have hr : r = 0 := by
        by_contra hr0
        rw [hS2, if_pos hr0] at hinr
        cases hinr
      refine ⟨v4l2_fd, (if mp = true then V4L2_BUF_TYPE_VIDEO_CAPTURE_MPLANE else V4L2_BUF_TYPE_VIDEO_CAPTURE),
        granted, ho, heap_fd, pix.sizeimage, p0, p1, p2, mp, r,
        (capture_loop env args v4l2_fd mp fds maps fuel
          (O ++ (setup_streaming env O v4l2_fd pix mp).1) 0).1, ?_, hg,
        hhok, hp0, hp1, hp2, ?_, fun hne => absurd hr hne⟩
      · rw [hT, hrest, hS1, htail]
        simp
      · intro e he
        exact capture_loop_kinds env args v4l2_fd mp fds maps fuel _ 0 e he

/-- C5: in every run of `main`, (1) whenever stream-on is issued, the calls
before it end with: request-buffers, which succeeded and granted at least 3
buffers; the opening of the heap; three allocations and mappings, all
successful; the three queue-buffer calls, all successful, whose buffers carry
the indices 0, 1, 2 in this order, the memory type DMABUF and each the
descriptor allocated for its index (in `m.fd`, or in `m.planes[0].m.fd` with
`length = 1` in multi-planar mode); (2) whenever
a dequeue is issued, a successful stream-on was issued before it; (3) when
request-buffers granted fewer than 3 buffers, the run holds no allocation, no
mapping, no queue-buffer and no dequeue. -/
theorem main_stream_on_order (env : Env) (char_signed : Bool)
    (sscanf_u : String → Option Nat) (opts : List getopt_result) (fuel : Nat) :
    (∀ pre post fd type r,
      (main env char_signed sscanf_u opts fuel).1 = pre ++ Event.ioctl_streamon fd type r :: post →
      ∃ pre0 granted ho heap_fd len ra0 fd0 m0 ra1 fd1 m1 ra2 fd2 m2, ∃ mp : Bool,
        pre = pre0 ++ Event.ioctl_reqbufs fd num_buffers type V4L2_MEMORY_DMABUF 0 granted ::
          (ho ++
            [Event.ioctl_heap_alloc heap_fd len (O_CLOEXEC ||| O_RDWR) ra0 fd0,
              Event.mmap len (PROT_WRITE ||| PROT_READ) MAP_SHARED fd0 (some m0),
              Event.ioctl_heap_alloc heap_fd len (O_CLOEXEC ||| O_RDWR) ra1 fd1,
              Event.mmap len (PROT_WRITE ||| PROT_READ) MAP_SHARED fd1 (some m1),
              Event.ioctl_heap_alloc heap_fd len (O_CLOEXEC ||| O_RDWR) ra2 fd2,
              Event.mmap len (PROT_WRITE ||| PROT_READ) MAP_SHARED fd2 (some m2),
              Event.ioctl_qbuf fd
                (if mp then
                  { index := 0, type := V4L2_BUF_TYPE_VIDEO_CAPTURE_MPLANE, bytesused := 0,
                    memory := V4L2_MEMORY_DMABUF, m_fd := 0, length := 1,
                    planes0 := { bytesused := 0, data_offset := 0, m_fd := fd0 } }
                else
                  { index := 0, type := V4L2_BUF_TYPE_VIDEO_CAPTURE, bytesused := 0,
                    memory := V4L2_MEMORY_DMABUF, m_fd := fd0, length := 0,
                    planes0 := { bytesused := 0, data_offset := 0, m_fd := 0 } }) 0,
              Event.ioctl_qbuf fd
                (if mp then
                  { index := 1, type := V4L2_BUF_TYPE_VIDEO_CAPTURE_MPLANE, bytesused := 0,
                    memory := V4L2_MEMORY_DMABUF, m_fd := 0, length := 1,
                    planes0 := { bytesused := 0, data_offset := 0, m_fd := fd1 } }
                else
                  { index := 1, type := V4L2_BUF_TYPE_VIDEO_CAPTURE, bytesused := 0,
                    memory := V4L2_MEMORY_DMABUF, m_fd := fd1, length := 0,
                    planes0 := { bytesused := 0, data_offset := 0, m_fd := 0 } }) 0,
              Event.ioctl_qbuf fd
                (if mp then
                  { index := 2, type := V4L2_BUF_TYPE_VIDEO_CAPTURE_MPLANE, bytesused := 0,
                    memory := V4L2_MEMORY_DMABUF, m_fd := 0, length := 1,
                    planes0 := { bytesused := 0, data_offset := 0, m_fd := fd2 } }
                else
                  { index := 2, type := V4L2_BUF_TYPE_VIDEO_CAPTURE, bytesused := 0,
                    memory := V4L2_MEMORY_DMABUF, m_fd := fd2, length := 0,
                    planes0 := { bytesused := 0, data_offset := 0, m_fd := 0 } }) 0]) ∧
        num_buffers ≤ u32 granted ∧
        (∀ e, e ∈ pre0 → e.kind ∈ open_kinds) ∧
        (∀ e, e ∈ ho → e.kind = Kind.k_open) ∧
        (0 ≤ ra0 ∧ 0 ≤ fd0) ∧ (0 ≤ ra1 ∧ 0 ≤ fd1) ∧ (0 ≤ ra2 ∧ 0 ≤ fd2) ∧
        (r ≠ 0 → post = [])) ∧
    (∀ pre post fd arg r out,
      (main env char_signed sscanf_u opts fuel).1 = pre ++ Event.ioctl_dqbuf fd arg r out :: post →
      ∃ fd1 type, Event.ioctl_streamon fd1 type 0 ∈ pre) ∧
    (∀ fd c t m r granted,
      Event.ioctl_reqbufs fd c t m r granted ∈ (main env char_signed sscanf_u opts fuel).1 →
      u32 granted < num_buffers →
      ∀ e, e ∈ (main env char_signed sscanf_u opts fuel).1 →
        e.kind ≠ Kind.k_heap_alloc ∧ e.kind ≠ Kind.k_mmap ∧ e.kind ≠ Kind.k_qbuf ∧
        e.kind ≠ Kind.k_dqbuf) := by
  unfold main
  simp only []
  split_ifs with hparse
  · simp
  generalize (parse_arguments char_signed sscanf_u opts default_arguments).2 = args
  obtain ⟨O, hO, hcases⟩ := main_run_cases env args fuel
  have hOk : ∀ e, e ∈ O → e.kind ≠ Kind.k_streamon ∧ e.kind ≠ Kind.k_dqbuf ∧
      e.kind ≠ Kind.k_reqbufs ∧ e.kind ≠ Kind.k_heap_alloc ∧ e.kind ≠ Kind.k_mmap ∧
      e.kind ≠ Kind.k_qbuf := by
    intro e he
    have := hO e he
    simp only [open_kinds, List.mem_cons, List.mem_singleton, List.not_mem_nil, or_false] at this
    rcases this with hk | hk | hk | hk | hk <;> rw [hk] <;> decide
  have hSk : ∀ e : Event, e.kind ∈ setup_kinds → e.kind ≠ Kind.k_streamon ∧
      e.kind ≠ Kind.k_dqbuf ∧ e.kind ≠ Kind.k_reqbufs := by
    intro e this
    simp only [setup_kinds, List.mem_cons, List.mem_singleton, List.not_mem_nil, or_false] at this
    rcases this with hk | hk | hk | hk <;> rw [hk] <;> decide
  have hCk : ∀ e : Event, (e.kind = Kind.k_poll ∨ e.kind ∈ body_kinds) →
      e.kind ≠ Kind.k_streamon ∧ e.kind ≠ Kind.k_reqbufs := by
    intro e this
    simp only [body_kinds, List.mem_cons, List.mem_singleton, List.not_mem_nil, or_false] at this
    rcases this with hk | hk | hk | hk | hk | hk | hk | hk | hk <;> rw [hk] <;> decide
  rcases hcases with hT | ⟨v4l2_fd, type, rr, granted, tail, hT, hsmall, htail⟩ |
    ⟨v4l2_fd, type, granted, ho, heap_fd, len, p0, p1, p2, mp, r, C, hT, hg, hhok, hp0, hp1, hp2,
      hC, hrC⟩
  · -- only the calls of `open_video_device`
    rw [hT]
    refine ⟨?_, ?_, ?_⟩
    · intro pre post fd type r hsplit
      exact absurd rfl (hOk (Event.ioctl_streamon fd type r) (by rw [hsplit]; simp)).1
    · intro pre post fd arg r out hsplit
      exact absurd rfl (hOk (Event.ioctl_dqbuf fd arg r out) (by rw [hsplit]; simp)).2.1
    · intro fd c t m r g hmem
      exact absurd rfl (hOk _ hmem).2.2.1
  · -- the run ends before stream-on
    rw [hT]
    have hall : ∀ e, e ∈ O ++ Event.ioctl_reqbufs v4l2_fd num_buffers type V4L2_MEMORY_DMABUF rr
        granted :: tail → e.kind ≠ Kind.k_streamon ∧ e.kind ≠ Kind.k_dqbuf := by
      intro e he
      rcases List.mem_append.mp he with he | he
      · exact ⟨(hOk e he).1, (hOk e he).2.1⟩
      · rcases List.mem_cons.mp he with rfl | he
        · exact ⟨by simp [Event.kind], by simp [Event.kind]⟩
        · exact ⟨(hSk e (htail e he)).1, (hSk e (htail e he)).2.1⟩
    refine ⟨?_, ?_, ?_⟩
    · intro pre post fd type1 r hsplit
      exact absurd rfl (hall (Event.ioctl_streamon fd type1 r) (by rw [hsplit]; simp)).1
    · intro pre post fd arg r out hsplit
      exact absurd rfl (hall (Event.ioctl_dqbuf fd arg r out) (by rw [hsplit]; simp)).2
    · intro fd c t m r g hmem hlt
      have hg2 : g = granted := by
        rcases List.mem_append.mp hmem with he | he
        · exact absurd rfl (hOk _ he).2.2.1
        · rcases List.mem_cons.mp he with he | he
          · injection he with _ _ _ _ _ h6
          · exact absurd rfl (hSk _ (htail _ he)).2.2
      subst hg2
      rw [hsmall (Or.inr hlt)]
      intro e he
      rcases List.mem_append.mp he with he | he
      · exact ⟨(hOk e he).2.2.2.1, (hOk e he).2.2.2.2.1, (hOk e he).2.2.2.2.2, (hOk e he).2.1⟩
      · simp only [List.mem_singleton] at he
        subst he
        exact ⟨by simp [Event.kind], by simp [Event.kind], by simp [Event.kind], by simp [Event.kind]⟩
  · -- the full set-up up to stream-on
    rw [hT]
    have hX : ∀ e, e ∈ O ++ Event.ioctl_reqbufs v4l2_fd num_buffers type V4L2_MEMORY_DMABUF 0
        granted :: (ho ++ (alloc_map_events heap_fd len p0 ++ alloc_map_events heap_fd len p1 ++
          alloc_map_events heap_fd len p2 ++
          [Event.ioctl_qbuf v4l2_fd (qbuf_arg mp 0 p0.2.1) 0,
            Event.ioctl_qbuf v4l2_fd (qbuf_arg mp 1 p1.2.1) 0,
            Event.ioctl_qbuf v4l2_fd (qbuf_arg mp 2 p2.2.1) 0])) →
        e.kind ≠ Kind.k_streamon ∧ e.kind ≠ Kind.k_dqbuf ∧
        (∀ fd c t m r g, e = Event.ioctl_reqbufs fd c t m r g → g = granted) := by
      intro e he
      rcases List.mem_append.mp he with he | he
      · exact ⟨(hOk e he).1, (hOk e he).2.1, fun fd c t m r g hc =>
          absurd (by rw [hc]; rfl) (hOk e he).2.2.1⟩
      rcases List.mem_cons.mp he with rfl | he
      · refine ⟨by simp [Event.kind], by simp [Event.kind], ?_⟩
        intro fd c t m r g hc
        injection hc with _ _ _ _ _ h6
        exact h6.symm
      rcases List.mem_append.mp he with he | he
      · have hk := hhok e he
        refine ⟨by rw [hk]; decide, by rw [hk]; decide, ?_⟩
        intro fd c t m r g hc
        rw [hc] at hk
        exact absurd hk (by simp [Event.kind])
      simp only [alloc_map_events, List.cons_append, List.nil_append, List.mem_cons,
        List.not_mem_nil, or_false] at he
      rcases he with rfl | rfl | rfl | rfl | rfl | rfl | rfl | rfl | rfl <;>
        exact ⟨by simp [Event.kind], by simp [Event.kind], fun fd c t m r g hc => by cases hc⟩
    have hCs : ∀ e, e ∈ C → ¬ (e.kind = Kind.k_streamon) := fun e he => (hCk e (hC e he)).1
    refine ⟨?_, ?_, ?_⟩
    · intro pre post fd type1 r1 hsplit
      obtain ⟨hpre, hb, hpost⟩ := split_unique (fun e => e.kind = Kind.k_streamon) _ C pre post
        (Event.ioctl_streamon v4l2_fd type r) (Event.ioctl_streamon fd type1 r1)
        (fun e he => (hX e he).1) hCs rfl hsplit
      injection hb with h1 h2 h3
      subst h1 h2 h3
      refine ⟨O, granted, ho, heap_fd, len, p0.1, p0.2.1, p0.2.2, p1.1, p1.2.1, p1.2.2,
        p2.1, p2.2.1, p2.2.2, mp, ?_, hg, hO, hhok, hp0, hp1, hp2, ?_⟩
      · rw [hpre]
        simp only [← qbuf_arg_eq]
        simp [alloc_map_events]
      · intro hr
        rw [hpost]
        exact hrC hr
    · intro pre post fd arg r1 out hsplit
      have hXs : ∀ e, e ∈ (O ++ Event.ioctl_reqbufs v4l2_fd num_buffers type V4L2_MEMORY_DMABUF 0
          granted :: (ho ++ (alloc_map_events heap_fd len p0 ++ alloc_map_events heap_fd len p1 ++
            alloc_map_events heap_fd len p2 ++
            [Event.ioctl_qbuf v4l2_fd (qbuf_arg mp 0 p0.2.1) 0,
              Event.ioctl_qbuf v4l2_fd (qbuf_arg mp 1 p1.2.1) 0,
              Event.ioctl_qbuf v4l2_fd (qbuf_arg mp 2 p2.2.1) 0]))) ++
          [Event.ioctl_streamon v4l2_fd type r] → ¬ (e.kind = Kind.k_dqbuf) := by
        intro e he
        rcases List.mem_append.mp he with he | he
        · exact (hX e he).2.1
        · simp only [List.mem_singleton] at he
          subst he; simp [Event.kind]
      have hsplit2 : ((O ++ Event.ioctl_reqbufs v4l2_fd num_buffers type V4L2_MEMORY_DMABUF 0
          granted :: (ho ++ (alloc_map_events heap_fd len p0 ++ alloc_map_events heap_fd len p1 ++
            alloc_map_events heap_fd len p2 ++
            [Event.ioctl_qbuf v4l2_fd (qbuf_arg mp 0 p0.2.1) 0,
              Event.ioctl_qbuf v4l2_fd (qbuf_arg mp 1 p1.2.1) 0,
              Event.ioctl_qbuf v4l2_fd (qbuf_arg mp 2 p2.2.1) 0]))) ++
          [Event.ioctl_streamon v4l2_fd type r]) ++ C
          = pre ++ Event.ioctl_dqbuf fd arg r1 out :: post := by
        rw [← hsplit]; simp
      obtain ⟨pre1, hpre, hCeq⟩ := split_in_right (fun e => e.kind = Kind.k_dqbuf) _ C pre post
        (Event.ioctl_dqbuf fd arg r1 out) hXs rfl hsplit2
      have hr : r = 0 := by
        by_contra hr
        rw [hrC hr] at hCeq
        cases pre1 <;> simp at hCeq
      subst hr
      exact ⟨v4l2_fd, type, by rw [hpre]; simp⟩
    · intro fd c t m r1 g hmem hlt
      exfalso
      have hg2 : g = granted := by
        rcases List.mem_append.mp hmem with he | he
        · exact (hX _ he).2.2 fd c t m r1 g rfl
        · rcases List.mem_cons.mp he with he | he
          · cases he
          · exact absurd rfl (hCk _ (hC _ he)).2
      subst hg2
      omega

/-- C5 (witness of `main_stream_on_order`): in the run against `env_ok` stream-on is
call number 16 (counted from 0); the eleven calls before it are
request-buffers, the heap open, the three allocations and mappings (with the
descriptors 7, 9, 11) and the three queue-buffer calls for the indices 0, 1, 2
with the descriptors 7, 9, 11. -/
theorem main_stream_on_order_witness :
    (main env_ok false (fun _ => none) [] 2).1 =
      (main env_ok false (fun _ => none) [] 2).1.take 16 ++
        Event.ioctl_streamon 3 V4L2_BUF_TYPE_VIDEO_CAPTURE 0 ::
          (main env_ok false (fun _ => none) [] 2).1.drop 17 ∧
    ((main env_ok false (fun _ => none) [] 2).1.drop 5).take 12 =
      [Event.ioctl_reqbufs 3 3 V4L2_BUF_TYPE_VIDEO_CAPTURE V4L2_MEMORY_DMABUF 0 3,
        Event.sys_open "/dev/dma_heap/linux,cma" O_RDWR 4,
        Event.ioctl_heap_alloc 4 614400 (O_CLOEXEC ||| O_RDWR) 0 7,
        Event.mmap 614400 (PROT_WRITE ||| PROT_READ) MAP_SHARED 7 (some 28672),
        Event.ioctl_heap_alloc 4 614400 (O_CLOEXEC ||| O_RDWR) 0 9,
        Event.mmap 614400 (PROT_WRITE ||| PROT_READ) MAP_SHARED 9 (some 36864),
        Event.ioctl_heap_alloc 4 614400 (O_CLOEXEC ||| O_RDWR) 0 11,
        Event.mmap 614400 (PROT_WRITE ||| PROT_READ) MAP_SHARED 11 (some 45056),
        Event.ioctl_qbuf 3
          { index := 0, type := V4L2_BUF_TYPE_VIDEO_CAPTURE, bytesused := 0,
            memory := V4L2_MEMORY_DMABUF, m_fd := 7, length := 0,
            planes0 := { bytesused := 0, data_offset := 0, m_fd := 0 } } 0,
        Event.ioctl_qbuf 3
          { index := 1, type := V4L2_BUF_TYPE_VIDEO_CAPTURE, bytesused := 0,
            memory := V4L2_MEMORY_DMABUF, m_fd := 9, length := 0,
            planes0 := { bytesused := 0, data_offset := 0, m_fd := 0 } } 0,
        Event.ioctl_qbuf 3
          { index := 2, type := V4L2_BUF_TYPE_VIDEO_CAPTURE, bytesused := 0,
            memory := V4L2_MEMORY_DMABUF, m_fd := 11, length := 0,
            planes0 := { bytesused := 0, data_offset := 0, m_fd := 0 } } 0,
        Event.ioctl_streamon 3 V4L2_BUF_TYPE_VIDEO_CAPTURE 0] ∧
    (
      ∃ pre0 granted ho heap_fd len ra0 fd0 m0 ra1 fd1 m1 ra2 fd2 m2, ∃ mp : Bool,
        (main env_ok false (fun _ => none) [] 2).1.take 16 =
          pre0 ++ Event.ioctl_reqbufs 3 num_buffers V4L2_BUF_TYPE_VIDEO_CAPTURE
            V4L2_MEMORY_DMABUF 0 granted ::
          (ho ++
            [Event.ioctl_heap_alloc heap_fd len (O_CLOEXEC ||| O_RDWR) ra0 fd0,
              Event.mmap len (PROT_WRITE ||| PROT_READ) MAP_SHARED fd0 (some m0),
              Event.ioctl_heap_alloc heap_fd len (O_CLOEXEC ||| O_RDWR) ra1 fd1,
              Event.mmap len (PROT_WRITE ||| PROT_READ) MAP_SHARED fd1 (some m1),
              Event.ioctl_heap_alloc heap_fd len (O_CLOEXEC ||| O_RDWR) ra2 fd2,
              Event.mmap len (PROT_WRITE ||| PROT_READ) MAP_SHARED fd2 (some m2),
              Event.ioctl_qbuf 3
                (if mp then
                  { index := 0, type := V4L2_BUF_TYPE_VIDEO_CAPTURE_MPLANE, bytesused := 0,
                    memory := V4L2_MEMORY_DMABUF, m_fd := 0, length := 1,
                    planes0 := { bytesused := 0, data_offset := 0, m_fd := fd0 } }
                else
                  { index := 0, type := V4L2_BUF_TYPE_VIDEO_CAPTURE, bytesused := 0,
                    memory := V4L2_MEMORY_DMABUF, m_fd := fd0, length := 0,
                    planes0 := { bytesused := 0, data_offset := 0, m_fd := 0 } }) 0,
              Event.ioctl_qbuf 3
                (if mp then
                  { index := 1, type := V4L2_BUF_TYPE_VIDEO_CAPTURE_MPLANE, bytesused := 0,
                    memory := V4L2_MEMORY_DMABUF, m_fd := 0, length := 1,
                    planes0 := { bytesused := 0, data_offset := 0, m_fd := fd1 } }
                else
                  { index := 1, type := V4L2_BUF_TYPE_VIDEO_CAPTURE, bytesused := 0,
                    memory := V4L2_MEMORY_DMABUF, m_fd := fd1, length := 0,
                    planes0 := { bytesused := 0, data_offset := 0, m_fd := 0 } }) 0,
              Event.ioctl_qbuf 3
                (if mp then
                  { index := 2, type := V4L2_BUF_TYPE_VIDEO_CAPTURE_MPLANE, bytesused := 0,
                    memory := V4L2_MEMORY_DMABUF, m_fd := 0, length := 1,
                    planes0 := { bytesused := 0, data_offset := 0, m_fd := fd2 } }
                else
                  { index := 2, type := V4L2_BUF_TYPE_VIDEO_CAPTURE, bytesused := 0,
                    memory := V4L2_MEMORY_DMABUF, m_fd := fd2, length := 0,
                    planes0 := { bytesused := 0, data_offset := 0, m_fd := 0 } }) 0]) ∧
        num_buffers ≤ u32 granted ∧
        (∀ e, e ∈ pre0 → e.kind ∈ open_kinds) ∧
        (∀ e, e ∈ ho → e.kind = Kind.k_open) ∧
        (0 ≤ ra0 ∧ 0 ≤ fd0) ∧ (0 ≤ ra1 ∧ 0 ≤ fd1) ∧ (0 ≤ ra2 ∧ 0 ≤ fd2) ∧
        ((0 : Int) ≠ 0 → (main env_ok false (fun _ => none) [] 2).1.drop 17 = [])) :=
  ⟨by decide, by decide,
    (main_stream_on_order env_ok false (fun _ => none) [] 2).1
      ((main env_ok false (fun _ => none) [] 2).1.take 16)
      ((main env_ok false (fun _ => none) [] 2).1.drop 17)
      3 V4L2_BUF_TYPE_VIDEO_CAPTURE 0 (by decide)⟩

/-- C8 (failing input): with a sync ioctl that fails with EINVAL when CPU access
is to start, `dmabuf_sync_start` returns -1 for the buffer that was dequeued,
and `main` still goes on to open the output file, read the mapped memory of
that buffer with `fwrite`, call `dmabuf_sync_stop` and queue the buffer again. -/
theorem main_ignores_failed_sync_start :
    ((main env_sync_start_fails false (fun _ => none) [] 10).1.drop 18).take 10 =
      [Event.ioctl_dqbuf 3 (dqbuf_arg false) 0
          { dqbuf_arg false with index := 0, bytesused := 614400 },
        Event.call_dmabuf_sync 7 true,
        Event.ioctl_sync 7 (DMA_BUF_SYNC_START ||| DMA_BUF_SYNC_RW) (-1) EINVAL,
        Event.asprintf (some "/tmp/image_0.raw"),
        Event.fopen "/tmp/image_0.raw" true,
        Event.fwrite 28672 614400 "/tmp/image_0.raw",
        Event.fclose "/tmp/image_0.raw",
        Event.call_dmabuf_sync 7 false,
        Event.ioctl_sync 7 (DMA_BUF_SYNC_END ||| DMA_BUF_SYNC_RW) 0 0,
        Event.ioctl_qbuf 3 (qbuf_arg false 0 7) 0] ∧
    (dmabuf_sync_start (env_sync_start_fails.ioctl_sync []) 7 10).2 = some (-1) := by
  decide

end DmabufV4l2
